import Mathlib

/-!
# NimBLE-Arduino: client connection lifecycle and service discovery

A shallow embedding of `src/NimBLEClient.cpp` (the central side of the GATT layer).

The client object is a record of its member variables.  Everything the client
calls but does not define (the BLE host stack, `NimBLEDevice`, the user's
callback object) is part of a `World`: the host stack is a script of answers and
of events, and every call that leaves the client is recorded, in order, in the
list of `Call`s an operation returns.  User callbacks are recorded as calls and
have no effect on the client of their own.

The two execution contexts of the program are sequentialised: the host-event
context runs `handleGapEvent` / `serviceDiscoveredCB` only while the caller
context is blocked on a gate, one event at a time, in the order of the script.
-/

namespace NimBLE

/-! ## Host stack constants (values of the NimBLE host headers) -/

/-- Invalid connection handle, `BLE_HS_CONN_HANDLE_NONE` of the host stack. -/
def BLE_HS_CONN_HANDLE_NONE : Nat := 0xffff

/-- Status `BLE_HS_EDONE` of the host stack: the procedure is complete. -/
def BLE_HS_EDONE : Int := 14

/-- Status `BLE_HS_EBUSY` of the host stack: the operation cannot be performed now. -/
def BLE_HS_EBUSY : Int := 15

/-- Reason code `BLE_ERR_REM_USER_CONN_TERM`, the default argument of `disconnect`. -/
def BLE_ERR_REM_USER_CONN_TERM : Nat := 0x13

/-! ## Data model -/

/-- A peer address, `NimBLEAddress`: the 48-bit link-layer address as a number. -/
abbrev NimBLEAddress := Nat

/-- The `operator<` of `std::string`, on the characters of the two strings: the first
differing character decides, and a proper prefix is smaller. -/
def strLess : List Char → List Char → Bool
  | _, [] => false
  | [], _ :: _ => true
  | a :: as, b :: bs =>
    if a.toNat < b.toNat then true
    else if b.toNat < a.toNat then false
    else strLess as bs

/-- The method `std::map<std::string, V>::insert` on the map as the list of its entries in
iteration order: the entry goes in front of the first greater key, and nothing is
inserted when an equivalent key is already there. -/
def mapInsert {V : Type} (k : String) (v : V) : List (String × V) → List (String × V)
  | [] => [(k, v)]
  | (k1, v1) :: m =>
    if strLess k.data k1.data then (k, v) :: (k1, v1) :: m
    else if strLess k1.data k.data then (k1, v1) :: mapInsert k v m
    else (k1, v1) :: m

/-- Modelled from the spec: `FreeRTOS::Semaphore` is not in the source.  It is the
spec's Synchronization Bridge, a binary gate with "give with result code"
semantics: `taken` says the gate is armed, `value` is the result slot. -/
structure Semaphore where
  taken : Bool := false
  value : Int := 0
  deriving DecidableEq, Repr

/-- Modelled from the spec: arming the gate (`take`). -/
def Semaphore.take (s : Semaphore) : Semaphore := { s with taken := true }

/-- Modelled from the spec: releasing the gate without a result (`give()`); the
result slot keeps its value. -/
def Semaphore.give (s : Semaphore) : Semaphore := { s with taken := false }

/-- Modelled from the spec: resolving the gate with a result (`give(value)`). -/
def Semaphore.giveValue (_s : Semaphore) (value : Int) : Semaphore :=
  { taken := false, value := value }

/-- Modelled from the spec: `NimBLERemoteCharacteristic` is not in the source.  A
discovered characteristic: UUID string, attribute handle, and whether a
notify/indicate callback is registered (`m_notifyCallback != nullptr`). -/
structure NimBLERemoteCharacteristic where
  uuid : String
  handle : Nat
  m_notifyCallback : Bool := false
  deriving DecidableEq, Repr

/-- The service record `ble_gatt_svc` a service-discovery callback carries. -/
structure ble_gatt_svc where
  start_handle : Nat
  end_handle : Nat
  uuid : String
  deriving DecidableEq, Repr

/-- Modelled from the spec: `NimBLERemoteService` is not in the source.  A discovered
service: UUID, start/end handle range, a UUID-string map of its characteristics
and a handle-indexed map of them. -/
structure NimBLERemoteService where
  uuid : String
  startHandle : Nat
  endHandle : Nat
  m_characteristicMap : List (String × NimBLERemoteCharacteristic) := []
  m_characteristicMapByHandle : List (Nat × NimBLERemoteCharacteristic) := []
  deriving DecidableEq, Repr

/-- Modelled from the spec: the constructor `NimBLERemoteService(peer, service)`, which
takes UUID and handle range from the discovered record and owns no
characteristic yet. -/
def NimBLERemoteService.ofSvc (service : ble_gatt_svc) : NimBLERemoteService :=
  { uuid := service.uuid, startHandle := service.start_handle, endHandle := service.end_handle }

/-- Modelled from the spec: `NimBLERemoteService::getEndHandle`. -/
def NimBLERemoteService.getEndHandle (s : NimBLERemoteService) : Nat := s.endHandle

/-- Modelled from the spec: `NimBLERemoteService::getCharacteristic(uuid)`, a UUID lookup
where the first match wins. -/
def NimBLERemoteService.getCharacteristic (s : NimBLERemoteService) (uuid : String) :
    Option NimBLERemoteCharacteristic :=
  (s.m_characteristicMap.find? (fun p => p.1 == uuid)).map (fun p => p.2)

/-- Modelled from the spec: `find` on the handle-indexed map that
`NimBLERemoteService::getCharacteristicsByHandle` returns. -/
def NimBLERemoteService.findByHandle (s : NimBLERemoteService) (h : Nat) :
    Option NimBLERemoteCharacteristic :=
  (s.m_characteristicMapByHandle.find? (fun p => p.1 == h)).map (fun p => p.2)

/-- The user's callback object `NimBLEClientCallbacks`: the two virtual methods whose
return value the client uses.  The other methods return nothing and appear only
as recorded calls. -/
structure NimBLEClientCallbacks where
  onPassKeyRequest : Nat := 0
  onConfirmPIN : Nat → Bool := fun _ => false

/-- Action kinds of a passkey event, `BLE_SM_IOACT_*`. -/
inductive ble_sm_ioact
  | NONE
  | OOB
  | INPUT
  | DISP
  | NUMCMP
  | OTHER (code : Nat)
  deriving DecidableEq, Repr

/-- The pairing response `struct ble_sm_io` handed to the host stack, zero-initialised
by `pkey = {0}`. -/
structure ble_sm_io where
  action : ble_sm_ioact := ble_sm_ioact.NONE
  passkey : Nat := 0
  oob : List Nat := List.replicate 16 0
  numcmp_accept : Bool := false
  deriving DecidableEq, Repr

/-- The event record `struct ble_gap_event`: a type tag with its payload. -/
inductive ble_gap_event
  | connect (status : Int) (conn_handle : Nat)
  | disconnect (reason : Int) (conn_handle : Nat)
  | notify_rx (conn_handle : Nat) (attr_handle : Nat) (om_data : List Nat) (indication : Bool)
  | l2cap_update_req (conn_handle : Nat)
  | enc_change (status : Int) (conn_handle : Nat)
  | passkey_action (conn_handle : Nat) (action : ble_sm_ioact) (numcmp : Nat)
  | other (conn_handle : Nat)
  deriving DecidableEq, Repr

/-- What the host-event context delivers while a discover-all-services procedure is
outstanding: a GAP event, or one invocation of the service-discovery callback
with its connection handle, status and service record. -/
inductive HostEvent
  | gap (event : ble_gap_event)
  | svc (conn_handle : Nat) (status : Int) (service : ble_gatt_svc)
  deriving DecidableEq, Repr

/-- A call that leaves the client: a request to the host stack, a call into
`NimBLEDevice`, a user callback, or a call into a remote service or characteristic. -/
inductive Call
  | ble_gap_connect (addr : NimBLEAddress) (type : Nat)
  | ble_gap_terminate (conn_handle : Nat) (reason : Nat)
  | ble_gattc_disc_all_svcs (conn_handle : Nat)
  | ble_gap_conn_find (conn_handle : Nat)
  | ble_gap_conn_rssi (conn_handle : Nat)
  | ble_att_mtu (conn_handle : Nat)
  | ble_sm_inject_io (conn_handle : Nat) (pkey : ble_sm_io)
  | startSecurity (conn_handle : Nat)
  | addIgnored (addr : NimBLEAddress)
  | removeIgnored (addr : NimBLEAddress)
  | onConnect
  | onDisconnect
  | onConfirmPIN (pin : Nat)
  | onPassKeyRequest
  | onAuthenticationComplete
  | notifyCallback (attr_handle : Nat) (data : List Nat) (isNotification : Bool)
  | retrieveCharacteristics (serviceUUID : String)
  | wireRead (conn_handle : Nat) (attr_handle : Nat)
  | wireWrite (conn_handle : Nat) (attr_handle : Nat) (value : String)
  deriving DecidableEq, Repr

/-- The client object: the member variables of `class NimBLEClient` (NimBLEClient.h),
with the services map as the list of its entries in iteration order. -/
structure NimBLEClient where
  m_peerAddress : NimBLEAddress := 0
  m_conn_id : Nat := BLE_HS_CONN_HANDLE_NONE
  m_haveServices : Bool := false
  m_isConnected : Bool := false
  m_waitingToConnect : Bool := false
  m_deleteCallbacks : Bool := true
  m_pClientCallbacks : Option NimBLEClientCallbacks := none
  m_semaphoreOpenEvt : Semaphore := {}
  m_semaphoreSearchCmplEvt : Semaphore := {}
  m_semeaphoreSecEvt : Semaphore := {}
  m_servicesMap : List (String × NimBLERemoteService) := []

/-- The static members of `NimBLEDevice` the client reads: the host-sync flag, whether
a security-callback interface is registered, and the stored passkey. -/
structure NimBLEDevice where
  m_synced : Bool := true
  m_securityCallbacks : Bool := false
  m_passkey : Nat := 123456

/-- Modelled from the spec: the host's side of one per-service characteristic
discovery (`NimBLERemoteService::retrieveCharacteristics` is not in the source):
the GAP events delivered while the caller is blocked in it, the characteristics
it finds, and whether it succeeds. -/
structure CharDiscovery where
  events : List ble_gap_event := []
  found : List NimBLERemoteCharacteristic := []
  success : Bool := true

/-- The BLE host stack as the client sees it.  `connectRc` are the answers to the
successive `ble_gap_connect` requests (after the last one the host answers busy
for ever); `events` are the GAP events delivered while the caller is blocked on
the connection-open or the security gate and `discovery` what is delivered while
it is blocked on the discovery gate (after the last one nothing is delivered any
more); `charDisc` are the per-service characteristic discoveries; the other
fields answer the request of the same name. -/
structure Host where
  connectRc : List Int := []
  events : List ble_gap_event := []
  discovery : List HostEvent := []
  charDisc : List CharDiscovery := []
  ble_gap_terminate : Nat → Nat → Int := fun _ _ => 0
  ble_gattc_disc_all_svcs : Nat → Int := fun _ => 0
  ble_gap_conn_find : Nat → Int := fun _ => 0
  ble_gap_conn_rssi : Nat → Int × Int := fun _ => (0, 0)
  ble_att_mtu : Nat → Nat := fun _ => 0
  startSecurity : Nat → Int := fun _ => 0
  wireRead : Nat → Nat → String := fun _ _ => ""
  wireWrite : Nat → Nat → String → Bool := fun _ _ _ => true

/-- The client together with everything around it. -/
structure World where
  client : NimBLEClient := {}
  device : NimBLEDevice := {}
  host : Host := {}

/-- Why a call does not return: it blocks or retries for ever (`hang`), it calls a
method through a null pointer (`nullDeref`), or an `assert` fails. -/
inductive Stop
  | hang
  | nullDeref
  | assertFailed
  deriving DecidableEq, Repr

/-- The outcome of an operation: it does not return, or it returns a value together
with the world it leaves and the calls it made, in order. -/
abbrev Res (α : Type) := Except Stop (α × World × List Call)

/-- The same outcome with calls made before it put in front of its own. -/
def Res.after {α : Type} (t0 : List Call) (r : Res α) : Res α :=
  match r with
  | .error e => .error e
  | .ok (a, w, t) => .ok (a, w, t0 ++ t)

/-- Sequencing of two operations: the second starts in the world the first leaves, and
the calls of both are concatenated. -/
def Res.andThen {α β : Type} (r : Res α) (f : α → World → Res β) : Res β :=
  match r with
  | .error e => .error e
  | .ok (a, w, t) => Res.after t (f a w)

/-! ## Queries and hierarchy operations (NimBLEClient.cpp) -/

/-- The constructor `NimBLEClient::NimBLEClient` (lines 58-64). -/
def NimBLEClient.init : NimBLEClient :=
  { m_pClientCallbacks := none, m_conn_id := BLE_HS_CONN_HANDLE_NONE,
    m_haveServices := false, m_isConnected := false }

/-- The query `NimBLEClient::isConnected` (lines 724-726). -/
def NimBLEClient.isConnected (c : NimBLEClient) : Bool := c.m_isConnected

/-- The query `NimBLEClient::getConnId` (lines 254-256). -/
def NimBLEClient.getConnId (c : NimBLEClient) : Nat := c.m_conn_id

/-- The query `NimBLEClient::getPeerAddress` (lines 262-264). -/
def NimBLEClient.getPeerAddress (c : NimBLEClient) : NimBLEAddress := c.m_peerAddress

/-- The query `NimBLEClient::getServices` (lines 325-327): the services map itself. -/
def NimBLEClient.getServices (c : NimBLEClient) : List (String × NimBLERemoteService) :=
  c.m_servicesMap

/-- The method `NimBLEClient::setClientCallbacks` (lines 732-735). -/
def NimBLEClient.setClientCallbacks (c : NimBLEClient)
    (pClientCallbacks : Option NimBLEClientCallbacks) (deleteCallbacks : Bool) : NimBLEClient :=
  { c with m_pClientCallbacks := pClientCallbacks, m_deleteCallbacks := deleteCallbacks }

/-- The method `NimBLEClient::clearServices` (lines 90-99): every service is deleted,
the map is emptied and `m_haveServices` is reset. -/
def NimBLEClient.clearServices (c : NimBLEClient) : NimBLEClient :=
  { c with m_servicesMap := [], m_haveServices := false }

/-- The method `NimBLEClient::getService(NimBLEUUID)` (lines 304-319), with the UUID given
by its string form: null unless services are held, else the first entry of the
map whose key equals the string. -/
def NimBLEClient.getService (c : NimBLEClient) (uuid : String) : Option NimBLERemoteService :=
  if c.m_haveServices = false then none
  else (c.m_servicesMap.find? (fun myPair => myPair.1 == uuid)).map (fun myPair => myPair.2)

/-- The callback `NimBLEClient::serviceDiscoveredCB` (lines 394-436) on the client it is
bound to: the returned status and the client it leaves. -/
def serviceDiscoveredCB (conn_handle : Nat) (status : Int) (service : ble_gatt_svc)
    (peer : NimBLEClient) : Int × NimBLEClient :=
  if peer.getConnId ≠ conn_handle then (0, peer)
  else if status = 0 then
    let pRemoteService := NimBLERemoteService.ofSvc service
    (0, { peer with
          m_servicesMap := mapInsert pRemoteService.uuid pRemoteService peer.m_servicesMap })
  else if status = BLE_HS_EDONE then
    (0, { peer with m_semaphoreSearchCmplEvt := peer.m_semaphoreSearchCmplEvt.giveValue 0 })
  else
    (status, { peer with m_semaphoreSearchCmplEvt := peer.m_semaphoreSearchCmplEvt.giveValue 1 })

/-! ## The event dispatcher -/

/-- The loop of the notification branch (lines 606-624) over the entries of the
services map: a service whose end handle lies below the attribute handle is
skipped, the first other service that holds a characteristic with this handle
ends the loop, and its callback, when registered, is invoked. -/
def notifyLoop (attr_handle : Nat) (om_data : List Nat) (indication : Bool) :
    List (String × NimBLERemoteService) → List Call
  | [] => []
  | sPair :: rest =>
    if sPair.2.getEndHandle < attr_handle then notifyLoop attr_handle om_data indication rest
    else
      match sPair.2.findByHandle attr_handle with
      | some characteristic =>
        if characteristic.m_notifyCallback then
          [Call.notifyCallback characteristic.handle om_data (!indication)]
        else []
      | none => notifyLoop attr_handle om_data indication rest

/-- The passkey branch of `handleGapEvent` (lines 656-710): the calls it makes. -/
def passkeyAction (client : NimBLEClient) (device : NimBLEDevice) (conn_handle : Nat)
    (action : ble_sm_ioact) (numcmp : Nat) : List Call :=
  let pkey : ble_sm_io := {}
  match action with
  | .DISP =>
    [Call.ble_sm_inject_io conn_handle { pkey with action := action, passkey := device.m_passkey }]
  | .NUMCMP =>
    match client.m_pClientCallbacks with
    | some cb =>
      [Call.onConfirmPIN numcmp,
       Call.ble_sm_inject_io conn_handle
         { pkey with action := action, numcmp_accept := cb.onConfirmPIN numcmp }]
    | none =>
      [Call.ble_sm_inject_io conn_handle { pkey with action := action, numcmp_accept := false }]
  | .OOB =>
    [Call.ble_sm_inject_io conn_handle { pkey with action := action, oob := List.replicate 16 0 }]
  | .INPUT =>
    match client.m_pClientCallbacks with
    | some cb =>
      [Call.onPassKeyRequest,
       Call.ble_sm_inject_io conn_handle { pkey with action := action, passkey := cb.onPassKeyRequest }]
    | none =>
      [Call.ble_sm_inject_io conn_handle { pkey with action := action, passkey := 0 }]
  | .NONE => []
  | .OTHER _ => []

/-- The static handler `NimBLEClient::handleGapEvent` (lines 503-717), with `arg` the
client of the world. -/
def handleGapEvent (event : ble_gap_event) (w : World) : Res Int :=
  let client := w.client
  match event with
  | .disconnect _reason conn_handle =>
    if client.m_isConnected = false then .ok (0, w, [])
    else if client.m_conn_id ≠ conn_handle then .ok (0, w, [])
    else
      .ok (0,
        { w with client :=
          { client with
            m_semaphoreOpenEvt := client.m_semaphoreOpenEvt.giveValue 1,
            m_semaphoreSearchCmplEvt := client.m_semaphoreSearchCmplEvt.giveValue 1,
            m_semeaphoreSecEvt := client.m_semeaphoreSecEvt.giveValue 1,
            m_isConnected := false,
            m_waitingToConnect := false } },
        (match client.m_pClientCallbacks with
          | some _ => [Call.onDisconnect]
          | none => []) ++ [Call.removeIgnored client.m_peerAddress])
  | .connect status conn_handle =>
    if client.m_waitingToConnect = false then .ok (0, w, [])
    else if status = 0 then
      .ok (0,
        { w with client :=
          { client with
            m_waitingToConnect := false,
            m_conn_id := conn_handle,
            m_isConnected := true,
            m_semaphoreOpenEvt := client.m_semaphoreOpenEvt.giveValue 0 } },
        (match client.m_pClientCallbacks with
          | some _ => [Call.onConnect]
          | none => []) ++ [Call.addIgnored client.m_peerAddress])
    else
      .ok (0,
        { w with client :=
          { client with
            m_waitingToConnect := false,
            m_semaphoreOpenEvt := client.m_semaphoreOpenEvt.giveValue status } },
        [])
  | .notify_rx conn_handle attr_handle om_data indication =>
    if client.m_conn_id ≠ conn_handle then .ok (0, w, [])
    else if client.m_haveServices = false then .ok (0, w, [])
    else .ok (0, w, notifyLoop attr_handle om_data indication client.m_servicesMap)
  | .l2cap_update_req _ => .ok (0, w, [])
  | .enc_change status conn_handle =>
    if client.m_conn_id ≠ conn_handle then .ok (0, w, [])
    else
      let resolved : World :=
        { w with client :=
          { client with m_semeaphoreSecEvt := client.m_semeaphoreSecEvt.giveValue status } }
      if w.device.m_securityCallbacks then
        if w.host.ble_gap_conn_find conn_handle ≠ 0 then .error .assertFailed
        else
          match client.m_pClientCallbacks with
          | none => .error .nullDeref
          | some _ =>
            .ok (0, resolved, [Call.ble_gap_conn_find conn_handle, Call.onAuthenticationComplete])
      else .ok (0, resolved, [])
  | .passkey_action conn_handle action numcmp =>
    if client.m_conn_id ≠ conn_handle then .ok (0, w, [])
    else .ok (0, w, passkeyAction client w.device conn_handle action numcmp)
  | .other _ => .ok (0, w, [])

/-! ## Blocking on a gate -/

/-- Modelled from the spec: `FreeRTOS::Semaphore::wait` on one of the client's gates,
over the GAP events still to come.  While the gate is taken the caller is
blocked and the next event is dispatched; when the gate is free the wait returns
its result; when no event is left and the gate is still taken the caller never
returns. -/
def waitGapEvents (gate : NimBLEClient → Semaphore) : List ble_gap_event → World → Res Int
  | [], w =>
    if (gate w.client).taken then .error .hang else .ok ((gate w.client).value, w, [])
  | event :: rest, w =>
    if (gate w.client).taken then
      (handleGapEvent event { w with host := { w.host with events := rest } }).andThen
        (fun _ w1 => waitGapEvents gate rest w1)
    else .ok ((gate w.client).value, w, [])

/-- Modelled from the spec: a wait on the connection-open or the security gate. -/
def wait (gate : NimBLEClient → Semaphore) (w : World) : Res Int :=
  waitGapEvents gate w.host.events w

/-- One delivery of the host-event context during service discovery: the GAP handler
or the service-discovery callback. -/
def dispatch (e : HostEvent) (w : World) : Res Int :=
  match e with
  | .gap event => handleGapEvent event w
  | .svc conn_handle status service =>
    let r := serviceDiscoveredCB conn_handle status service w.client
    .ok (r.1, { w with client := r.2 }, [])

/-- Modelled from the spec: `FreeRTOS::Semaphore::wait` on the discovery gate, over what
the host still delivers for the outstanding discovery. -/
def waitDiscoveryEvents : List HostEvent → World → Res Int
  | [], w =>
    if w.client.m_semaphoreSearchCmplEvt.taken then .error .hang
    else .ok (w.client.m_semaphoreSearchCmplEvt.value, w, [])
  | e :: rest, w =>
    if w.client.m_semaphoreSearchCmplEvt.taken then
      (dispatch e { w with host := { w.host with discovery := rest } }).andThen
        (fun _ w1 => waitDiscoveryEvents rest w1)
    else .ok (w.client.m_semaphoreSearchCmplEvt.value, w, [])

/-- Modelled from the spec: the wait of `retrieveServices` on the discovery gate. -/
def waitDiscovery (w : World) : Res Int :=
  waitDiscoveryEvents w.host.discovery w

/-! ## Connection manager and discovery pipeline -/

/-- The method `NimBLEClient::disconnect` (lines 235-247): the returned status, the
world it leaves and the calls it made. -/
def disconnect (reason : Nat) (w : World) : Int × World × List Call :=
  if w.client.m_isConnected then
    (w.host.ble_gap_terminate w.client.m_conn_id reason, w,
      [Call.ble_gap_terminate w.client.m_conn_id reason])
  else (0, w, [])

/-- Modelled from the spec: what a per-service characteristic discovery leaves in the
service registered under `key`: each found characteristic is entered in the UUID
map and in the handle map of that service. -/
def storeCharacteristics (key : String) (found : List NimBLERemoteCharacteristic)
    (m : List (String × NimBLERemoteService)) : List (String × NimBLERemoteService) :=
  m.map (fun p =>
    if p.1 == key then
      (p.1, { p.2 with
        m_characteristicMap := p.2.m_characteristicMap ++ found.map (fun c => (c.uuid, c)),
        m_characteristicMapByHandle :=
          p.2.m_characteristicMapByHandle ++ found.map (fun c => (c.handle, c)) })
    else p)

/-- Delivery of GAP events one after the other, in order. -/
def deliverGapEvents : List ble_gap_event → World → Res Unit
  | [], w => .ok ((), w, [])
  | event :: rest, w => (handleGapEvent event w).andThen (fun _ w1 => deliverGapEvents rest w1)

/-- Modelled from the spec: `NimBLERemoteService::retrieveCharacteristics` is not in the
source.  Called on the service registered under `key`, it is the service's own
characteristic-discovery routine, run synchronously: it takes the host's next
characteristic discovery, during which the GAP events of that discovery are
dispatched, keeps the characteristics found and reports whether the discovery
succeeded.  With no discovery left in the script it never returns. -/
def retrieveCharacteristics (key : String) (w : World) : Res Bool :=
  match w.host.charDisc with
  | [] => .error .hang
  | d :: ds =>
    Res.after [Call.retrieveCharacteristics key]
      ((deliverGapEvents d.events { w with host := { w.host with charDisc := ds } }).andThen
        (fun _ w1 =>
          .ok (d.success,
            { w1 with client :=
              { w1.client with
                m_servicesMap := storeCharacteristics key d.found w1.client.m_servicesMap } },
            [])))

/-- The service phase of `NimBLEClient::retrieveServices` (lines 353-366): the discovery
gate is taken, the discover-all-services request is issued and, when it is
accepted, the caller waits on the gate; the result is the new `m_haveServices`. -/
def discoverServices (w : World) : Res Bool :=
  let armed : World :=
    { w with client :=
      { w.client with m_semaphoreSearchCmplEvt := w.client.m_semaphoreSearchCmplEvt.take } }
  let rc := w.host.ble_gattc_disc_all_svcs w.client.m_conn_id
  Res.after [Call.ble_gattc_disc_all_svcs w.client.m_conn_id]
    (if rc ≠ 0 then
      .ok (false,
        { armed with client :=
          { armed.client with
            m_haveServices := false,
            m_semaphoreSearchCmplEvt := armed.client.m_semaphoreSearchCmplEvt.give } },
        [])
    else
      (waitDiscovery armed).andThen (fun rc1 w1 =>
        .ok (decide (rc1 = 0),
          { w1 with client := { w1.client with m_haveServices := decide (rc1 = 0) } }, [])))

/-- The characteristic phase of `NimBLEClient::retrieveServices` (lines 368-378): the loop
over the entries of the services map, given by their keys in iteration order. -/
def retrieveAllCharacteristics : List String → World → Res Bool
  | [], w => .ok (true, w, [])
  | key :: rest, w =>
    if w.client.m_isConnected = false then .ok (false, w, [])
    else
      (retrieveCharacteristics key w).andThen (fun ok w1 =>
        if ok = false then .ok (false, w1, [])
        else retrieveAllCharacteristics rest w1)

/-- The method `NimBLEClient::retrieveServices` (lines 337-386). -/
def retrieveServices (w : World) : Res Bool :=
  if w.client.m_isConnected = false then .ok (false, w, [])
  else
    (discoverServices w).andThen (fun haveServices w1 =>
      if haveServices then
        retrieveAllCharacteristics (w1.client.m_servicesMap.map (fun myPair => myPair.1)) w1
      else .ok (false, w1, []))

/-- The retry loop of `connect` (lines 168-171) over the answers the host still has:
one `ble_gap_connect` request per answer, until an answer is not busy. -/
def connectLoop (address : NimBLEAddress) (type : Nat) : List Int → World → Res Int
  | [], _ => .error .hang
  | rc :: rest, w =>
    Res.after [Call.ble_gap_connect address type]
      (if rc = BLE_HS_EBUSY then connectLoop address type rest w
       else .ok (rc, { w with host := { w.host with connectRc := rest } }, []))

/-- The world in which `connect` issues its request (lines 153-163): the hierarchy is
cleared when a refresh is asked for, the peer address is stored and the
connection-open gate is taken. -/
def connectArm (address : NimBLEAddress) (refreshServices : Bool) (w : World) : World :=
  let c := if refreshServices then w.client.clearServices else w.client
  { w with client :=
    { c with m_peerAddress := address, m_semaphoreOpenEvt := c.m_semaphoreOpenEvt.take } }

/-- The world in which `connect` waits for the connection to complete (line 182). -/
def connectPending (w : World) : World :=
  { w with client := { w.client with m_waitingToConnect := true } }

/-- The end of `connect` once the connection is open (lines 190-203): discovery when no
services are held, and disconnect-and-clear when it fails. -/
def connectDiscover (w : World) : Res Bool :=
  if w.client.m_haveServices = false then
    (retrieveServices w).andThen (fun ok w1 =>
      if ok = false then
        let d := disconnect BLE_ERR_REM_USER_CONN_TERM w1
        .ok (false, { d.2.1 with client := d.2.1.client.clearServices }, d.2.2)
      else .ok (true, w1, []))
  else .ok (true, w, [])

/-- The method `NimBLEClient::connect(address, type, refreshServices)` (lines 143-204). -/
def connect (address : NimBLEAddress) (type : Nat) (refreshServices : Bool) (w : World) :
    Res Bool :=
  if w.device.m_synced = false then .ok (false, w, [])
  else
    let armed := connectArm address refreshServices w
    (connectLoop address type armed.host.connectRc armed).andThen (fun rc w1 =>
      if rc ≠ 0 then
        .ok (false,
          { w1 with client :=
            { w1.client with
              m_semaphoreOpenEvt := w1.client.m_semaphoreOpenEvt.give,
              m_waitingToConnect := false } },
          [])
      else
        (wait (fun c => c.m_semaphoreOpenEvt) (connectPending w1)).andThen (fun rc1 w2 =>
          if rc1 ≠ 0 then .ok (false, w2, [])
          else connectDiscover w2))

/-- The method `NimBLEClient::secureConnection` (lines 212-228). -/
def secureConnection (w : World) : Res Bool :=
  let armed : World :=
    { w with client := { w.client with m_semeaphoreSecEvt := w.client.m_semeaphoreSecEvt.take } }
  let rc := w.host.startSecurity w.client.m_conn_id
  Res.after [Call.startSecurity w.client.m_conn_id]
    (if rc ≠ 0 then
      .ok (false,
        { armed with client :=
          { armed.client with m_semeaphoreSecEvt := armed.client.m_semeaphoreSecEvt.give } },
        [])
    else
      (wait (fun c => c.m_semeaphoreSecEvt) armed).andThen (fun rc1 w1 =>
        .ok (decide (rc1 = 0), w1, [])))

/-- The method `NimBLEClient::getRssi` (lines 271-286): the value and the calls made. -/
def getRssi (w : World) : Int × List Call :=
  if w.client.isConnected = false then (0, [])
  else
    let r := w.host.ble_gap_conn_rssi w.client.m_conn_id
    if r.1 ≠ 0 then (0, [Call.ble_gap_conn_rssi w.client.m_conn_id])
    else (r.2, [Call.ble_gap_conn_rssi w.client.m_conn_id])

/-- The method `NimBLEClient::getMTU` (lines 491-493): the value and the calls made. -/
def getMTU (w : World) : Nat × List Call :=
  (w.host.ble_att_mtu w.client.m_conn_id, [Call.ble_att_mtu w.client.m_conn_id])

/-- Modelled from the spec: `NimBLERemoteCharacteristic::readValue` is not in the source.
Without a live connection the read degrades to the empty string and no wire
operation is attempted; otherwise a wire read is issued and its answer returned. -/
def readValue (pChar : NimBLERemoteCharacteristic) (w : World) : String × List Call :=
  if w.client.isConnected = false then ("", [])
  else
    (w.host.wireRead w.client.m_conn_id pChar.handle,
      [Call.wireRead w.client.m_conn_id pChar.handle])

/-- Modelled from the spec: `NimBLERemoteCharacteristic::writeValue` is not in the source.
Without a live connection the write fails and no wire operation is attempted;
otherwise a wire write is issued and its answer returned. -/
def writeValue (pChar : NimBLERemoteCharacteristic) (value : String) (w : World) :
    Bool × List Call :=
  if w.client.isConnected = false then (false, [])
  else
    (w.host.wireWrite w.client.m_conn_id pChar.handle value,
      [Call.wireWrite w.client.m_conn_id pChar.handle value])

/-- The method `NimBLEClient::getValue` (lines 445-460), UUIDs given by their string form:
the value and the calls made. -/
def getValue (serviceUUID : String) (characteristicUUID : String) (w : World) :
    String × List Call :=
  match w.client.getService serviceUUID with
  | some pService =>
    match pService.getCharacteristic characteristicUUID with
    | some pChar => readValue pChar w
    | none => ("", [])
  | none => ("", [])

/-- The method `NimBLEClient::setValue` (lines 469-484), UUIDs given by their string form:
the result and the calls made. -/
def setValue (serviceUUID : String) (characteristicUUID : String) (value : String)
    (w : World) : Bool × List Call :=
  match w.client.getService serviceUUID with
  | some pService =>
    match pService.getCharacteristic characteristicUUID with
    | some pChar => writeValue pChar value w
    | none => (false, [])
  | none => (false, [])

/-! ## Concrete scenarios -/

/-- A client that was connected with handle 1, lost the connection, and is blocked in a
new `connect` on the connection-open gate, with a callback object registered;
the host then delivers a disconnect event for handle 1. -/
def pendingReconnect : World :=
  { client :=
      { m_peerAddress := 0xAABB, m_conn_id := 1, m_isConnected := false,
        m_waitingToConnect := true, m_pClientCallbacks := some {},
        m_semaphoreOpenEvt := { taken := true, value := 0 } },
    host := { events := [ble_gap_event.disconnect 19 1] } }

/-- A connected client with handle 1, blocked in service discovery, with a callback
object registered. -/
def connectedDiscovering : World :=
  { client :=
      { m_peerAddress := 0xAABB, m_conn_id := 1, m_isConnected := true,
        m_pClientCallbacks := some {},
        m_semaphoreSearchCmplEvt := { taken := true, value := 0 } } }

/-- A discovered service record with UUID 0x1800 and handles 1 to 5. -/
def svcGap : ble_gatt_svc := { start_handle := 1, end_handle := 5, uuid := "0x1800" }

/-- A discovered service record with UUID 0x180a and handles 6 to 9. -/
def svcInfoA : ble_gatt_svc := { start_handle := 6, end_handle := 9, uuid := "0x180a" }

/-- A second discovered service record with UUID 0x180a, with handles 10 to 19. -/
def svcInfoB : ble_gatt_svc := { start_handle := 10, end_handle := 19, uuid := "0x180a" }

/-- The record that comes with the terminal callback of a discovery. -/
def svcNone : ble_gatt_svc := { start_handle := 0, end_handle := 0, uuid := "" }

/-- A connected client with handle 1 and an empty hierarchy. -/
def connectedEmpty : NimBLEClient :=
  { m_peerAddress := 0xAABB, m_conn_id := 1, m_isConnected := true }

/-- A connected client with an empty hierarchy whose peer exposes two services with the
same UUID: the host accepts the discovery request and delivers two found
callbacks and the terminal one. -/
def duplicateStream : World :=
  { client := connectedEmpty,
    host :=
      { discovery :=
          [svcInfoA, svcInfoB].map (HostEvent.svc 1 0) ++ [HostEvent.svc 1 BLE_HS_EDONE svcNone] } }

/-- A connected client with an empty hierarchy whose peer exposes two services with
different UUIDs. -/
def distinctStream : World :=
  { client := connectedEmpty,
    host :=
      { discovery :=
          [svcInfoA, svcGap].map (HostEvent.svc 1 0) ++ [HostEvent.svc 1 BLE_HS_EDONE svcNone] } }

/-- Whether a call is a discover-all-services request to the host stack. -/
def Call.isServiceDiscovery : Call → Bool
  | .ble_gattc_disc_all_svcs _ => true
  | _ => false

/-- Whether a call is a connect request to the host stack. -/
def Call.isConnectRequest : Call → Bool
  | .ble_gap_connect _ _ => true
  | _ => false

/-- A client that holds the services of an earlier connection and is asked to connect
again: the host accepts the request at once and reports the connection open
with handle 2. -/
def reconnectHeld : World :=
  { client :=
      { m_peerAddress := 0xAABB, m_conn_id := 1, m_haveServices := true,
        m_servicesMap :=
          [("0x1800", NimBLERemoteService.ofSvc svcGap),
           ("0x180a", NimBLERemoteService.ofSvc svcInfoA)] },
    host := { connectRc := [0], events := [ble_gap_event.connect 0 2] } }

/-- The world `reconnectHeld` after a successful `connect` to the same address. -/
def reconnectHeldDone : World :=
  { client :=
      { m_peerAddress := 0xAABB, m_conn_id := 2, m_haveServices := true, m_isConnected := true,
        m_servicesMap :=
          [("0x1800", NimBLERemoteService.ofSvc svcGap),
           ("0x180a", NimBLERemoteService.ofSvc svcInfoA)] },
    host := { connectRc := [], events := [] } }

/-- A new client whose connection opens with handle 1 and whose service discovery then
ends with the error status 3, after one service was found. -/
def discoveryFails : World :=
  { client := { m_pClientCallbacks := some {} },
    host :=
      { connectRc := [0], events := [ble_gap_event.connect 0 1],
        discovery := [HostEvent.svc 1 0 svcGap, HostEvent.svc 1 3 svcNone] } }

/-- The world with the host's remaining answers to connect requests replaced. -/
def withConnectRc (rcs : List Int) (w : World) : World :=
  { w with host := { w.host with connectRc := rcs } }

/-- The world in which `connect` blocks on the connection-open gate once the host has
accepted the request, `rest` being the answers the host has left. -/
def connectWaiting (address : NimBLEAddress) (refreshServices : Bool) (rest : List Int)
    (w : World) : World :=
  connectPending (withConnectRc rest (connectArm address refreshServices w))

/-- A world whose host stack is not synced. -/
def unsynced : World :=
  { client := { m_peerAddress := 0x1111, m_haveServices := true, m_servicesMap :=
      [("0x1800", NimBLERemoteService.ofSvc svcGap)] },
    device := { m_synced := false },
    host := { connectRc := [0], events := [ble_gap_event.connect 0 1] } }

/-- A disconnected client that last talked to the peer 0x1111 and is asked to connect to
the peer 0x2222; the host rejects the request with status 3. -/
def rejected : World :=
  { client :=
      { m_peerAddress := 0x1111, m_conn_id := 1, m_haveServices := true,
        m_servicesMap := [("0x1800", NimBLERemoteService.ofSvc svcGap)] },
    host := { connectRc := [3] } }

/-- A client connected with handle 1 whose host answers a terminate request with 7. -/
def connectedTerminate : World :=
  { client := { m_peerAddress := 0xAABB, m_conn_id := 1, m_isConnected := true },
    host := { ble_gap_terminate := fun _ _ => 7, events := [ble_gap_event.disconnect 19 1] } }

/-- A characteristic with UUID 0x2a00 and handle 3. -/
def charName : NimBLERemoteCharacteristic := { uuid := "0x2a00", handle := 3 }

/-- A client that holds a service with one characteristic and is no longer connected;
the host would answer a wire read or write. -/
def heldNotConnected : World :=
  { client :=
      { m_peerAddress := 0xAABB, m_conn_id := 1, m_haveServices := true, m_isConnected := false,
        m_servicesMap :=
          [("0x1800",
            { uuid := "0x1800", startHandle := 1, endHandle := 5,
              m_characteristicMap := [("0x2a00", charName)],
              m_characteristicMapByHandle := [(3, charName)] })] },
    host := { wireRead := fun _ _ => "device", wireWrite := fun _ _ _ => true } }

/-! ## Local service builder (NimBLEService.cpp) -/

/-- Value of `NULL_HANDLE` (NimBLEService.cpp line 35). -/
def NULL_HANDLE : Nat := 0xffff

/-- Service type `BLE_GATT_SVC_TYPE_PRIMARY` of the host stack. -/
def BLE_GATT_SVC_TYPE_PRIMARY : Nat := 1

/-- Modelled from the spec: `NimBLECharacteristic` is not in the source.  A locally
defined characteristic: UUID string and property bitmask. -/
structure NimBLECharacteristic where
  uuid : String
  properties : Nat
  deriving DecidableEq, Repr

/-- The service object: the member variables of `class NimBLEService` that
NimBLEService.cpp uses.  Modelled from the spec: `NimBLECharacteristicMap` is not
in the source; `m_characteristicMap` is the registry as the ordered sequence of
the characteristics it holds, in iteration order. -/
structure NimBLEService where
  m_uuid : String
  m_handle : Nat := NULL_HANDLE
  m_pServer : Bool := false
  m_lastCreatedCharacteristic : Option NimBLECharacteristic := none
  m_numHandles : Nat := 15
  m_characteristicMap : List NimBLECharacteristic := []
  deriving DecidableEq, Repr

/-- The constructor `NimBLEService::NimBLEService(uuid, numHandles)` (lines 52-59). -/
def NimBLEService.init (uuid : String) (numHandles : Nat) : NimBLEService :=
  { m_uuid := uuid, m_handle := NULL_HANDLE, m_pServer := false,
    m_lastCreatedCharacteristic := none, m_numHandles := numHandles }

/-- Modelled from the spec: `NimBLECharacteristicMap::getByUUID`, a UUID lookup where the
first match wins. -/
def NimBLEService.getByUUID (s : NimBLEService) (uuid : String) : Option NimBLECharacteristic :=
  s.m_characteristicMap.find? (fun c => c.uuid == uuid)

/-- Modelled from the spec: `NimBLECharacteristicMap::setByUUID`, which enters the
characteristic in the registry, also when its UUID is there already. -/
def NimBLEService.setByUUID (s : NimBLEService) (pCharacteristic : NimBLECharacteristic) :
    NimBLEService :=
  { s with m_characteristicMap := s.m_characteristicMap ++ [pCharacteristic] }

/-- Modelled from the spec: `NimBLECharacteristicMap::getSize`, the registry count. -/
def NimBLEService.getSize (s : NimBLEService) : Nat := s.m_characteristicMap.length

/-- The method `NimBLEService::addCharacteristic` (lines 279-300): a characteristic with a
UUID already present is logged and added all the same. -/
def NimBLEService.addCharacteristic (s : NimBLEService) (pCharacteristic : NimBLECharacteristic) :
    NimBLEService :=
  s.setByUUID pCharacteristic

/-- The method `NimBLEService::createCharacteristic(uuid, properties)` (lines 320-324): the
new characteristic and the service it leaves. -/
def NimBLEService.createCharacteristic (s : NimBLEService) (uuid : String) (properties : Nat) :
    NimBLECharacteristic × NimBLEService :=
  let pCharacteristic : NimBLECharacteristic := { uuid := uuid, properties := properties }
  (pCharacteristic, s.addCharacteristic pCharacteristic)

/-- The method `NimBLEService::getCharacteristic(uuid)` (lines 435-437). -/
def NimBLEService.getCharacteristic (s : NimBLEService) (uuid : String) :
    Option NimBLECharacteristic :=
  s.getByUUID uuid

/-- The method `NimBLEService::getLastCreatedCharacteristic` (lines 464-466). -/
def NimBLEService.getLastCreatedCharacteristic (s : NimBLEService) :
    Option NimBLECharacteristic :=
  s.m_lastCreatedCharacteristic

/-- The method `NimBLEService::setHandle` (lines 255-263). -/
def NimBLEService.setHandle (s : NimBLEService) (handle : Nat) : NimBLEService :=
  if s.m_handle ≠ NULL_HANDLE then s else { s with m_handle := handle }

/-- The method `NimBLEService::getHandle` (lines 270-272). -/
def NimBLEService.getHandle (s : NimBLEService) : Nat := s.m_handle

/-- One entry `ble_gatt_chr_def` of the characteristics array as `start` fills it: the UUID
pointer, null in the sentinel. -/
structure ble_gatt_chr_def where
  uuid : Option String
  deriving DecidableEq, Repr

/-- One entry `ble_gatt_svc_def` of the services array as `start` fills it: the type, the
UUID pointer and the characteristics array, null when there is none. -/
structure ble_gatt_svc_def where
  type : Nat
  uuid : Option String := none
  characteristics : Option (List ble_gatt_chr_def) := none
  deriving DecidableEq, Repr

/-- A call that leaves `start`: an allocation or a release of the transient
characteristics array, or one of the two registration calls with the services
array it is given. -/
inductive GattsCall
  | newArray (length : Nat)
  | deleteArray
  | ble_gatts_count_cfg (svc : List ble_gatt_svc_def)
  | ble_gatts_add_svcs (svc : List ble_gatt_svc_def)
  deriving DecidableEq, Repr

/-- Whether a call allocates the transient characteristics array. -/
def GattsCall.isNewArray : GattsCall → Bool
  | .newArray _ => true
  | _ => false

/-- Whether a call is the registration call `ble_gatts_add_svcs`. -/
def GattsCall.isAddSvcs : GattsCall → Bool
  | .ble_gatts_add_svcs _ => true
  | _ => false

/-- The host stack as `start` sees it: its answers to the two registration calls. -/
structure GattsHost where
  ble_gatts_count_cfg : List ble_gatt_svc_def → Int := fun _ => 0
  ble_gatts_add_svcs : List ble_gatt_svc_def → Int := fun _ => 0

/-- The loop of `start` that fills the characteristics array (lines 161-165): `numChtrs`
entries, each with the UUID of the characteristic the registry iterator stands
on; the iterator yields null when the registry is exhausted, and the loop would
then call through a null pointer. -/
def fillChtrs : Nat → List NimBLECharacteristic → Option (List ble_gatt_chr_def)
  | 0, _ => some []
  | _ + 1, [] => none
  | n + 1, pCharacteristic :: rest =>
    (fillChtrs n rest).map (fun a => { uuid := some pCharacteristic.uuid } :: a)

/-- The services array that `start` hands to the host (lines 151-171): the service itself
and the terminating entry of type 0. -/
def svcArray (s : NimBLEService) (characteristics : Option (List ble_gatt_chr_def)) :
    List ble_gatt_svc_def :=
  [{ type := BLE_GATT_SVC_TYPE_PRIMARY, uuid := some s.m_uuid, characteristics := characteristics },
   { type := 0 }]

/-- The two registration calls of `start` and the release of the transient array
(lines 173-195), `allocated` saying whether `pChtr_a` is not null. -/
def registerSvc (host : GattsHost) (svc : List ble_gatt_svc_def) (allocated : Bool) :
    Bool × List GattsCall :=
  let release : List GattsCall := if allocated then [GattsCall.deleteArray] else []
  if host.ble_gatts_count_cfg svc ≠ 0 then
    (false, [GattsCall.ble_gatts_count_cfg svc] ++ release)
  else if host.ble_gatts_add_svcs svc ≠ 0 then
    (false, [GattsCall.ble_gatts_count_cfg svc, GattsCall.ble_gatts_add_svcs svc] ++ release)
  else
    (true, [GattsCall.ble_gatts_count_cfg svc, GattsCall.ble_gatts_add_svcs svc] ++ release)

/-- The method `NimBLEService::start` (lines 140-195): the result and the calls made.  The
registry count is held in a `uint8_t`. -/
def NimBLEService.start (s : NimBLEService) (host : GattsHost) :
    Except Stop (Bool × List GattsCall) :=
  let numChtrs := s.getSize % 256
  if numChtrs < 1 then .ok (registerSvc host (svcArray s none) false)
  else
    match fillChtrs numChtrs s.m_characteristicMap with
    | none => .error .nullDeref
    | some filled =>
      let pChtr_a := filled ++ [{ uuid := none }]
      let r := registerSvc host (svcArray s (some pChtr_a)) true
      .ok (r.1, GattsCall.newArray (numChtrs + 1) :: r.2)

/-! ## Further definitions for the statements -/

/-- The connection handle an event record carries. -/
def ble_gap_event.conn_handle : ble_gap_event → Nat
  | .connect _ h => h
  | .disconnect _ h => h
  | .notify_rx h _ _ _ => h
  | .l2cap_update_req h => h
  | .enc_change _ h => h
  | .passkey_action h _ _ => h
  | .other h => h

/-- Whether an event record is a connect completion. -/
def ble_gap_event.isConnect : ble_gap_event → Bool
  | .connect _ _ => true
  | _ => false

/-- Whether a call is an inject-response call into the host stack. -/
def Call.isInject : Call → Bool
  | .ble_sm_inject_io _ _ => true
  | _ => false

/-- Whether a call is an invocation of a notify callback. -/
def Call.isNotifyCallback : Call → Bool
  | .notifyCallback _ _ _ => true
  | _ => false

/-- Whether a call marks the peer as connected (`NimBLEDevice::addIgnored`), which the
client does when it accepts a connect completion with status 0, and only then. -/
def Call.isAddIgnored : Call → Bool
  | .addIgnored _ => true
  | _ => false

/-- The states a client reaches from its construction, with the calls made so far: by
`connect` and `disconnect` calls that return, by GAP events and service-discovery
callbacks dispatched to it, and by the host stack and the device changing around
it. -/
inductive Reachable : World → List Call → Prop
  | init (device : NimBLEDevice) (host : Host) :
      Reachable { client := NimBLEClient.init, device := device, host := host } []
  | connect {w w1 : World} {tr t : List Call} (address : NimBLEAddress) (type : Nat)
      (refreshServices : Bool) (b : Bool) :
      Reachable w tr → connect address type refreshServices w = Except.ok (b, w1, t) →
      Reachable w1 (tr ++ t)
  | disconnect {w : World} {tr : List Call} (reason : Nat) :
      Reachable w tr → Reachable (disconnect reason w).2.1 (tr ++ (disconnect reason w).2.2)
  | gapEvent {w w1 : World} {tr t : List Call} (event : ble_gap_event) (rc : Int) :
      Reachable w tr → handleGapEvent event w = Except.ok (rc, w1, t) → Reachable w1 (tr ++ t)
  | svcEvent {w : World} {tr : List Call} (conn_handle : Nat) (status : Int)
      (service : ble_gatt_svc) :
      Reachable w tr →
      Reachable { w with client := (serviceDiscoveredCB conn_handle status service w.client).2 } tr
  | setClientCallbacks {w : World} {tr : List Call}
      (pClientCallbacks : Option NimBLEClientCallbacks) (deleteCallbacks : Bool) :
      Reachable w tr →
      Reachable
        { w with client := w.client.setClientCallbacks pClientCallbacks deleteCallbacks } tr
  | environment {w : World} {tr : List Call} (device : NimBLEDevice) (host : Host) :
      Reachable w tr → Reachable { w with device := device, host := host } tr

/-- No connection has been opened so far: the connection handle is the invalid sentinel
and the connected flag is false. -/
def NeverOpened (w : World) : Prop :=
  w.client.getConnId = BLE_HS_CONN_HANDLE_NONE ∧ w.client.isConnected = false

/-! ## Further scenarios -/

/-- A client that is no longer connected and still stores the handle 1 of its last
connection, with a host stack that knows a connection under handle 1 with MTU 23. -/
def staleHandle : World :=
  { client := { m_peerAddress := 0xAABB, m_conn_id := 1, m_isConnected := false },
    host :=
      { ble_att_mtu := fun h => if h = 1 then 23 else 0,
        ble_gap_conn_rssi := fun _ => (0, -40) } }

/-- A local characteristic with UUID 0x2a19. -/
def battLevel : NimBLECharacteristic := { uuid := "0x2a19", properties := 2 }

/-- A local service with 256 characteristics. -/
def crowded : NimBLEService :=
  { m_uuid := "0x180f", m_characteristicMap := List.replicate 256 battLevel }

/-- A local service with two characteristics. -/
def twoChtrs : NimBLEService :=
  { m_uuid := "0x180f",
    m_characteristicMap := [battLevel, { uuid := "0x2a1a", properties := 2 }] }

/-- A host stack that refuses the capacity negotiation with status 6. -/
def refusing : GattsHost := { ble_gatts_count_cfg := fun _ => 6 }

/-- A host stack that accepts the capacity negotiation and refuses the registration with
status 6. -/
def refusingRegistration : GattsHost := { ble_gatts_add_svcs := fun _ => 6 }

/-- The characteristics array of the service `twoChtrs`. -/
def twoChtrsArray : List ble_gatt_chr_def :=
  [{ uuid := some "0x2a19" }, { uuid := some "0x2a1a" }, { uuid := none }]

/-- A new client blocked in its first `connect` on the connection-open gate: the pending
flag is set and the connection handle is still the invalid sentinel. -/
def firstConnectPending : World :=
  { client :=
      { m_peerAddress := 0xAABB, m_waitingToConnect := true,
        m_semaphoreOpenEvt := { taken := true, value := 0 } } }

/-- The world `firstConnectPending` after a connect completion with status 0 and
handle 2. -/
def firstConnectOpened : World :=
  { client :=
      { m_peerAddress := 0xAABB, m_waitingToConnect := false, m_conn_id := 2,
        m_isConnected := true, m_semaphoreOpenEvt := { taken := false, value := 0 } } }

/-- A characteristic with UUID 0x2a00 and handle 3 that has a notify callback. -/
def charNotifying : NimBLERemoteCharacteristic :=
  { uuid := "0x2a00", handle := 3, m_notifyCallback := true }

/-- A connected client that holds a service with handles 1 to 5 and a characteristic with
handle 3 that has a notify callback. -/
def notifying : World :=
  { client :=
      { m_peerAddress := 0xAABB, m_conn_id := 1, m_haveServices := true, m_isConnected := true,
        m_servicesMap :=
          [("0x1800",
            { uuid := "0x1800", startHandle := 1, endHandle := 5,
              m_characteristicMap := [("0x2a00", charNotifying)],
              m_characteristicMapByHandle := [(3, charNotifying)] })] } }

/-- A step from `w` to `w1` with the calls `t` opens no connection unnoticed: when no
connection had been opened before it, either none has been opened after it or
the step marked the peer as connected. -/
def Opens (w w1 : World) (t : List Call) : Prop :=
  NeverOpened w → NeverOpened w1 ∨ t.any Call.isAddIgnored = true

/-- A host stack that accepts a connect request, opens the connection with handle 1 and
finds no service. -/
def plainHost : Host :=
  { connectRc := [0], events := [ble_gap_event.connect 0 1],
    discovery := [HostEvent.svc 1 BLE_HS_EDONE svcNone] }

/-- A new client in front of `plainHost`. -/
def newWorld : World := { client := NimBLEClient.init, device := {}, host := plainHost }

/-- The world `newWorld` after `connect` has returned true. -/
def newWorldConnected : World :=
  { client :=
      { m_peerAddress := 0xAABB, m_conn_id := 1, m_haveServices := true, m_isConnected := true },
    device := {},
    host := { connectRc := [], events := [], discovery := [] } }

/-- The world `newWorldConnected` after a disconnect event for the handle 1. -/
def newWorldDisconnected : World :=
  { client :=
      { m_peerAddress := 0xAABB, m_conn_id := 1, m_haveServices := true, m_isConnected := false,
        m_semaphoreOpenEvt := { taken := false, value := 1 },
        m_semaphoreSearchCmplEvt := { taken := false, value := 1 },
        m_semeaphoreSecEvt := { taken := false, value := 1 } },
    device := {},
    host := { connectRc := [], events := [], discovery := [] } }

/-- A new client in front of a host stack that rejects the connect request with
status 3. -/
def newRejected : World :=
  { client := NimBLEClient.init, device := {}, host := { connectRc := [3] } }

/-- The world `newRejected` after `connect` to the peer 0x2222 has returned false. -/
def newRejectedAfter : World :=
  { client := { m_peerAddress := 0x2222 }, device := {}, host := { connectRc := [] } }

/-! ## Definitions for the statements on the discovery pipeline -/

/-- The services on which `retrieveCharacteristics` was called, in the order of the calls,
given by the keys under which they are registered. -/
def calledKeys : List Call → List String
  | [] => []
  | Call.retrieveCharacteristics key :: rest => key :: calledKeys rest
  | _ :: rest => calledKeys rest

/-- The registered services of a client in registry order: for each entry its key and the
UUID and handle range of the service. -/
def registered (w : World) : List (String × String × Nat × Nat) :=
  w.client.m_servicesMap.map (fun myPair =>
    (myPair.1, myPair.2.uuid, myPair.2.startHandle, myPair.2.endHandle))

/-- The keys of the registered services of a client in registry order. -/
def registryKeys (w : World) : List String :=
  w.client.m_servicesMap.map (fun myPair => myPair.1)

/-- A client connected with handle 1 that has no callback object, in front of a device
with a security-callback interface registered; the host stack knows the
connection. -/
def encNoClientCallbacks : World :=
  { client := { m_peerAddress := 0xAABB, m_conn_id := 1, m_isConnected := true,
                m_pClientCallbacks := none,
                m_semeaphoreSecEvt := { taken := true, value := 0 } },
    device := { m_securityCallbacks := true },
    host := { ble_gap_conn_find := fun _ => 0 } }

/-- A connected client with handle 1 whose peer exposes two services; the host stack
finds both, the characteristic discovery of the first succeeds with one
characteristic and that of the second fails. -/
def secondFails : World :=
  { client := connectedEmpty,
    host :=
      { discovery :=
          [svcInfoA, svcGap].map (HostEvent.svc 1 0) ++ [HostEvent.svc 1 BLE_HS_EDONE svcNone],
        charDisc := [{ found := [charName], success := true }, { success := false }] } }

/-- The handle maps of the services a client holds are range-scoped: every entry of a
service's handle map is keyed by the handle of its characteristic, and that
handle lies in the service's start..end range.  A characteristic discovery
scoped to the handle range of the service leaves the maps in this form. -/
def RangeScoped (c : NimBLEClient) : Prop :=
  ∀ sPair ∈ c.m_servicesMap, ∀ e ∈ sPair.2.m_characteristicMapByHandle,
    e.2.handle = e.1 ∧ sPair.2.startHandle ≤ e.1 ∧ e.1 ≤ sPair.2.endHandle

instance RangeScoped.decidable (c : NimBLEClient) : Decidable (RangeScoped c) :=
  inferInstanceAs (Decidable (∀ sPair ∈ c.m_servicesMap,
    ∀ e ∈ sPair.2.m_characteristicMapByHandle,
      e.2.handle = e.1 ∧ sPair.2.startHandle ≤ e.1 ∧ e.1 ≤ sPair.2.endHandle))

/-! # Theorems -/

/-! ## Helper lemmas: sequencing of outcomes -/

@[simp] theorem Res.andThen_error {α β : Type} (e : Stop) (f : α → World → Res β) :
    Res.andThen (Except.error e : Res α) f = Except.error e := rfl

@[simp] theorem Res.after_error {α : Type} (t0 : List Call) (e : Stop) :
    Res.after t0 (Except.error e : Res α) = Except.error e := rfl

@[simp] theorem Res.after_ok {α : Type} (t0 : List Call) (a : α) (w : World) (t : List Call) :
    Res.after t0 (Except.ok (a, w, t) : Res α) = Except.ok (a, w, t0 ++ t) := rfl

@[simp] theorem Res.after_nil {α : Type} (r : Res α) : Res.after [] r = r := by
  cases r with
  | error e => rfl
  | ok x => rfl

theorem Res.andThen_ok {α β : Type} (a : α) (w : World) (t : List Call)
    (f : α → World → Res β) :
    Res.andThen (Except.ok (a, w, t) : Res α) f = Res.after t (f a w) := rfl

theorem Res.after_eq_ok {α : Type} {t0 : List Call} {r : Res α}
    {a : α} {w1 : World} {t : List Call} (h : Res.after t0 r = Except.ok (a, w1, t)) :
    ∃ t1, r = Except.ok (a, w1, t1) ∧ t = t0 ++ t1 := by
  unfold Res.after at h
  match r, h with
  | .ok (a1, w2, t1), h =>
    simp only [Except.ok.injEq, Prod.mk.injEq] at h
    obtain ⟨rfl, rfl, rfl⟩ := h
    exact ⟨t1, rfl, rfl⟩

theorem Res.andThen_eq_ok {α β : Type} {r : Res α} {f : α → World → Res β}
    {b : β} {w2 : World} {t : List Call} (h : r.andThen f = Except.ok (b, w2, t)) :
    ∃ a w1 t1 t2, r = Except.ok (a, w1, t1) ∧ f a w1 = Except.ok (b, w2, t2) ∧ t = t1 ++ t2 := by
  match r, h with
  | .ok (a, w1, t1), h =>
    obtain ⟨t2, hf, ht⟩ := Res.after_eq_ok h
    exact ⟨a, w1, t1, t2, rfl, hf, ht⟩

theorem Res.after_after {α : Type} (s t : List Call) (r : Res α) :
    Res.after s (Res.after t r) = Res.after (s ++ t) r := by
  cases r with
  | error e => rfl
  | ok x => obtain ⟨a, w, u⟩ := x; simp [Res.after]

/-! ## Helper lemmas: string order and the services map -/

theorem strLess_irrefl (a : List Char) : strLess a a = false := by
  induction a with
  | nil => rfl
  | cons x xs ih => simp [strLess, ih]

theorem strLess_trans : ∀ (a b c : List Char),
    strLess a b = true → strLess b c = true → strLess a c = true
  | _, [], _, h, _ => by simp [strLess] at h
  | _, _ :: _, [], _, h => by simp [strLess] at h
  | [], _ :: _, _ :: _, _, _ => by simp [strLess]
  | x :: xs, y :: ys, z :: zs, h1, h2 => by
    simp only [strLess] at h1 h2 ⊢
    split_ifs at h1 h2 ⊢ <;> first | rfl | omega | exact strLess_trans xs ys zs h1 h2

theorem strLess_total : ∀ (a b : List Char),
    strLess a b = false → strLess b a = false → a = b
  | [], [], _, _ => rfl
  | [], _ :: _, h, _ => by simp [strLess] at h
  | _ :: _, [], _, h => by simp [strLess] at h
  | x :: xs, y :: ys, h1, h2 => by
    simp only [strLess] at h1 h2
    split_ifs at h1 h2 with c1 c2
    have hxy : x = y := by
      apply Char.ext
      apply UInt32.ext
      have := Nat.le_antisymm (Nat.le_of_not_lt c2) (Nat.le_of_not_lt c1)
      simpa [Char.toNat] using this
    rw [hxy, strLess_total xs ys h1 h2]

theorem string_eq_of_not_less (a b : String)
    (h1 : strLess a.data b.data = false) (h2 : strLess b.data a.data = false) : a = b :=
  String.ext (strLess_total _ _ h1 h2)

/-- The keys of a map are in strictly increasing order. -/
def KeysSorted {V : Type} (m : List (String × V)) : Prop :=
  (m.map (fun p => p.1)).Pairwise (fun a b => strLess a.data b.data = true)

theorem mapInsert_mem_keys {V : Type} (k : String) (v : V) (m : List (String × V)) (x : String) :
    x ∈ (mapInsert k v m).map (fun p => p.1) ↔ x = k ∨ x ∈ m.map (fun p => p.1) := by
  induction m with
  | nil => simp [mapInsert]
  | cons p m ih =>
    obtain ⟨k1, v1⟩ := p
    simp only [mapInsert]
    split_ifs with h1 h2
    · simp
    · simp only [List.map_cons, List.mem_cons, ih]
      tauto
    · have hk : k = k1 := string_eq_of_not_less k k1 (by simpa using h1) (by simpa using h2)
      subst hk
      simp

theorem mapInsert_sorted {V : Type} (k : String) (v : V) (m : List (String × V))
    (hs : KeysSorted m) : KeysSorted (mapInsert k v m) := by
  induction m with
  | nil => simp [mapInsert, KeysSorted]
  | cons p m ih =>
    obtain ⟨k1, v1⟩ := p
    unfold KeysSorted at hs ih ⊢
    simp only [List.map_cons, List.pairwise_cons] at hs
    simp only [mapInsert]
    split_ifs with h1 h2
    · simp only [List.map_cons, List.pairwise_cons, List.mem_cons]
      refine ⟨?_, hs⟩
      rintro x (rfl | hx)
      · exact h1
      · exact strLess_trans _ _ _ h1 (hs.1 x hx)
    · simp only [List.map_cons, List.pairwise_cons]
      refine ⟨?_, ih hs.2⟩
      intro x hx
      rcases (mapInsert_mem_keys k v m x).1 hx with rfl | hx
      · exact h2
      · exact hs.1 x hx
    · simpa using hs

theorem keysSorted_nodup {V : Type} (m : List (String × V)) (hs : KeysSorted m) :
    (m.map (fun p => p.1)).Nodup := by
  unfold KeysSorted at hs
  refine List.Pairwise.imp ?_ hs
  intro a b hab heq
  subst heq
  rw [strLess_irrefl] at hab
  exact Bool.noConfusion hab

theorem mapInsert_idem {V : Type} (k : String) (v1 v2 : V) (m : List (String × V)) :
    mapInsert k v2 (mapInsert k v1 m) = mapInsert k v1 m := by
  induction m with
  | nil => simp [mapInsert, strLess_irrefl]
  | cons p m ih =>
    obtain ⟨k1, w1⟩ := p
    simp only [mapInsert]
    split_ifs with h1 h2
    · simp [mapInsert, strLess_irrefl]
    · simp [mapInsert, h1, h2, ih]
    · simp [mapInsert, h1, h2]

theorem mapInsert_find_new {V : Type} (k : String) (v : V) (m : List (String × V))
    (hnew : ∀ p ∈ m, p.1 ≠ k) :
    (mapInsert k v m).find? (fun p => p.1 == k) = some (k, v) := by
  induction m with
  | nil => simp [mapInsert]
  | cons p m ih =>
    obtain ⟨k1, w1⟩ := p
    have hk1 : k1 ≠ k := hnew (k1, w1) (List.mem_cons_self _ _)
    have hm : ∀ p ∈ m, p.1 ≠ k := fun p hp => hnew p (List.mem_cons_of_mem _ hp)
    simp only [mapInsert]
    split_ifs with h1 h2
    · simp
    · have hb : (k1 == k) = false := by simpa using hk1
      simp [List.find?, hb, ih hm]
    · exact absurd (string_eq_of_not_less k k1 (by simpa using h1) (by simpa using h2)).symm hk1

theorem mapInsert_filter_new {V : Type} (k : String) (v : V) (m : List (String × V))
    (hnew : ∀ p ∈ m, p.1 ≠ k) :
    (mapInsert k v m).filter (fun p => p.1 == k) = [(k, v)] := by
  induction m with
  | nil => simp [mapInsert]
  | cons p m ih =>
    obtain ⟨k1, w1⟩ := p
    have hk1 : k1 ≠ k := hnew (k1, w1) (List.mem_cons_self _ _)
    have hm : ∀ p ∈ m, p.1 ≠ k := fun p hp => hnew p (List.mem_cons_of_mem _ hp)
    have hb : (k1 == k) = false := by simpa using hk1
    have hf : m.filter (fun p => p.1 == k) = [] := by
      rw [List.filter_eq_nil_iff]
      intro p hp
      simpa using hm p hp
    simp only [mapInsert]
    split_ifs with h1 h2
    · simp [List.filter_cons, hb, hf]
    · simp [List.filter_cons, hb, ih hm]
    · exact absurd (string_eq_of_not_less k k1 (by simpa using h1) (by simpa using h2)).symm hk1

/-! ## C1: a disconnect event releases pending waits -/

/-- C1, counterexample: a client blocked in `connect` on the connection-open gate, with a
callback object registered, is not connected; a disconnect event carrying the
client's connection handle is ignored: the world is unchanged, `onDisconnect` is
not invoked, and the wait on the gate is never released. -/
theorem C1_counterexample_pending_connect :
    pendingReconnect.client.m_semaphoreOpenEvt.taken = true
    ∧ pendingReconnect.client.m_waitingToConnect = true
    ∧ pendingReconnect.client.m_pClientCallbacks.isSome = true
    ∧ handleGapEvent (ble_gap_event.disconnect 19 pendingReconnect.client.m_conn_id)
        pendingReconnect = Except.ok (0, pendingReconnect, [])
    ∧ wait (fun c => c.m_semaphoreOpenEvt) pendingReconnect = Except.error Stop.hang :=
  ⟨rfl, rfl, rfl, rfl, rfl⟩

/-- C1, amended: for every connected client with a callback object registered, a
disconnect event carrying the client's connection handle releases all three gates
with result 1, so that a wait on the connection-open, discovery or security gate
returns 1 at once; it makes `isConnected()` false and invokes `onDisconnect`
exactly once; the same event delivered a second time is ignored, with no call. -/
theorem C1_disconnect_releases_waits (w : World) (reason : Int) (cb : NimBLEClientCallbacks)
    (hconn : w.client.m_isConnected = true) (hcb : w.client.m_pClientCallbacks = some cb) :
    ∃ w1 t1,
      handleGapEvent (ble_gap_event.disconnect reason w.client.m_conn_id) w
        = Except.ok (0, w1, t1)
      ∧ wait (fun c => c.m_semaphoreOpenEvt) w1 = Except.ok (1, w1, [])
      ∧ waitDiscovery w1 = Except.ok (1, w1, [])
      ∧ wait (fun c => c.m_semeaphoreSecEvt) w1 = Except.ok (1, w1, [])
      ∧ w1.client.isConnected = false
      ∧ t1.count Call.onDisconnect = 1
      ∧ handleGapEvent (ble_gap_event.disconnect reason w.client.m_conn_id) w1
        = Except.ok (0, w1, []) := by
  refine ⟨{ w with client :=
            { w.client with
              m_semaphoreOpenEvt := w.client.m_semaphoreOpenEvt.giveValue 1,
              m_semaphoreSearchCmplEvt := w.client.m_semaphoreSearchCmplEvt.giveValue 1,
              m_semeaphoreSecEvt := w.client.m_semeaphoreSecEvt.giveValue 1,
              m_isConnected := false,
              m_waitingToConnect := false } },
          [Call.onDisconnect, Call.removeIgnored w.client.m_peerAddress], ?_, ?_, ?_, ?_, ?_, ?_, ?_⟩
  · simp [handleGapEvent, hconn, hcb]
  · unfold wait
    cases w.host.events <;> simp [waitGapEvents, Semaphore.giveValue]
  · unfold waitDiscovery
    cases w.host.discovery <;> simp [waitDiscoveryEvents, Semaphore.giveValue]
  · unfold wait
    cases w.host.events <;> simp [waitGapEvents, Semaphore.giveValue]
  · rfl
  · simp [List.count_cons]
  · simp [handleGapEvent]

/-- C1, witness: the amended statement at a connected client blocked in discovery. -/
theorem C1_disconnect_releases_waits_witness :
    ∃ w1 t1,
      handleGapEvent (ble_gap_event.disconnect 19 connectedDiscovering.client.m_conn_id)
        connectedDiscovering = Except.ok (0, w1, t1)
      ∧ wait (fun c => c.m_semaphoreOpenEvt) w1 = Except.ok (1, w1, [])
      ∧ waitDiscovery w1 = Except.ok (1, w1, [])
      ∧ wait (fun c => c.m_semeaphoreSecEvt) w1 = Except.ok (1, w1, [])
      ∧ w1.client.isConnected = false
      ∧ t1.count Call.onDisconnect = 1
      ∧ handleGapEvent (ble_gap_event.disconnect 19 connectedDiscovering.client.m_conn_id) w1
        = Except.ok (0, w1, []) :=
  C1_disconnect_releases_waits connectedDiscovering 19 {} rfl rfl

/-! ## C2, C3: the stream of service-discovery callbacks -/

theorem waitDiscoveryEvents_free (evs : List HostEvent) (w : World)
    (h : w.client.m_semaphoreSearchCmplEvt.taken = false) :
    waitDiscoveryEvents evs w = Except.ok (w.client.m_semaphoreSearchCmplEvt.value, w, []) := by
  cases evs <;> simp [waitDiscoveryEvents, h]

theorem waitGapEvents_free (gate : NimBLEClient → Semaphore) (evs : List ble_gap_event)
    (w : World) (h : (gate w.client).taken = false) :
    waitGapEvents gate evs w = Except.ok ((gate w.client).value, w, []) := by
  cases evs <;> simp [waitGapEvents, h]

theorem waitDiscoveryEvents_svc (conn_handle : Nat) (status : Int) (service : ble_gatt_svc)
    (rest : List HostEvent) (w : World) (h : w.client.m_semaphoreSearchCmplEvt.taken = true) :
    waitDiscoveryEvents (HostEvent.svc conn_handle status service :: rest) w
      = waitDiscoveryEvents rest
          { w with
            client := (serviceDiscoveredCB conn_handle status service w.client).2,
            host := { w.host with discovery := rest } } := by
  simp [waitDiscoveryEvents, h, dispatch, Res.andThen_ok]

theorem waitDiscoveryEvents_found (last : ble_gatt_svc) (later : List HostEvent) :
    ∀ (svcs : List ble_gatt_svc) (w : World),
      w.client.m_semaphoreSearchCmplEvt.taken = true →
      waitDiscoveryEvents
          (svcs.map (HostEvent.svc w.client.m_conn_id 0)
            ++ HostEvent.svc w.client.m_conn_id BLE_HS_EDONE last :: later) w
        = Except.ok (0,
            { w with
              client :=
                { w.client with
                  m_servicesMap :=
                    svcs.foldl (fun m s => mapInsert s.uuid (NimBLERemoteService.ofSvc s) m)
                      w.client.m_servicesMap,
                  m_semaphoreSearchCmplEvt := { taken := false, value := 0 } },
              host := { w.host with discovery := later } },
            [])
  | [], w, h => by
    rw [List.map_nil, List.nil_append, waitDiscoveryEvents_svc _ _ _ _ _ h,
      waitDiscoveryEvents_free _ _
        (by simp [serviceDiscoveredCB, NimBLEClient.getConnId, BLE_HS_EDONE, Semaphore.giveValue])]
    simp [serviceDiscoveredCB, NimBLEClient.getConnId, BLE_HS_EDONE, Semaphore.giveValue]
  | s :: svcs, w, h => by
    rw [List.map_cons, List.cons_append, waitDiscoveryEvents_svc _ _ _ _ _ h]
    have ih := waitDiscoveryEvents_found last later svcs
      { w with
        client := (serviceDiscoveredCB w.client.m_conn_id 0 s w.client).2,
        host :=
          { w.host with
            discovery :=
              svcs.map (HostEvent.svc w.client.m_conn_id 0)
                ++ HostEvent.svc w.client.m_conn_id BLE_HS_EDONE last :: later } }
      (by simpa [serviceDiscoveredCB, NimBLEClient.getConnId] using h)
    have hc : (serviceDiscoveredCB w.client.m_conn_id 0 s w.client).2.m_conn_id
        = w.client.m_conn_id := by
      simp [serviceDiscoveredCB, NimBLEClient.getConnId]
    simp only [hc] at ih
    rw [ih]
    simp [serviceDiscoveredCB, NimBLEClient.getConnId, NimBLERemoteService.ofSvc]

theorem foldl_mapInsert_sorted (svcs : List ble_gatt_svc) :
    ∀ (m : List (String × NimBLERemoteService)), KeysSorted m →
      KeysSorted (svcs.foldl (fun m s => mapInsert s.uuid (NimBLERemoteService.ofSvc s) m) m) := by
  induction svcs with
  | nil => intro m hm; simpa using hm
  | cons s svcs ih => intro m hm; exact ih _ (mapInsert_sorted _ _ _ hm)

theorem foldl_mapInsert_mem_keys (svcs : List ble_gatt_svc) :
    ∀ (m : List (String × NimBLERemoteService)) (x : String),
      x ∈ (svcs.foldl (fun m s => mapInsert s.uuid (NimBLERemoteService.ofSvc s) m) m).map
            (fun p => p.1)
        ↔ x ∈ svcs.map (fun s => s.uuid) ∨ x ∈ m.map (fun p => p.1) := by
  induction svcs with
  | nil => intro m x; simp
  | cons s svcs ih =>
    intro m x
    rw [List.foldl_cons, ih, mapInsert_mem_keys]
    simp only [List.map_cons, List.mem_cons]
    tauto

theorem foldl_mapInsert_length (svcs : List ble_gatt_svc) :
    (svcs.foldl (fun m s => mapInsert s.uuid (NimBLERemoteService.ofSvc s) m) []).length
      = (svcs.map (fun s => s.uuid)).toFinset.card := by
  have hs := foldl_mapInsert_sorted svcs [] (by simp [KeysSorted])
  have hn := keysSorted_nodup _ hs
  rw [← List.length_map _ (fun p => p.1), ← List.toFinset_card_of_nodup hn]
  congr 1
  ext x
  simp only [List.mem_toFinset]
  rw [foldl_mapInsert_mem_keys]
  simp

/-- C2, counterexample: on a connected client with an empty hierarchy, a stream of N = 2
found callbacks for the client's connection followed by the terminal done
leaves one service in the map, not two, when the two records carry the same
UUID string. -/
theorem C2_counterexample_duplicate_uuid :
    duplicateStream.client.m_isConnected = true
    ∧ duplicateStream.client.m_servicesMap = []
    ∧ duplicateStream.host.discovery
        = [svcInfoA, svcInfoB].map (HostEvent.svc duplicateStream.client.m_conn_id 0)
            ++ [HostEvent.svc duplicateStream.client.m_conn_id BLE_HS_EDONE svcNone]
    ∧ [svcInfoA, svcInfoB].length = 2
    ∧ (discoverServices duplicateStream).toOption.map
        (fun r => (r.1, r.2.1.client.m_servicesMap.length)) = some (true, 1) := by
  refine ⟨rfl, rfl, rfl, rfl, ?_⟩
  decide

/-- C2, amended: starting from an empty hierarchy on a connected client whose discovery
request the host accepts, for every N and every stream of N found callbacks for
the client's connection handle followed by one done callback, the service phase
of `retrieveServices` returns success with `m_haveServices` true and the discovery
gate resolved with 0, `retrieveServices` goes on to the characteristic phase, and
the services map holds one service for each distinct UUID string of the stream:
exactly N services when the N UUID strings are pairwise distinct. -/
theorem C2_discovery_stream (w : World) (svcs : List ble_gatt_svc) (last : ble_gatt_svc)
    (later : List HostEvent)
    (hconn : w.client.m_isConnected = true)
    (hempty : w.client.m_servicesMap = [])
    (hacc : w.host.ble_gattc_disc_all_svcs w.client.m_conn_id = 0)
    (hstream : w.host.discovery
      = svcs.map (HostEvent.svc w.client.m_conn_id 0)
          ++ HostEvent.svc w.client.m_conn_id BLE_HS_EDONE last :: later) :
    ∃ w1,
      discoverServices w
        = Except.ok (true, w1, [Call.ble_gattc_disc_all_svcs w.client.m_conn_id])
      ∧ w1.client.m_haveServices = true
      ∧ w1.client.m_semaphoreSearchCmplEvt = { taken := false, value := 0 }
      ∧ w1.client.m_servicesMap.length = (svcs.map (fun s => s.uuid)).toFinset.card
      ∧ (∀ u, u ∈ w1.client.m_servicesMap.map (fun p => p.1) ↔ u ∈ svcs.map (fun s => s.uuid))
      ∧ ((svcs.map (fun s => s.uuid)).Nodup → w1.client.m_servicesMap.length = svcs.length)
      ∧ retrieveServices w
        = Res.after [Call.ble_gattc_disc_all_svcs w.client.m_conn_id]
            (retrieveAllCharacteristics (w1.client.m_servicesMap.map (fun p => p.1)) w1) := by
  have hwait := waitDiscoveryEvents_found last later svcs
    { w with client :=
      { w.client with m_semaphoreSearchCmplEvt := w.client.m_semaphoreSearchCmplEvt.take } } rfl
  have hdisc : discoverServices w
      = Except.ok (true,
          { w with
            client :=
              { w.client with
                m_servicesMap :=
                  svcs.foldl (fun m s => mapInsert s.uuid (NimBLERemoteService.ofSvc s) m) [],
                m_semaphoreSearchCmplEvt := { taken := false, value := 0 },
                m_haveServices := true },
            host := { w.host with discovery := later } },
          [Call.ble_gattc_disc_all_svcs w.client.m_conn_id]) := by
    simp only [discoverServices, hacc, waitDiscovery, hstream]
    simp only [ne_eq, not_true_eq_false, if_false]
    rw [hwait]
    simp [Res.andThen_ok, hempty]
  refine ⟨_, hdisc, rfl, rfl, ?_, ?_, ?_, ?_⟩
  · exact foldl_mapInsert_length svcs
  · intro u
    simp only
    rw [foldl_mapInsert_mem_keys]
    simp
  · intro hnd
    simp only
    rw [foldl_mapInsert_length, List.toFinset_card_of_nodup hnd, List.length_map]
  · simp only [retrieveServices, hconn, hdisc, Res.andThen_ok]
    simp

/-- C2, witness: the amended statement at a stream of two services with different UUIDs. -/
theorem C2_discovery_stream_witness :
    ∃ w1,
      discoverServices distinctStream
        = Except.ok (true, w1, [Call.ble_gattc_disc_all_svcs distinctStream.client.m_conn_id])
      ∧ w1.client.m_haveServices = true
      ∧ w1.client.m_semaphoreSearchCmplEvt = { taken := false, value := 0 }
      ∧ w1.client.m_servicesMap.length
          = ([svcInfoA, svcGap].map (fun s => s.uuid)).toFinset.card
      ∧ (∀ u, u ∈ w1.client.m_servicesMap.map (fun p => p.1)
          ↔ u ∈ [svcInfoA, svcGap].map (fun s => s.uuid))
      ∧ (([svcInfoA, svcGap].map (fun s => s.uuid)).Nodup
          → w1.client.m_servicesMap.length = [svcInfoA, svcGap].length)
      ∧ retrieveServices distinctStream
        = Res.after [Call.ble_gattc_disc_all_svcs distinctStream.client.m_conn_id]
            (retrieveAllCharacteristics (w1.client.m_servicesMap.map (fun p => p.1)) w1) :=
  C2_discovery_stream distinctStream [svcInfoA, svcGap] svcNone [] rfl rfl rfl rfl

/-- C3, counterexample: two found callbacks for the client's connection carry the UUID
string 0x180a; after the discovery the map holds the first service only, so an
iteration visits one service, and the UUID lookup returns the first inserted
service, which differs from the last inserted one. -/
theorem C3_counterexample_second_dropped :
    svcInfoA.uuid = svcInfoB.uuid
    ∧ NimBLERemoteService.ofSvc svcInfoA ≠ NimBLERemoteService.ofSvc svcInfoB
    ∧ (discoverServices duplicateStream).toOption.map (fun r => r.2.1.client.getServices)
        = some [("0x180a", NimBLERemoteService.ofSvc svcInfoA)]
    ∧ (discoverServices duplicateStream).toOption.map
        (fun r => r.2.1.client.getService "0x180a")
        = some (some (NimBLERemoteService.ofSvc svcInfoA)) := by
  refine ⟨rfl, by decide, by decide, by decide⟩

/-- C3, amended: when two found callbacks for the client's connection carry the same UUID
string, the second one leaves the client, and so its services map, as the first
one left it: the second service is not registered.  When the map held no service
with this UUID before, it then holds one entry with this UUID, the service
inserted first, and the UUID lookup, once services are held, returns that
service. -/
theorem C3_duplicate_uuid_first_wins (peer : NimBLEClient) (s1 s2 : ble_gatt_svc)
    (huuid : s1.uuid = s2.uuid) :
    (serviceDiscoveredCB peer.m_conn_id 0 s2
        (serviceDiscoveredCB peer.m_conn_id 0 s1 peer).2).2
      = (serviceDiscoveredCB peer.m_conn_id 0 s1 peer).2
    ∧ ((∀ p ∈ peer.m_servicesMap, p.1 ≠ s1.uuid) →
        ((serviceDiscoveredCB peer.m_conn_id 0 s2
            (serviceDiscoveredCB peer.m_conn_id 0 s1 peer).2).2.getServices.filter
              (fun myPair => myPair.1 == s1.uuid)
          = [(s1.uuid, NimBLERemoteService.ofSvc s1)])
        ∧ ∀ c : NimBLEClient,
          c.m_servicesMap
            = (serviceDiscoveredCB peer.m_conn_id 0 s2
                (serviceDiscoveredCB peer.m_conn_id 0 s1 peer).2).2.m_servicesMap →
          c.m_haveServices = true →
          c.getService s1.uuid = some (NimBLERemoteService.ofSvc s1)) := by
  have h1 : (serviceDiscoveredCB peer.m_conn_id 0 s1 peer).2.m_servicesMap
      = mapInsert s1.uuid (NimBLERemoteService.ofSvc s1) peer.m_servicesMap := by
    simp [serviceDiscoveredCB, NimBLEClient.getConnId, NimBLERemoteService.ofSvc]
  have h2 : (serviceDiscoveredCB peer.m_conn_id 0 s2
        (serviceDiscoveredCB peer.m_conn_id 0 s1 peer).2).2
      = (serviceDiscoveredCB peer.m_conn_id 0 s1 peer).2 := by
    simp only [serviceDiscoveredCB, NimBLEClient.getConnId, ne_eq, not_true_eq_false, if_false,
      if_true, NimBLERemoteService.ofSvc, ← huuid, mapInsert_idem]
  refine ⟨h2, ?_⟩
  intro hnew
  rw [h2]
  refine ⟨?_, ?_⟩
  · rw [NimBLEClient.getServices, h1]
    exact mapInsert_filter_new _ _ _ hnew
  · intro c hc hhave
    rw [h1] at hc
    simp only [NimBLEClient.getService, hhave, hc]
    have := mapInsert_find_new s1.uuid (NimBLERemoteService.ofSvc s1) peer.m_servicesMap hnew
    simp [this]

/-- C3, witness: the amended statement at two records with UUID 0x180a on a client with
an empty hierarchy. -/
theorem C3_duplicate_uuid_first_wins_witness :
    (serviceDiscoveredCB connectedEmpty.m_conn_id 0 svcInfoB
        (serviceDiscoveredCB connectedEmpty.m_conn_id 0 svcInfoA connectedEmpty).2).2
      = (serviceDiscoveredCB connectedEmpty.m_conn_id 0 svcInfoA connectedEmpty).2
    ∧ ((∀ p ∈ connectedEmpty.m_servicesMap, p.1 ≠ svcInfoA.uuid) →
        ((serviceDiscoveredCB connectedEmpty.m_conn_id 0 svcInfoB
            (serviceDiscoveredCB connectedEmpty.m_conn_id 0 svcInfoA
              connectedEmpty).2).2.getServices.filter
              (fun myPair => myPair.1 == svcInfoA.uuid)
          = [(svcInfoA.uuid, NimBLERemoteService.ofSvc svcInfoA)])
        ∧ ∀ c : NimBLEClient,
          c.m_servicesMap
            = (serviceDiscoveredCB connectedEmpty.m_conn_id 0 svcInfoB
                (serviceDiscoveredCB connectedEmpty.m_conn_id 0 svcInfoA
                  connectedEmpty).2).2.m_servicesMap →
          c.m_haveServices = true →
          c.getService svcInfoA.uuid = some (NimBLERemoteService.ofSvc svcInfoA)) :=
  C3_duplicate_uuid_first_wins connectedEmpty svcInfoA svcInfoB rfl

/-! ## Helper lemmas: what the event handlers and the waits leave unchanged -/

theorem notifyLoop_calls (attr_handle : Nat) (om_data : List Nat) (indication : Bool)
    (m : List (String × NimBLERemoteService)) :
    (notifyLoop attr_handle om_data indication m).countP Call.isServiceDiscovery = 0
    ∧ (notifyLoop attr_handle om_data indication m).countP Call.isConnectRequest = 0 := by
  induction m with
  | nil => simp [notifyLoop]
  | cons p m ih =>
    simp only [notifyLoop]
    split_ifs with h1
    · exact ih
    · cases p.2.findByHandle attr_handle with
      | none => exact ih
      | some ch =>
        simp only
        split_ifs <;> simp [Call.isServiceDiscovery, Call.isConnectRequest]

theorem passkeyAction_calls (client : NimBLEClient) (device : NimBLEDevice) (conn_handle : Nat)
    (action : ble_sm_ioact) (numcmp : Nat) :
    (passkeyAction client device conn_handle action numcmp).countP Call.isServiceDiscovery = 0
    ∧ (passkeyAction client device conn_handle action numcmp).countP Call.isConnectRequest = 0 := by
  cases action <;> cases hcb : client.m_pClientCallbacks <;>
    simp [passkeyAction, hcb, Call.isServiceDiscovery, Call.isConnectRequest]

theorem handleGapEvent_frame {event : ble_gap_event} {w w1 : World} {r : Int} {t : List Call}
    (h : handleGapEvent event w = Except.ok (r, w1, t)) :
    w1.host = w.host ∧ w1.device = w.device
    ∧ w1.client.m_servicesMap = w.client.m_servicesMap
    ∧ w1.client.m_haveServices = w.client.m_haveServices
    ∧ t.countP Call.isServiceDiscovery = 0
    ∧ t.countP Call.isConnectRequest = 0 := by
  cases event with
  | connect status conn_handle =>
    simp only [handleGapEvent] at h
    split_ifs at h <;> simp only [Except.ok.injEq, Prod.mk.injEq] at h <;>
      obtain ⟨rfl, rfl, rfl⟩ := h <;>
      cases w.client.m_pClientCallbacks <;>
      simp [Call.isServiceDiscovery, Call.isConnectRequest]
  | disconnect reason conn_handle =>
    simp only [handleGapEvent] at h
    split_ifs at h <;> simp only [Except.ok.injEq, Prod.mk.injEq] at h <;>
      obtain ⟨rfl, rfl, rfl⟩ := h <;>
      cases w.client.m_pClientCallbacks <;>
      simp [Call.isServiceDiscovery, Call.isConnectRequest]
  | notify_rx conn_handle attr_handle om_data indication =>
    simp only [handleGapEvent] at h
    split_ifs at h <;> simp only [Except.ok.injEq, Prod.mk.injEq] at h <;>
      obtain ⟨rfl, rfl, rfl⟩ := h
    · simp
    · simp
    · simpa using notifyLoop_calls attr_handle om_data indication w.client.m_servicesMap
  | l2cap_update_req conn_handle =>
    simp only [handleGapEvent, Except.ok.injEq, Prod.mk.injEq] at h
    obtain ⟨rfl, rfl, rfl⟩ := h
    simp
  | enc_change status conn_handle =>
    simp only [handleGapEvent] at h
    split_ifs at h
    · simp only [Except.ok.injEq, Prod.mk.injEq] at h
      obtain ⟨rfl, rfl, rfl⟩ := h
      simp
    · cases hcb : w.client.m_pClientCallbacks with
      | none => simp [hcb] at h
      | some cb =>
        simp only [hcb, Except.ok.injEq, Prod.mk.injEq] at h
        obtain ⟨rfl, rfl, rfl⟩ := h
        simp [Call.isServiceDiscovery, Call.isConnectRequest]
    · simp only [Except.ok.injEq, Prod.mk.injEq] at h
      obtain ⟨rfl, rfl, rfl⟩ := h
      simp
  | passkey_action conn_handle action numcmp =>
    simp only [handleGapEvent] at h
    split_ifs at h <;> simp only [Except.ok.injEq, Prod.mk.injEq] at h <;>
      obtain ⟨rfl, rfl, rfl⟩ := h
    · simp
    · simpa using passkeyAction_calls w.client w.device conn_handle action numcmp
  | other conn_handle =>
    simp only [handleGapEvent, Except.ok.injEq, Prod.mk.injEq] at h
    obtain ⟨rfl, rfl, rfl⟩ := h
    simp

theorem waitGapEvents_frame (gate : NimBLEClient → Semaphore) :
    ∀ (evs : List ble_gap_event) (w w1 : World) (rc : Int) (t : List Call),
      waitGapEvents gate evs w = Except.ok (rc, w1, t) →
      w1.device = w.device
      ∧ w1.client.m_servicesMap = w.client.m_servicesMap
      ∧ w1.client.m_haveServices = w.client.m_haveServices
      ∧ t.countP Call.isServiceDiscovery = 0
      ∧ t.countP Call.isConnectRequest = 0
  | [], w, w1, rc, t, h => by
    simp only [waitGapEvents] at h
    split_ifs at h
    simp only [Except.ok.injEq, Prod.mk.injEq] at h
    obtain ⟨_, rfl, rfl⟩ := h
    simp
  | event :: rest, w, w1, rc, t, h => by
    simp only [waitGapEvents] at h
    split_ifs at h
    · obtain ⟨a, w2, t1, t2, h1, h2, rfl⟩ := Res.andThen_eq_ok h
      obtain ⟨_, hd, hm, hh, hc1, hc2⟩ := handleGapEvent_frame h1
      obtain ⟨hd2, hm2, hh2, hc3, hc4⟩ := waitGapEvents_frame gate rest w2 w1 rc t2 h2
      refine ⟨hd2.trans hd, hm2.trans hm, hh2.trans hh, ?_, ?_⟩
      · rw [List.countP_append, hc1, hc3]
      · rw [List.countP_append, hc2, hc4]
    · simp only [Except.ok.injEq, Prod.mk.injEq] at h
      obtain ⟨_, rfl, rfl⟩ := h
      simp

theorem connectLoop_busy (address : NimBLEAddress) (type : Nat) (r : Int) (rest : List Int)
    (w : World) (hr : r ≠ BLE_HS_EBUSY) :
    ∀ n : Nat,
      connectLoop address type (List.replicate n BLE_HS_EBUSY ++ r :: rest) w
        = Except.ok (r, { w with host := { w.host with connectRc := rest } },
            List.replicate (n + 1) (Call.ble_gap_connect address type))
  | 0 => by simp [connectLoop, hr]
  | n + 1 => by
    rw [List.replicate_succ, List.cons_append, connectLoop, if_pos rfl,
      connectLoop_busy address type r rest w hr n]
    simp [List.replicate_succ]

theorem connectLoop_eq_ok (address : NimBLEAddress) (type : Nat) :
    ∀ (rcs : List Int) (w w1 : World) (rc : Int) (t : List Call),
      connectLoop address type rcs w = Except.ok (rc, w1, t) →
      ∃ n rest, rcs = List.replicate n BLE_HS_EBUSY ++ rc :: rest ∧ rc ≠ BLE_HS_EBUSY
        ∧ w1 = { w with host := { w.host with connectRc := rest } }
        ∧ t = List.replicate (n + 1) (Call.ble_gap_connect address type)
  | [], w, w1, rc, t, h => by simp [connectLoop] at h
  | r :: rest, w, w1, rc, t, h => by
    simp only [connectLoop] at h
    obtain ⟨t1, h1, rfl⟩ := Res.after_eq_ok h
    split_ifs at h1 with hb
    · obtain ⟨n, rest1, hrcs, hne, hw, ht⟩ := connectLoop_eq_ok address type rest w w1 rc t1 h1
      refine ⟨n + 1, rest1, ?_, hne, hw, ?_⟩
      · rw [hrcs, hb, List.replicate_succ, List.cons_append]
      · rw [ht]; simp [List.replicate_succ]
    · simp only [Except.ok.injEq, Prod.mk.injEq] at h1
      obtain ⟨rfl, rfl, rfl⟩ := h1
      exact ⟨0, rest, by simp, hb, rfl, by simp⟩

/-! ## C4: a connect that holds services already does not discover again -/

theorem connectArm_keep (address : NimBLEAddress) (w : World) :
    (connectArm address false w).client.m_servicesMap = w.client.m_servicesMap
    ∧ (connectArm address false w).client.m_haveServices = w.client.m_haveServices := by
  simp [connectArm]

/-- C4: for every client that holds services (`m_haveServices` true), a `connect` with
`refreshServices = false` that returns true has issued no discover-all-services
request and leaves the services map as it was, so that `getService` returns for
every UUID the service it returned before the call. -/
theorem C4_connect_keeps_hierarchy (w w1 : World) (address : NimBLEAddress) (type : Nat)
    (t : List Call)
    (hhave : w.client.m_haveServices = true)
    (hok : connect address type false w = Except.ok (true, w1, t)) :
    t.countP Call.isServiceDiscovery = 0
    ∧ w1.client.m_servicesMap = w.client.m_servicesMap
    ∧ ∀ uuid, w1.client.getService uuid = w.client.getService uuid := by
  simp only [connect] at hok
  split_ifs at hok with hsync
  · simp at hok
  · obtain ⟨rc, wA, tA, tB, hloop, hrest, rfl⟩ := Res.andThen_eq_ok hok
    obtain ⟨n, rest, _, _, hwA, htA⟩ := connectLoop_eq_ok _ _ _ _ _ _ _ hloop
    split_ifs at hrest with hrc
    · simp at hrest
    · obtain ⟨rc1, wB, tC, tD, hwait, hdisc, rfl⟩ := Res.andThen_eq_ok hrest
      obtain ⟨_, hmap, hhs, hc, _⟩ := waitGapEvents_frame _ _ _ _ _ _ hwait
      have hmapA : wA.client.m_servicesMap = w.client.m_servicesMap := by
        rw [hwA]; exact (connectArm_keep address w).1
      have hhsA : wA.client.m_haveServices = w.client.m_haveServices := by
        rw [hwA]; exact (connectArm_keep address w).2
      have hmapB : wB.client.m_servicesMap = w.client.m_servicesMap := by
        rw [hmap]; exact hmapA
      have hhsB : wB.client.m_haveServices = true := by
        rw [hhs]; exact hhsA.trans hhave
      split_ifs at hdisc with hrc1
      · simp at hdisc
      · simp only [connectDiscover, hhsB] at hdisc
        simp only [Bool.true_eq_false, if_false, Except.ok.injEq, Prod.mk.injEq, true_and] at hdisc
        obtain ⟨rfl, rfl⟩ := hdisc
        refine ⟨?_, hmapB, ?_⟩
        · rw [htA, List.countP_append, List.countP_append, hc]
          simp [List.countP_replicate, Call.isServiceDiscovery]
        · intro uuid
          simp only [NimBLEClient.getService, hmapB, hhsB, hhave]

/-- C4, witness: the statement at a client that holds two services and connects again. -/
theorem C4_connect_keeps_hierarchy_witness :
    [Call.ble_gap_connect 0xAABB 0, Call.addIgnored 0xAABB].countP Call.isServiceDiscovery = 0
    ∧ reconnectHeldDone.client.m_servicesMap = reconnectHeld.client.m_servicesMap
    ∧ ∀ uuid, reconnectHeldDone.client.getService uuid = reconnectHeld.client.getService uuid :=
  C4_connect_keeps_hierarchy reconnectHeld reconnectHeldDone 0xAABB 0
    [Call.ble_gap_connect 0xAABB 0, Call.addIgnored 0xAABB] rfl rfl

/-! ## C5: a discovery failure ends in disconnect-and-clear -/

theorem connect_haveServices_at_check {w w1 w2 : World} {address : NimBLEAddress} {type : Nat}
    {refreshServices : Bool} {rc rc1 : Int} {t1 t2 : List Call}
    (hloop : connectLoop address type (connectArm address refreshServices w).host.connectRc
      (connectArm address refreshServices w) = Except.ok (rc, w1, t1))
    (hopen : wait (fun c => c.m_semaphoreOpenEvt) (connectPending w1) = Except.ok (rc1, w2, t2)) :
    w2.client.m_haveServices = (!refreshServices && w.client.m_haveServices) := by
  obtain ⟨n, rest, _, _, hw1, _⟩ := connectLoop_eq_ok _ _ _ _ _ _ _ hloop
  obtain ⟨_, _, hhs, _, _⟩ := waitGapEvents_frame _ _ _ _ _ _ hopen
  rw [hhs, hw1]
  cases refreshServices <;> simp [connectPending, connectArm, NimBLEClient.clearServices]

/-- C5: for every `connect` call on a synced host in which the request is accepted, the
connection-open gate resolves with 0, services are not held (a refresh was asked
for or none were held), and `retrieveServices` returns false, `connect` returns
false; after the calls made so far it issues one terminate request for the
client's connection exactly when the client is still connected; and it leaves
the services map empty and `m_haveServices` false, so that `getService` returns
null for every UUID. -/
theorem C5_discovery_failure_clears (w w1 w2 w3 : World) (address : NimBLEAddress)
    (type : Nat) (refreshServices : Bool) (t1 t2 t3 : List Call)
    (hsync : w.device.m_synced = true)
    (hloop : connectLoop address type (connectArm address refreshServices w).host.connectRc
      (connectArm address refreshServices w) = Except.ok (0, w1, t1))
    (hopen : wait (fun c => c.m_semaphoreOpenEvt) (connectPending w1) = Except.ok (0, w2, t2))
    (hnone : refreshServices = true ∨ w.client.m_haveServices = false)
    (hfail : retrieveServices w2 = Except.ok (false, w3, t3)) :
    ∃ w4,
      connect address type refreshServices w
        = Except.ok (false, w4,
            t1 ++ (t2 ++ (t3 ++
              (if w3.client.m_isConnected then
                [Call.ble_gap_terminate w3.client.m_conn_id BLE_ERR_REM_USER_CONN_TERM]
              else []))))
      ∧ w4.client.m_servicesMap = []
      ∧ w4.client.m_haveServices = false
      ∧ (∀ uuid, w4.client.getService uuid = none)
      ∧ w4.client.m_isConnected = w3.client.m_isConnected := by
  have hhs : w2.client.m_haveServices = false := by
    rw [connect_haveServices_at_check hloop hopen]
    rcases hnone with h | h <;> simp [h]
  refine ⟨{ w3 with client := w3.client.clearServices }, ?_, rfl, rfl, ?_, rfl⟩
  · simp only [connect, hsync, Bool.true_eq_false, if_false, hloop, Res.andThen_ok, ne_eq,
      not_true_eq_false, hopen, connectDiscover, hhs, if_true, hfail]
    cases hc : w3.client.m_isConnected <;> simp [disconnect, hc]
  · intro uuid
    simp [NimBLEClient.getService, NimBLEClient.clearServices]

/-- C5, witness: the statement at a new client whose connection opens and whose service
discovery ends with an error status after one service was found. -/
theorem C5_discovery_failure_clears_witness :
    ∃ w4,
      connect 0xAABB 0 false discoveryFails
        = Except.ok (false, w4,
            [Call.ble_gap_connect 0xAABB 0, Call.onConnect, Call.addIgnored 0xAABB,
             Call.ble_gattc_disc_all_svcs 1, Call.ble_gap_terminate 1 BLE_ERR_REM_USER_CONN_TERM])
      ∧ w4.client.m_servicesMap = []
      ∧ w4.client.m_haveServices = false
      ∧ (∀ uuid, w4.client.getService uuid = none)
      ∧ w4.client.m_isConnected = true :=
  C5_discovery_failure_clears discoveryFails _ _ _ 0xAABB 0 false
    [Call.ble_gap_connect 0xAABB 0] [Call.onConnect, Call.addIgnored 0xAABB]
    [Call.ble_gattc_disc_all_svcs 1] rfl rfl rfl (Or.inr rfl) rfl

/-! ## C6: when connect returns true -/

theorem connectArm_connectRc (address : NimBLEAddress) (refreshServices : Bool) (w : World) :
    (connectArm address refreshServices w).host.connectRc = w.host.connectRc := rfl

theorem connectWaiting_haveServices {address : NimBLEAddress} {refreshServices : Bool}
    {rest : List Int} {w w2 : World} {rc1 : Int} {t2 : List Call}
    (hopen : wait (fun c => c.m_semaphoreOpenEvt)
      (connectWaiting address refreshServices rest w) = Except.ok (rc1, w2, t2)) :
    w2.client.m_haveServices = (!refreshServices && w.client.m_haveServices) := by
  obtain ⟨_, _, hhs, _, _⟩ := waitGapEvents_frame _ _ _ _ _ _ hopen
  rw [hhs]
  cases refreshServices <;>
    simp [connectWaiting, withConnectRc, connectPending, connectArm, NimBLEClient.clearServices]

theorem connect_synced (address : NimBLEAddress) (type : Nat) (refreshServices : Bool)
    (w : World) (n : Nat) (r : Int) (rest : List Int)
    (hsync : w.device.m_synced = true) (hr : r ≠ BLE_HS_EBUSY)
    (hrc : w.host.connectRc = List.replicate n BLE_HS_EBUSY ++ r :: rest) :
    connect address type refreshServices w
      = Res.after (List.replicate (n + 1) (Call.ble_gap_connect address type))
          (if r ≠ 0 then
            Except.ok (false,
              { withConnectRc rest (connectArm address refreshServices w) with
                client :=
                  { (connectArm address refreshServices w).client with
                    m_semaphoreOpenEvt :=
                      (connectArm address refreshServices w).client.m_semaphoreOpenEvt.give,
                    m_waitingToConnect := false } },
              [])
          else
            (wait (fun c => c.m_semaphoreOpenEvt)
                (connectWaiting address refreshServices rest w)).andThen
              (fun rc1 w2 =>
                if rc1 ≠ 0 then Except.ok (false, w2, []) else connectDiscover w2)) := by
  simp only [connect, hsync, Bool.true_eq_false, if_false, connectArm_connectRc, hrc]
  rw [connectLoop_busy address type r rest _ hr n, Res.andThen_ok]
  rfl

/-- C6: `connect` returns true if and only if the host stack is synced, the connect
request is accepted with status 0 after any number of busy answers, the wait on
the connection-open gate returns 0, and either services are held already (no
refresh was asked for and `m_haveServices` was true) or `retrieveServices` returns
true.  When the host is not synced `connect` returns false with the world
unchanged and without a call, whatever the value of `refreshServices`. -/
theorem C6_connect_true_iff (w : World) (address : NimBLEAddress) (type : Nat)
    (refreshServices : Bool) :
    ((∃ w4 t, connect address type refreshServices w = Except.ok (true, w4, t))
      ↔ (w.device.m_synced = true
          ∧ ∃ n rest w2 t2,
              w.host.connectRc = List.replicate n BLE_HS_EBUSY ++ 0 :: rest
              ∧ wait (fun c => c.m_semaphoreOpenEvt)
                  (connectWaiting address refreshServices rest w) = Except.ok (0, w2, t2)
              ∧ ((refreshServices = false ∧ w.client.m_haveServices = true)
                  ∨ ∃ w3 t3, retrieveServices w2 = Except.ok (true, w3, t3))))
    ∧ (w.device.m_synced = false →
        connect address type refreshServices w = Except.ok (false, w, [])) := by
  refine ⟨⟨?_, ?_⟩, ?_⟩
  · rintro ⟨w4, t, hok⟩
    have hsync : w.device.m_synced = true := by
      cases hs : w.device.m_synced with
      | true => rfl
      | false => simp [connect, hs] at hok
    refine ⟨hsync, ?_⟩
    have hok1 := hok
    simp only [connect, hsync, Bool.true_eq_false, if_false] at hok1
    obtain ⟨rc, wA, tA, tB, hloop, hrest, _⟩ := Res.andThen_eq_ok hok1
    obtain ⟨n, rest, hrcs, hne, _, _⟩ := connectLoop_eq_ok _ _ _ _ _ _ _ hloop
    rw [connectArm_connectRc] at hrcs
    rw [connect_synced address type refreshServices w n rc rest hsync hne hrcs] at hok
    obtain ⟨t1, hk, _⟩ := Res.after_eq_ok hok
    split_ifs at hk with hrc
    · simp at hk
    · have hrc0 : rc = 0 := by simpa using hrc
      subst hrc0
      obtain ⟨rc1, w2, t2, t3, hwait, hdisc, _⟩ := Res.andThen_eq_ok hk
      split_ifs at hdisc with hrc1
      · simp at hdisc
      · have hrc10 : rc1 = 0 := by simpa using hrc1
        subst hrc10
        refine ⟨n, rest, w2, t2, hrcs, hwait, ?_⟩
        have hhs := connectWaiting_haveServices hwait
        cases hh : w2.client.m_haveServices with
        | true =>
          left
          have hb : (!refreshServices && w.client.m_haveServices) = true := by rw [← hhs, hh]
          simpa using hb
        | false =>
          right
          simp only [connectDiscover, hh, if_true] at hdisc
          obtain ⟨ok, w3, t4, t5, hrs, hfin, _⟩ := Res.andThen_eq_ok hdisc
          cases ok with
          | true => exact ⟨w3, t4, hrs⟩
          | false => simp at hfin
  · rintro ⟨hsync, n, rest, w2, t2, hrcs, hwait, hserv⟩
    rw [connect_synced address type refreshServices w n 0 rest hsync (by decide) hrcs]
    simp only [ne_eq, not_true_eq_false, if_false, hwait, Res.andThen_ok]
    have hhs := connectWaiting_haveServices hwait
    cases hh : w2.client.m_haveServices with
    | true => simp [connectDiscover, hh]
    | false =>
      rcases hserv with ⟨h1, h2⟩ | ⟨w3, t3, hrs⟩
      · rw [hh, h1, h2] at hhs
        simp at hhs
      · simp [connectDiscover, hh, hrs, Res.andThen_ok]
  · intro hsync
    simp [connect, hsync]

/-- C6, witness: a synced host that accepts the request and opens the connection for a
client that holds services gives true; a host that is not synced gives false
with the world unchanged, also with a refresh asked for. -/
theorem C6_connect_true_iff_witness :
    (∃ w4 t, connect 0xAABB 0 false reconnectHeld = Except.ok (true, w4, t))
    ∧ connect 0xAABB 0 true unsynced = Except.ok (false, unsynced, []) :=
  ⟨(C6_connect_true_iff reconnectHeld 0xAABB 0 false).1.2
      ⟨rfl, 0, [], _, _, rfl, rfl, Or.inl ⟨rfl, rfl⟩⟩,
    (C6_connect_true_iff unsynced 0xAABB 0 true).2 rfl⟩

/-! ## C7: busy answers to the connect request are retried -/

theorem waitDiscoveryEvents_noConnect :
    ∀ (evs : List HostEvent) (w w1 : World) (rc : Int) (t : List Call),
      waitDiscoveryEvents evs w = Except.ok (rc, w1, t) → t.countP Call.isConnectRequest = 0
  | [], w, w1, rc, t, h => by
    simp only [waitDiscoveryEvents] at h
    split_ifs at h
    simp only [Except.ok.injEq, Prod.mk.injEq] at h
    obtain ⟨_, _, rfl⟩ := h
    rfl
  | e :: rest, w, w1, rc, t, h => by
    simp only [waitDiscoveryEvents] at h
    split_ifs at h
    · obtain ⟨a, w2, t1, t2, h1, h2, rfl⟩ := Res.andThen_eq_ok h
      have h3 := waitDiscoveryEvents_noConnect rest w2 w1 rc t2 h2
      have h4 : t1.countP Call.isConnectRequest = 0 := by
        cases e with
        | gap event => exact (handleGapEvent_frame h1).2.2.2.2.2
        | svc conn_handle status service =>
          simp only [dispatch, Except.ok.injEq, Prod.mk.injEq] at h1
          obtain ⟨_, _, rfl⟩ := h1
          rfl
      rw [List.countP_append, h3, h4]
    · simp only [Except.ok.injEq, Prod.mk.injEq] at h
      obtain ⟨_, _, rfl⟩ := h
      rfl

theorem deliverGapEvents_noConnect :
    ∀ (evs : List ble_gap_event) (w w1 : World) (u : Unit) (t : List Call),
      deliverGapEvents evs w = Except.ok (u, w1, t) → t.countP Call.isConnectRequest = 0
  | [], w, w1, u, t, h => by
    simp only [deliverGapEvents, Except.ok.injEq, Prod.mk.injEq] at h
    obtain ⟨_, _, rfl⟩ := h
    rfl
  | e :: rest, w, w1, u, t, h => by
    simp only [deliverGapEvents] at h
    obtain ⟨a, w2, t1, t2, h1, h2, rfl⟩ := Res.andThen_eq_ok h
    rw [List.countP_append, (handleGapEvent_frame h1).2.2.2.2.2,
      deliverGapEvents_noConnect rest w2 w1 u t2 h2]

theorem retrieveCharacteristics_noConnect (key : String) (w w1 : World) (b : Bool)
    (t : List Call) (h : retrieveCharacteristics key w = Except.ok (b, w1, t)) :
    t.countP Call.isConnectRequest = 0 := by
  unfold retrieveCharacteristics at h
  cases hd : w.host.charDisc with
  | nil => simp [hd] at h
  | cons d ds =>
    simp only [hd] at h
    obtain ⟨t1, h1, rfl⟩ := Res.after_eq_ok h
    obtain ⟨a, w2, t2, t3, h2, h3, rfl⟩ := Res.andThen_eq_ok h1
    simp only [Except.ok.injEq, Prod.mk.injEq] at h3
    obtain ⟨_, _, rfl⟩ := h3
    have := deliverGapEvents_noConnect _ _ _ _ _ h2
    simp [List.countP_append, List.countP_cons, this, Call.isConnectRequest]

theorem retrieveAllCharacteristics_noConnect :
    ∀ (keys : List String) (w w1 : World) (b : Bool) (t : List Call),
      retrieveAllCharacteristics keys w = Except.ok (b, w1, t) →
      t.countP Call.isConnectRequest = 0
  | [], w, w1, b, t, h => by
    simp only [retrieveAllCharacteristics, Except.ok.injEq, Prod.mk.injEq] at h
    obtain ⟨_, _, rfl⟩ := h
    rfl
  | key :: rest, w, w1, b, t, h => by
    simp only [retrieveAllCharacteristics] at h
    split_ifs at h
    · simp only [Except.ok.injEq, Prod.mk.injEq] at h
      obtain ⟨_, _, rfl⟩ := h
      rfl
    · obtain ⟨ok, w2, t1, t2, h1, h2, rfl⟩ := Res.andThen_eq_ok h
      have h3 := retrieveCharacteristics_noConnect key w w2 ok t1 h1
      split_ifs at h2
      · simp only [Except.ok.injEq, Prod.mk.injEq] at h2
        obtain ⟨_, _, rfl⟩ := h2
        simpa using h3
      · rw [List.countP_append, h3, retrieveAllCharacteristics_noConnect rest w2 w1 b t2 h2]

theorem retrieveServices_noConnect (w w1 : World) (b : Bool) (t : List Call)
    (h : retrieveServices w = Except.ok (b, w1, t)) : t.countP Call.isConnectRequest = 0 := by
  simp only [retrieveServices] at h
  split_ifs at h
  · simp only [Except.ok.injEq, Prod.mk.injEq] at h
    obtain ⟨_, _, rfl⟩ := h
    rfl
  · obtain ⟨hs, w2, t1, t2, h1, h2, rfl⟩ := Res.andThen_eq_ok h
    have h3 : t1.countP Call.isConnectRequest = 0 := by
      simp only [discoverServices] at h1
      obtain ⟨t3, h4, rfl⟩ := Res.after_eq_ok h1
      split_ifs at h4
      · simp only [Except.ok.injEq, Prod.mk.injEq] at h4
        obtain ⟨_, _, rfl⟩ := h4
        simp [Call.isConnectRequest]
      · obtain ⟨rc1, w3, t4, t5, h5, h6, rfl⟩ := Res.andThen_eq_ok h4
        simp only [Except.ok.injEq, Prod.mk.injEq] at h6
        obtain ⟨_, _, rfl⟩ := h6
        have := waitDiscoveryEvents_noConnect _ _ _ _ _ h5
        simp [List.countP_append, List.countP_cons, this, Call.isConnectRequest]
    split_ifs at h2
    · rw [List.countP_append, h3, retrieveAllCharacteristics_noConnect _ _ _ _ _ h2]
    · simp only [Except.ok.injEq, Prod.mk.injEq] at h2
      obtain ⟨_, _, rfl⟩ := h2
      simpa using h3

theorem connectDiscover_noConnect (w w1 : World) (b : Bool) (t : List Call)
    (h : connectDiscover w = Except.ok (b, w1, t)) : t.countP Call.isConnectRequest = 0 := by
  simp only [connectDiscover] at h
  split_ifs at h
  · obtain ⟨ok, w2, t1, t2, h1, h2, rfl⟩ := Res.andThen_eq_ok h
    have h3 := retrieveServices_noConnect _ _ _ _ h1
    split_ifs at h2
    · simp only [Except.ok.injEq, Prod.mk.injEq] at h2
      obtain ⟨_, _, rfl⟩ := h2
      rw [List.countP_append, h3]
      simp only [disconnect]
      split_ifs <;> simp [Call.isConnectRequest]
    · simp only [Except.ok.injEq, Prod.mk.injEq] at h2
      obtain ⟨_, _, rfl⟩ := h2
      simpa using h3
  · simp only [Except.ok.injEq, Prod.mk.injEq] at h
    obtain ⟨_, _, rfl⟩ := h
    rfl

/-- C7: on a synced host, for every n and every final status r other than busy, a `connect`
during which the host answers busy n times and then r makes the calls, returns
the value and leaves the world of the `connect` during which the host answers r
at once, with n more connect requests in front; when it returns it has issued
exactly n + 1 connect requests; in particular it returns true whenever the call
without busy answers does. -/
theorem C7_busy_retries_invisible (w : World) (address : NimBLEAddress) (type : Nat)
    (refreshServices : Bool) (n : Nat) (r : Int) (rest : List Int)
    (hr : r ≠ BLE_HS_EBUSY) (hsync : w.device.m_synced = true) :
    connect address type refreshServices
        (withConnectRc (List.replicate n BLE_HS_EBUSY ++ r :: rest) w)
      = Res.after (List.replicate n (Call.ble_gap_connect address type))
          (connect address type refreshServices (withConnectRc (r :: rest) w))
    ∧ (∀ b w1 t,
        connect address type refreshServices
            (withConnectRc (List.replicate n BLE_HS_EBUSY ++ r :: rest) w)
          = Except.ok (b, w1, t) →
        t.countP Call.isConnectRequest = n + 1)
    ∧ (∀ w1 t,
        connect address type refreshServices (withConnectRc (r :: rest) w)
          = Except.ok (true, w1, t) →
        connect address type refreshServices
            (withConnectRc (List.replicate n BLE_HS_EBUSY ++ r :: rest) w)
          = Except.ok (true, w1, List.replicate n (Call.ble_gap_connect address type) ++ t)) := by
  have hA := connect_synced address type refreshServices
    (withConnectRc (List.replicate n BLE_HS_EBUSY ++ r :: rest) w) n r rest hsync hr rfl
  have hB := connect_synced address type refreshServices
    (withConnectRc (r :: rest) w) 0 r rest hsync hr rfl
  have hmain : connect address type refreshServices
        (withConnectRc (List.replicate n BLE_HS_EBUSY ++ r :: rest) w)
      = Res.after (List.replicate n (Call.ble_gap_connect address type))
          (connect address type refreshServices (withConnectRc (r :: rest) w)) := by
    rw [hA, hB, Res.after_after, ← List.replicate_add]
    rfl
  refine ⟨hmain, ?_, ?_⟩
  · intro b w1 t hok
    rw [hA] at hok
    obtain ⟨t1, hk, rfl⟩ := Res.after_eq_ok hok
    have ht1 : t1.countP Call.isConnectRequest = 0 := by
      split_ifs at hk
      · simp only [Except.ok.injEq, Prod.mk.injEq] at hk
        obtain ⟨_, _, rfl⟩ := hk
        rfl
      · obtain ⟨rc1, w2, t2, t3, hwait, hdisc, rfl⟩ := Res.andThen_eq_ok hk
        have h2 := (waitGapEvents_frame _ _ _ _ _ _ hwait).2.2.2.2
        split_ifs at hdisc
        · simp only [Except.ok.injEq, Prod.mk.injEq] at hdisc
          obtain ⟨_, _, rfl⟩ := hdisc
          simpa using h2
        · rw [List.countP_append, h2, connectDiscover_noConnect _ _ _ _ hdisc]
    rw [List.countP_append, ht1, List.countP_replicate]
    simp [Call.isConnectRequest]
  · intro w1 t hok
    rw [hmain, hok]
    rfl

/-- C7, witness: five busy answers before the acceptance, at a client that holds
services: the call returns true as the call without busy answers does. -/
theorem C7_busy_retries_invisible_witness :
    connect 0xAABB 0 false
        (withConnectRc (List.replicate 5 BLE_HS_EBUSY ++ 0 :: []) reconnectHeld)
      = Except.ok (true, reconnectHeldDone,
          List.replicate 5 (Call.ble_gap_connect 0xAABB 0)
            ++ [Call.ble_gap_connect 0xAABB 0, Call.addIgnored 0xAABB]) :=
  (C7_busy_retries_invisible reconnectHeld 0xAABB 0 false 5 0 [] (by decide) rfl).2.2
    reconnectHeldDone [Call.ble_gap_connect 0xAABB 0, Call.addIgnored 0xAABB] rfl

/-! ## C8: a rejected connect request -/

/-- C8, counterexample: a client whose peer address is 0x1111 calls `connect` for the peer
0x2222 without refresh on a synced host that rejects the request with status 3;
the call returns false and the peer address is then 0x2222, not its value before
the call. -/
theorem C8_counterexample_peer_address :
    rejected.device.m_synced = true
    ∧ rejected.host.connectRc = [3]
    ∧ rejected.client.m_peerAddress = 0x1111
    ∧ (connect 0x2222 0 false rejected).toOption.map
        (fun r => (r.1, r.2.1.client.m_peerAddress)) = some (false, 0x2222) := by
  refine ⟨rfl, rfl, rfl, ?_⟩
  decide

/-- C8, amended: for every `connect` with `refreshServices = false` on a synced host whose
connect request is, after any number of busy answers, rejected with a non-zero
status, `connect` returns false after these requests alone; the connection-open
gate is released with its result slot as before; the peer address is the
requested address and the pending-connect flag is false; every other client
field (connection handle, connected flag, hierarchy, `m_haveServices`, callback
object, the other gates) has its value of before the call. -/
theorem C8_rejected_connect (w : World) (address : NimBLEAddress) (type : Nat) (n : Nat)
    (r : Int) (rest : List Int)
    (hsync : w.device.m_synced = true)
    (hrc : w.host.connectRc = List.replicate n BLE_HS_EBUSY ++ r :: rest)
    (hr0 : r ≠ 0) (hrb : r ≠ BLE_HS_EBUSY) :
    connect address type false w
      = Except.ok (false,
          { w with
            client :=
              { w.client with
                m_peerAddress := address,
                m_waitingToConnect := false,
                m_semaphoreOpenEvt :=
                  { taken := false, value := w.client.m_semaphoreOpenEvt.value } },
            host := { w.host with connectRc := rest } },
          List.replicate (n + 1) (Call.ble_gap_connect address type)) := by
  rw [connect_synced address type false w n r rest hsync hrb hrc]
  simp [hr0, withConnectRc, connectArm, Semaphore.give, Semaphore.take]

/-- C8, witness: the amended statement at a request rejected with status 3. -/
theorem C8_rejected_connect_witness :
    connect 0x2222 0 false rejected
      = Except.ok (false,
          { rejected with
            client :=
              { rejected.client with
                m_peerAddress := 0x2222,
                m_waitingToConnect := false,
                m_semaphoreOpenEvt :=
                  { taken := false, value := rejected.client.m_semaphoreOpenEvt.value } },
            host := { rejected.host with connectRc := [] } },
          List.replicate (0 + 1) (Call.ble_gap_connect 0x2222 0)) :=
  C8_rejected_connect rejected 0x2222 0 0 3 [] rfl rfl (by decide) (by decide)

/-! ## C9: disconnect -/

/-- C9: `disconnect(reason)` on a client that is not connected returns 0 and makes no
call; on a connected client it makes one call, the terminate request with the
client's connection handle and the given reason, and returns the status of that
request; in both cases it returns at once, leaving the world, with the connected
flag, every other client field and the events still to come, as it was. -/
theorem C9_disconnect (w : World) (reason : Nat) :
    (w.client.m_isConnected = false → disconnect reason w = (0, w, []))
    ∧ (w.client.m_isConnected = true →
        disconnect reason w
          = (w.host.ble_gap_terminate w.client.m_conn_id reason, w,
              [Call.ble_gap_terminate w.client.m_conn_id reason]))
    ∧ (disconnect reason w).2.1 = w := by
  refine ⟨?_, ?_, ?_⟩
  · intro h
    simp [disconnect, h]
  · intro h
    simp [disconnect, h]
  · cases h : w.client.m_isConnected <;> simp [disconnect, h]

/-- C9, witness: a connected client whose terminate request the host answers with 7, and
a client that is not connected. -/
theorem C9_disconnect_witness :
    disconnect 19 connectedTerminate = (7, connectedTerminate, [Call.ble_gap_terminate 1 19])
    ∧ disconnect 19 heldNotConnected = (0, heldNotConnected, []) :=
  ⟨(C9_disconnect connectedTerminate 19).2.1 rfl, (C9_disconnect heldNotConnected 19).1 rfl⟩

/-! ## C10: getValue and setValue without service, characteristic or connection -/

/-- C10: whenever `getService` finds no service for the service UUID, or the service it
finds has no characteristic for the characteristic UUID, or the client is not
connected, `getValue` returns the empty string and `setValue` returns false, and
neither makes a call: no wire read or write is attempted. -/
theorem C10_value_access_degrades (w : World) (serviceUUID characteristicUUID value : String)
    (h : w.client.getService serviceUUID = none
      ∨ (∃ s, w.client.getService serviceUUID = some s
            ∧ s.getCharacteristic characteristicUUID = none)
      ∨ w.client.isConnected = false) :
    getValue serviceUUID characteristicUUID w = ("", [])
    ∧ setValue serviceUUID characteristicUUID value w = (false, []) := by
  rcases h with h | ⟨s, hs, hc⟩ | h
  · simp [getValue, setValue, h]
  · simp [getValue, setValue, hs, hc]
  · cases hs : w.client.getService serviceUUID with
    | none => simp [getValue, setValue, hs]
    | some s =>
      cases hc : s.getCharacteristic characteristicUUID with
      | none => simp [getValue, setValue, hs, hc]
      | some c => simp [getValue, setValue, hs, hc, readValue, writeValue, h]

/-- C10, witness: a client that holds the service and the characteristic but is not
connected, with a host that would answer the wire operation. -/
theorem C10_value_access_degrades_witness :
    getValue "0x1800" "0x2a00" heldNotConnected = ("", [])
    ∧ setValue "0x1800" "0x2a00" "name" heldNotConnected = (false, []) :=
  C10_value_access_degrades heldNotConnected "0x1800" "0x2a00" "name" (Or.inr (Or.inr rfl))

/-! ## C11: RSSI and MTU of a client that is not connected -/

/-- C11, counterexample: a client that is not connected and still stores the handle of its
last connection, with a host stack that knows a connection under this handle
with MTU 23: `getMTU()` returns 23, not 0. -/
theorem C11_counterexample_stale_mtu :
    staleHandle.client.isConnected = false ∧ (getMTU staleHandle).1 = 23 := by
  decide

/-- C11, amended: for every client state in which `isConnected()` is false, `getRssi()`
returns 0 without a call to the host stack, and `getMTU()` returns what the host
stack's `ble_att_mtu` reports for the stored connection handle, which is 0
whenever the host stack reports 0 for that handle. -/
theorem C11_rssi_mtu_not_connected (w : World) (h : w.client.isConnected = false) :
    getRssi w = (0, [])
    ∧ getMTU w = (w.host.ble_att_mtu w.client.getConnId, [Call.ble_att_mtu w.client.getConnId])
    ∧ (w.host.ble_att_mtu w.client.getConnId = 0 → (getMTU w).1 = 0) := by
  refine ⟨?_, rfl, ?_⟩
  · simp [getRssi, h]
  · intro h0
    simpa [getMTU, NimBLEClient.getConnId] using h0

/-- C11, witness: the amended statement at a client that was never connected, whose
handle is the invalid sentinel, while the host stack knows a connection under
handle 1. -/
theorem C11_rssi_mtu_not_connected_witness :
    getRssi { staleHandle with client := NimBLEClient.init } = (0, [])
    ∧ getMTU { staleHandle with client := NimBLEClient.init }
      = (staleHandle.host.ble_att_mtu BLE_HS_CONN_HANDLE_NONE,
          [Call.ble_att_mtu BLE_HS_CONN_HANDLE_NONE])
    ∧ (staleHandle.host.ble_att_mtu BLE_HS_CONN_HANDLE_NONE = 0 →
        (getMTU { staleHandle with client := NimBLEClient.init }).1 = 0) :=
  C11_rssi_mtu_not_connected { staleHandle with client := NimBLEClient.init } rfl

/-! ## C12, C13: the characteristics array of `start` -/

theorem fillChtrs_take : ∀ (n : Nat) (l : List NimBLECharacteristic), n ≤ l.length →
    fillChtrs n l = some ((l.take n).map (fun c => ({ uuid := some c.uuid } : ble_gatt_chr_def)))
  | 0, l, _ => by simp [fillChtrs]
  | n + 1, [], h => by simp at h
  | n + 1, c :: rest, h => by
    have ih := fillChtrs_take n rest (by simpa using h)
    simp [fillChtrs, ih]

theorem start_eq (s : NimBLEService) (host : GattsHost) :
    s.start host
      = if s.getSize % 256 < 1 then Except.ok (registerSvc host (svcArray s none) false)
        else
          Except.ok
            ((registerSvc host
                (svcArray s
                  (some ((s.m_characteristicMap.take (s.getSize % 256)).map
                      (fun c => ({ uuid := some c.uuid } : ble_gatt_chr_def))
                    ++ [{ uuid := none }]))) true).1,
              GattsCall.newArray (s.getSize % 256 + 1)
                :: (registerSvc host
                    (svcArray s
                      (some ((s.m_characteristicMap.take (s.getSize % 256)).map
                          (fun c => ({ uuid := some c.uuid } : ble_gatt_chr_def))
                        ++ [{ uuid := none }]))) true).2) := by
  have hle : s.getSize % 256 ≤ s.m_characteristicMap.length :=
    Nat.mod_le _ _
  simp only [NimBLEService.start, fillChtrs_take _ _ hle]

theorem registerSvc_calls (host : GattsHost) (svc : List ble_gatt_svc_def) (allocated : Bool) :
    GattsCall.ble_gatts_count_cfg svc ∈ (registerSvc host svc allocated).2
    ∧ ∀ svc1,
        (GattsCall.ble_gatts_count_cfg svc1 ∈ (registerSvc host svc allocated).2
          ∨ GattsCall.ble_gatts_add_svcs svc1 ∈ (registerSvc host svc allocated).2) →
        svc1 = svc := by
  unfold registerSvc
  cases allocated <;> split_ifs <;> simp

/-- C12, counterexample: `start()` on a service whose registry holds K = 256
characteristics allocates no array and passes a null characteristics array to
both registration calls, not an array of 257 entries. -/
theorem C12_counterexample_256 :
    crowded.getSize = 256
    ∧ crowded.start {}
      = Except.ok (true,
          [GattsCall.ble_gatts_count_cfg (svcArray crowded none),
           GattsCall.ble_gatts_add_svcs (svcArray crowded none)]) := by
  have hs : crowded.getSize = 256 := by
    show (List.replicate 256 battLevel).length = 256
    exact List.length_replicate _ _
  refine ⟨hs, ?_⟩
  rw [start_eq, hs]
  simp [registerSvc]

/-- C12, amended: for every K with 1 ≤ K ≤ 255, `start()` on a service whose registry holds K
characteristics passes to the registration calls, and to the capacity
negotiation in every case, a characteristics array of exactly K + 1 entries,
whose first K entries carry the UUIDs of the K characteristics in registry
iteration order and whose last entry is the sentinel with a null UUID; with
K = 0 it passes a null characteristics array. -/
theorem C12_characteristics_array (s : NimBLEService) (host : GattsHost)
    (hK : s.getSize ≤ 255) :
    ∃ b t arr,
      s.start host = Except.ok (b, t)
      ∧ GattsCall.ble_gatts_count_cfg (svcArray s arr) ∈ t
      ∧ (∀ svc,
          (GattsCall.ble_gatts_count_cfg svc ∈ t ∨ GattsCall.ble_gatts_add_svcs svc ∈ t) →
          svc = svcArray s arr)
      ∧ (s.getSize = 0 → arr = none)
      ∧ (1 ≤ s.getSize →
          ∃ a, arr = some a
            ∧ a.length = s.getSize + 1
            ∧ a.take s.getSize
                = s.m_characteristicMap.map
                    (fun c => ({ uuid := some c.uuid } : ble_gatt_chr_def))
            ∧ a.drop s.getSize = [{ uuid := none }]) := by
  have hmod : s.getSize % 256 = s.getSize := Nat.mod_eq_of_lt (by omega)
  rw [start_eq, hmod]
  by_cases h0 : s.getSize < 1
  · have hz : s.getSize = 0 := by omega
    rw [if_pos h0]
    refine ⟨_, _, none, rfl, (registerSvc_calls host _ false).1,
      (registerSvc_calls host _ false).2, fun _ => rfl, fun h1 => by omega⟩
  · rw [if_neg h0]
    have htake : s.m_characteristicMap.take s.getSize = s.m_characteristicMap := by
      simp [NimBLEService.getSize]
    rw [htake]
    refine ⟨_, _, some (s.m_characteristicMap.map
        (fun c => ({ uuid := some c.uuid } : ble_gatt_chr_def)) ++ [{ uuid := none }]),
      rfl, ?_, ?_, fun hz => by omega, fun _ => ⟨_, rfl, ?_, ?_, ?_⟩⟩
    · exact List.mem_cons_of_mem _ (registerSvc_calls host _ true).1
    · intro svc hsvc
      apply (registerSvc_calls host _ true).2 svc
      rcases hsvc with h | h
      · left
        simpa using h
      · right
        simpa using h
    · simp [NimBLEService.getSize]
    · simp [NimBLEService.getSize]
    · simp [NimBLEService.getSize]

/-- C12, witness: the amended statement at a service with two characteristics. -/
theorem C12_characteristics_array_witness :
    ∃ b t arr,
      twoChtrs.start {} = Except.ok (b, t)
      ∧ GattsCall.ble_gatts_count_cfg (svcArray twoChtrs arr) ∈ t
      ∧ (∀ svc,
          (GattsCall.ble_gatts_count_cfg svc ∈ t ∨ GattsCall.ble_gatts_add_svcs svc ∈ t) →
          svc = svcArray twoChtrs arr)
      ∧ (twoChtrs.getSize = 0 → arr = none)
      ∧ (1 ≤ twoChtrs.getSize →
          ∃ a, arr = some a
            ∧ a.length = twoChtrs.getSize + 1
            ∧ a.take twoChtrs.getSize
                = twoChtrs.m_characteristicMap.map
                    (fun c => ({ uuid := some c.uuid } : ble_gatt_chr_def))
            ∧ a.drop twoChtrs.getSize = [{ uuid := none }]) :=
  C12_characteristics_array twoChtrs {} (by decide)

theorem registerSvc_spec (host : GattsHost) (svc : List ble_gatt_svc_def) (allocated : Bool) :
    ((registerSvc host svc allocated).1 = true
      ↔ (host.ble_gatts_count_cfg svc = 0 ∧ host.ble_gatts_add_svcs svc = 0))
    ∧ (host.ble_gatts_count_cfg svc ≠ 0 →
        (registerSvc host svc allocated).2.countP GattsCall.isAddSvcs = 0)
    ∧ (registerSvc host svc allocated).2.count GattsCall.deleteArray
        = (if allocated then 1 else 0)
    ∧ (registerSvc host svc allocated).2.countP GattsCall.isNewArray = 0
    ∧ (allocated = true →
        (registerSvc host svc allocated).2.getLast? = some GattsCall.deleteArray) := by
  by_cases h1 : host.ble_gatts_count_cfg svc = 0 <;>
    by_cases h2 : host.ble_gatts_add_svcs svc = 0 <;>
    cases allocated <;>
    simp [registerSvc, h1, h2, GattsCall.isAddSvcs, GattsCall.isNewArray, List.count_cons]

theorem registerSvc_trace (host : GattsHost) (svc : List ble_gatt_svc_def) (allocated : Bool) :
    (registerSvc host svc allocated).2
      = [GattsCall.ble_gatts_count_cfg svc]
        ++ (if host.ble_gatts_count_cfg svc = 0 then [GattsCall.ble_gatts_add_svcs svc] else [])
        ++ (if allocated then [GattsCall.deleteArray] else []) := by
  by_cases h1 : host.ble_gatts_count_cfg svc = 0 <;>
    by_cases h2 : host.ble_gatts_add_svcs svc = 0 <;>
    cases allocated <;>
    simp [registerSvc, h1, h2]

/-- C13: `start()` always returns.  Its calls are, in this order: the allocation of the
transient array when the registry count is not 0; the capacity-negotiation call;
the registration call, made exactly when the capacity negotiation answered 0,
with the same services array; and the release of the array when it was
allocated.  Both calls receive the services array that `start()` built: without
a characteristics array when the count is 0, else with the array of the first
count characteristics and the end marker.  It returns true if and only if both
calls answer 0.  So when the
capacity negotiation fails no registration call is made, when it succeeds
exactly one is made, and on every path the releases of the transient array are
as many as its allocations, at most one, and the release is the last call
before `start()` returns. -/
theorem C13_start_two_phase (s : NimBLEService) (host : GattsHost) :
    ∃ b t svc,
      s.start host = Except.ok (b, t)
      ∧ svc = svcArray s
          (if s.getSize % 256 < 1 then none
           else some ((s.m_characteristicMap.take (s.getSize % 256)).map
                  (fun c => ({ uuid := some c.uuid } : ble_gatt_chr_def))
                ++ [{ uuid := none }]))
      ∧ t = (if s.getSize % 256 < 1 then [] else [GattsCall.newArray (s.getSize % 256 + 1)])
            ++ [GattsCall.ble_gatts_count_cfg svc]
            ++ (if host.ble_gatts_count_cfg svc = 0 then [GattsCall.ble_gatts_add_svcs svc]
                else [])
            ++ (if s.getSize % 256 < 1 then [] else [GattsCall.deleteArray])
      ∧ GattsCall.ble_gatts_count_cfg svc ∈ t
      ∧ (b = true ↔ (host.ble_gatts_count_cfg svc = 0 ∧ host.ble_gatts_add_svcs svc = 0))
      ∧ (host.ble_gatts_count_cfg svc ≠ 0 → t.countP GattsCall.isAddSvcs = 0)
      ∧ (host.ble_gatts_count_cfg svc = 0 →
          GattsCall.ble_gatts_add_svcs svc ∈ t ∧ t.countP GattsCall.isAddSvcs = 1)
      ∧ (b = true → GattsCall.ble_gatts_add_svcs svc ∈ t)
      ∧ t.count GattsCall.deleteArray = t.countP GattsCall.isNewArray
      ∧ t.countP GattsCall.isNewArray ≤ 1
      ∧ (t.countP GattsCall.isNewArray = 1 → t.getLast? = some GattsCall.deleteArray) := by
  have key : ∀ (svc : List ble_gatt_svc_def) (pre : List GattsCall) (allocated : Bool),
      (pre = [] ∧ allocated = false) ∨ (∃ n, pre = [GattsCall.newArray n] ∧ allocated = true) →
      ∀ b t, b = (registerSvc host svc allocated).1 →
      t = pre ++ (registerSvc host svc allocated).2 →
      t = pre ++ [GattsCall.ble_gatts_count_cfg svc]
            ++ (if host.ble_gatts_count_cfg svc = 0 then [GattsCall.ble_gatts_add_svcs svc]
                else [])
            ++ (if allocated then [GattsCall.deleteArray] else [])
      ∧ GattsCall.ble_gatts_count_cfg svc ∈ t
      ∧ (b = true ↔ (host.ble_gatts_count_cfg svc = 0 ∧ host.ble_gatts_add_svcs svc = 0))
      ∧ (host.ble_gatts_count_cfg svc ≠ 0 → t.countP GattsCall.isAddSvcs = 0)
      ∧ (host.ble_gatts_count_cfg svc = 0 →
          GattsCall.ble_gatts_add_svcs svc ∈ t ∧ t.countP GattsCall.isAddSvcs = 1)
      ∧ (b = true → GattsCall.ble_gatts_add_svcs svc ∈ t)
      ∧ t.count GattsCall.deleteArray = t.countP GattsCall.isNewArray
      ∧ t.countP GattsCall.isNewArray ≤ 1
      ∧ (t.countP GattsCall.isNewArray = 1 → t.getLast? = some GattsCall.deleteArray) := by
    intro svc pre allocated hpre b t hb ht
    have hiff := (registerSvc_spec host svc allocated).1
    rw [← hb] at hiff
    rw [registerSvc_trace] at ht
    subst ht
    rcases hpre with ⟨rfl, rfl⟩ | ⟨n, rfl, rfl⟩ <;>
      by_cases h1 : host.ble_gatts_count_cfg svc = 0 <;>
      simp [h1, hiff, GattsCall.isAddSvcs, GattsCall.isNewArray, List.count_cons,
        List.countP_cons]
  rw [start_eq]
  split_ifs with h0
  · refine ⟨(registerSvc host (svcArray s none) false).1,
      (registerSvc host (svcArray s none) false).2, svcArray s none, rfl, by simp [h0], ?_⟩
    have := key (svcArray s none) [] false (Or.inl ⟨rfl, rfl⟩) _ _ rfl rfl
    simpa using this
  · refine ⟨(registerSvc host
        (svcArray s
          (some ((s.m_characteristicMap.take (s.getSize % 256)).map
              (fun c => ({ uuid := some c.uuid } : ble_gatt_chr_def))
            ++ [{ uuid := none }]))) true).1,
      GattsCall.newArray (s.getSize % 256 + 1) :: (registerSvc host
        (svcArray s
          (some ((s.m_characteristicMap.take (s.getSize % 256)).map
              (fun c => ({ uuid := some c.uuid } : ble_gatt_chr_def))
            ++ [{ uuid := none }]))) true).2,
      svcArray s
          (some ((s.m_characteristicMap.take (s.getSize % 256)).map
              (fun c => ({ uuid := some c.uuid } : ble_gatt_chr_def))
            ++ [{ uuid := none }])), rfl, by simp [h0], ?_⟩
    have := key (svcArray s
          (some ((s.m_characteristicMap.take (s.getSize % 256)).map
              (fun c => ({ uuid := some c.uuid } : ble_gatt_chr_def))
            ++ [{ uuid := none }]))) [GattsCall.newArray (s.getSize % 256 + 1)] true
      (Or.inr ⟨_, rfl, rfl⟩) _ _ rfl rfl
    simpa using this

/-- C13, witness: a service with two characteristics on a host stack that accepts both
calls, on one that refuses the capacity negotiation and on one that refuses
the registration, and a service without characteristics: the calls of `start()`
on each path, with the registration call on the path that returns true. -/
theorem C13_start_two_phase_witness :
    twoChtrs.start {}
      = Except.ok (true,
          [GattsCall.newArray 3,
           GattsCall.ble_gatts_count_cfg (svcArray twoChtrs (some twoChtrsArray)),
           GattsCall.ble_gatts_add_svcs (svcArray twoChtrs (some twoChtrsArray)),
           GattsCall.deleteArray])
    ∧ twoChtrs.start refusing
      = Except.ok (false,
          [GattsCall.newArray 3,
           GattsCall.ble_gatts_count_cfg (svcArray twoChtrs (some twoChtrsArray)),
           GattsCall.deleteArray])
    ∧ twoChtrs.start refusingRegistration
      = Except.ok (false,
          [GattsCall.newArray 3,
           GattsCall.ble_gatts_count_cfg (svcArray twoChtrs (some twoChtrsArray)),
           GattsCall.ble_gatts_add_svcs (svcArray twoChtrs (some twoChtrsArray)),
           GattsCall.deleteArray])
    ∧ (NimBLEService.init "0x180f" 15).start {}
      = Except.ok (true,
          [GattsCall.ble_gatts_count_cfg (svcArray (NimBLEService.init "0x180f" 15) none),
           GattsCall.ble_gatts_add_svcs (svcArray (NimBLEService.init "0x180f" 15) none)])
    ∧ ∃ b t svc,
      twoChtrs.start {} = Except.ok (b, t)
      ∧ svc = svcArray twoChtrs
          (if twoChtrs.getSize % 256 < 1 then none
           else some ((twoChtrs.m_characteristicMap.take (twoChtrs.getSize % 256)).map
                  (fun c => ({ uuid := some c.uuid } : ble_gatt_chr_def))
                ++ [{ uuid := none }]))
      ∧ t = (if twoChtrs.getSize % 256 < 1 then []
              else [GattsCall.newArray (twoChtrs.getSize % 256 + 1)])
            ++ [GattsCall.ble_gatts_count_cfg svc]
            ++ (if ({} : GattsHost).ble_gatts_count_cfg svc = 0 then
                  [GattsCall.ble_gatts_add_svcs svc]
                else [])
            ++ (if twoChtrs.getSize % 256 < 1 then [] else [GattsCall.deleteArray])
      ∧ GattsCall.ble_gatts_count_cfg svc ∈ t
      ∧ (b = true ↔
          (({} : GattsHost).ble_gatts_count_cfg svc = 0
            ∧ ({} : GattsHost).ble_gatts_add_svcs svc = 0))
      ∧ (({} : GattsHost).ble_gatts_count_cfg svc ≠ 0 → t.countP GattsCall.isAddSvcs = 0)
      ∧ (({} : GattsHost).ble_gatts_count_cfg svc = 0 →
          GattsCall.ble_gatts_add_svcs svc ∈ t ∧ t.countP GattsCall.isAddSvcs = 1)
      ∧ (b = true → GattsCall.ble_gatts_add_svcs svc ∈ t)
      ∧ t.count GattsCall.deleteArray = t.countP GattsCall.isNewArray
      ∧ t.countP GattsCall.isNewArray ≤ 1
      ∧ (t.countP GattsCall.isNewArray = 1 → t.getLast? = some GattsCall.deleteArray) :=
  ⟨rfl, rfl, rfl, rfl, C13_start_two_phase twoChtrs {}⟩

/-! ## C14: the last created characteristic -/

theorem createCharacteristic_lastCreated (s : NimBLEService) (uuid : String) (properties : Nat) :
    (s.createCharacteristic uuid properties).2.getLastCreatedCharacteristic
      = s.getLastCreatedCharacteristic := rfl

/-- C14, the code at the failing input: on a newly constructed service,
`createCharacteristic` returns the new characteristic and enters it in the
registry, and `getLastCreatedCharacteristic()` then returns null. -/
theorem C14_last_created_stays_null :
    ((NimBLEService.init "0x180f" 15).createCharacteristic "0x2a19" 2).1 = battLevel
    ∧ ((NimBLEService.init "0x180f" 15).createCharacteristic "0x2a19" 2).2.getCharacteristic
        "0x2a19" = some battLevel
    ∧ ((NimBLEService.init "0x180f" 15).createCharacteristic
        "0x2a19" 2).2.getLastCreatedCharacteristic = none := by
  decide

/-! ## C15: passkey actions -/

/-- C15: for every passkey-action event on the client's connection handle the handler
returns 0 and leaves the world as it was.  For display it makes one call, the
inject response with the device's stored passkey; for numeric compare it asks
`onConfirmPIN` when a callback object is registered and injects its answer, and
injects a reject when none is registered; for out-of-band it injects sixteen
zero bytes; for keyboard input it asks `onPassKeyRequest` when a callback object
is registered and injects its value, and injects 0 when none is registered; in
each of these four cases exactly one inject-response call is made; for the action
none no call is made. -/
theorem C15_passkey_actions (w : World) (numcmp : Nat) :
    handleGapEvent (ble_gap_event.passkey_action w.client.m_conn_id ble_sm_ioact.DISP numcmp) w
      = Except.ok (0, w,
          [Call.ble_sm_inject_io w.client.m_conn_id
            { action := ble_sm_ioact.DISP, passkey := w.device.m_passkey }])
    ∧ handleGapEvent
        (ble_gap_event.passkey_action w.client.m_conn_id ble_sm_ioact.NUMCMP numcmp) w
      = Except.ok (0, w,
          (match w.client.m_pClientCallbacks with
            | some _ => [Call.onConfirmPIN numcmp]
            | none => [])
          ++ [Call.ble_sm_inject_io w.client.m_conn_id
            { action := ble_sm_ioact.NUMCMP,
              numcmp_accept :=
                match w.client.m_pClientCallbacks with
                | some cb => cb.onConfirmPIN numcmp
                | none => false }])
    ∧ handleGapEvent (ble_gap_event.passkey_action w.client.m_conn_id ble_sm_ioact.OOB numcmp) w
      = Except.ok (0, w,
          [Call.ble_sm_inject_io w.client.m_conn_id
            { action := ble_sm_ioact.OOB, oob := [0, 0, 0, 0, 0, 0, 0, 0, 0, 0, 0, 0, 0, 0, 0, 0] }])
    ∧ handleGapEvent
        (ble_gap_event.passkey_action w.client.m_conn_id ble_sm_ioact.INPUT numcmp) w
      = Except.ok (0, w,
          (match w.client.m_pClientCallbacks with
            | some _ => [Call.onPassKeyRequest]
            | none => [])
          ++ [Call.ble_sm_inject_io w.client.m_conn_id
            { action := ble_sm_ioact.INPUT,
              passkey :=
                match w.client.m_pClientCallbacks with
                | some cb => cb.onPassKeyRequest
                | none => 0 }])
    ∧ handleGapEvent (ble_gap_event.passkey_action w.client.m_conn_id ble_sm_ioact.NONE numcmp) w
      = Except.ok (0, w, [])
    ∧ (∀ action, action ∈ [ble_sm_ioact.DISP, ble_sm_ioact.NUMCMP, ble_sm_ioact.OOB,
          ble_sm_ioact.INPUT] →
        (handleGapEvent (ble_gap_event.passkey_action w.client.m_conn_id action numcmp)
            w).toOption.map (fun r => r.2.2.countP Call.isInject) = some 1) := by
  refine ⟨?_, ?_, ?_, ?_, ?_, ?_⟩
  · simp [handleGapEvent, passkeyAction]
  · cases hcb : w.client.m_pClientCallbacks <;> simp [handleGapEvent, passkeyAction, hcb]
  · simp [handleGapEvent, passkeyAction]
  · cases hcb : w.client.m_pClientCallbacks <;> simp [handleGapEvent, passkeyAction, hcb]
  · simp [handleGapEvent, passkeyAction]
  · intro action ha
    simp only [List.mem_cons, List.mem_singleton, List.not_mem_nil, or_false] at ha
    rcases ha with rfl | rfl | rfl | rfl <;>
      cases hcb : w.client.m_pClientCallbacks <;>
      simp [handleGapEvent, passkeyAction, hcb, Except.toOption, Call.isInject]

/-- C15, witness: every one of the four actions that ask for a response makes exactly one
inject-response call, at a client with a callback object and at one without. -/
theorem C15_passkey_actions_witness :
    (handleGapEvent
        (ble_gap_event.passkey_action connectedDiscovering.client.m_conn_id
          ble_sm_ioact.NUMCMP 123456)
        connectedDiscovering).toOption.map (fun r => r.2.2.countP Call.isInject) = some 1
    ∧ (handleGapEvent
        (ble_gap_event.passkey_action staleHandle.client.m_conn_id ble_sm_ioact.INPUT 0)
        staleHandle).toOption.map (fun r => r.2.2.countP Call.isInject) = some 1 :=
  ⟨(C15_passkey_actions connectedDiscovering 123456).2.2.2.2.2 ble_sm_ioact.NUMCMP (by decide),
    (C15_passkey_actions staleHandle 0).2.2.2.2.2 ble_sm_ioact.INPUT (by decide)⟩

/-! ## C16: the connection handle of a client that is not connected -/

theorem Opens.refl (w : World) : Opens w w [] := fun h => Or.inl h

theorem Opens.trans {w w1 w2 : World} {t1 t2 : List Call}
    (h1 : Opens w w1 t1) (h2 : Opens w1 w2 t2) : Opens w w2 (t1 ++ t2) := by
  intro h
  rcases h1 h with h | h
  · rcases h2 h with h | h
    · exact Or.inl h
    · right
      simp [List.any_append, h]
  · right
    simp [List.any_append, h]

theorem Opens.of_client {w w1 : World} (t : List Call)
    (hid : w1.client.m_conn_id = w.client.m_conn_id)
    (hcon : w1.client.m_isConnected = w.client.m_isConnected) : Opens w w1 t := by
  intro h
  left
  simpa [NeverOpened, NimBLEClient.getConnId, NimBLEClient.isConnected, hid, hcon] using h

theorem handleGapEvent_opens {event : ble_gap_event} {w w1 : World} {r : Int} {t : List Call}
    (h : handleGapEvent event w = Except.ok (r, w1, t)) : Opens w w1 t := by
  cases event with
  | connect status conn_handle =>
    simp only [handleGapEvent] at h
    split_ifs at h <;> simp only [Except.ok.injEq, Prod.mk.injEq] at h <;>
      obtain ⟨rfl, rfl, rfl⟩ := h
    · exact Opens.refl _
    · intro _
      right
      simp [Call.isAddIgnored]
    · exact Opens.of_client _ rfl rfl
  | disconnect reason conn_handle =>
    simp only [handleGapEvent] at h
    split_ifs at h <;> simp only [Except.ok.injEq, Prod.mk.injEq] at h <;>
      obtain ⟨rfl, rfl, rfl⟩ := h
    · exact Opens.refl _
    · exact Opens.refl _
    · intro hn
      left
      exact ⟨hn.1, rfl⟩
  | notify_rx conn_handle attr_handle om_data indication =>
    simp only [handleGapEvent] at h
    split_ifs at h <;> simp only [Except.ok.injEq, Prod.mk.injEq] at h <;>
      obtain ⟨rfl, rfl, rfl⟩ := h <;> exact Opens.of_client _ rfl rfl
  | l2cap_update_req conn_handle =>
    simp only [handleGapEvent, Except.ok.injEq, Prod.mk.injEq] at h
    obtain ⟨rfl, rfl, rfl⟩ := h
    exact Opens.refl _
  | enc_change status conn_handle =>
    simp only [handleGapEvent] at h
    split_ifs at h
    · simp only [Except.ok.injEq, Prod.mk.injEq] at h
      obtain ⟨rfl, rfl, rfl⟩ := h
      exact Opens.refl _
    · cases hcb : w.client.m_pClientCallbacks with
      | none => simp [hcb] at h
      | some cb =>
        simp only [hcb, Except.ok.injEq, Prod.mk.injEq] at h
        obtain ⟨rfl, rfl, rfl⟩ := h
        exact Opens.of_client _ rfl rfl
    · simp only [Except.ok.injEq, Prod.mk.injEq] at h
      obtain ⟨rfl, rfl, rfl⟩ := h
      exact Opens.of_client _ rfl rfl
  | passkey_action conn_handle action numcmp =>
    simp only [handleGapEvent] at h
    split_ifs at h <;> simp only [Except.ok.injEq, Prod.mk.injEq] at h <;>
      obtain ⟨rfl, rfl, rfl⟩ := h <;> exact Opens.of_client _ rfl rfl
  | other conn_handle =>
    simp only [handleGapEvent, Except.ok.injEq, Prod.mk.injEq] at h
    obtain ⟨rfl, rfl, rfl⟩ := h
    exact Opens.refl _

theorem serviceDiscoveredCB_client (conn_handle : Nat) (status : Int) (service : ble_gatt_svc)
    (peer : NimBLEClient) :
    (serviceDiscoveredCB conn_handle status service peer).2.m_conn_id = peer.m_conn_id
    ∧ (serviceDiscoveredCB conn_handle status service peer).2.m_isConnected
        = peer.m_isConnected := by
  simp only [serviceDiscoveredCB]
  split_ifs <;> exact ⟨rfl, rfl⟩

theorem waitGapEvents_opens (gate : NimBLEClient → Semaphore) :
    ∀ (evs : List ble_gap_event) (w w1 : World) (rc : Int) (t : List Call),
      waitGapEvents gate evs w = Except.ok (rc, w1, t) → Opens w w1 t
  | [], w, w1, rc, t, h => by
    simp only [waitGapEvents] at h
    split_ifs at h
    simp only [Except.ok.injEq, Prod.mk.injEq] at h
    obtain ⟨_, rfl, rfl⟩ := h
    exact Opens.refl _
  | event :: rest, w, w1, rc, t, h => by
    simp only [waitGapEvents] at h
    split_ifs at h
    · obtain ⟨a, w2, t1, t2, h1, h2, rfl⟩ := Res.andThen_eq_ok h
      have hpop : Opens w { w with host := { w.host with events := rest } } [] :=
        Opens.of_client _ rfl rfl
      have := (hpop.trans (handleGapEvent_opens h1)).trans
        (waitGapEvents_opens gate rest w2 w1 rc t2 h2)
      simpa using this
    · simp only [Except.ok.injEq, Prod.mk.injEq] at h
      obtain ⟨_, rfl, rfl⟩ := h
      exact Opens.refl _

theorem waitDiscoveryEvents_opens :
    ∀ (evs : List HostEvent) (w w1 : World) (rc : Int) (t : List Call),
      waitDiscoveryEvents evs w = Except.ok (rc, w1, t) → Opens w w1 t
  | [], w, w1, rc, t, h => by
    simp only [waitDiscoveryEvents] at h
    split_ifs at h
    simp only [Except.ok.injEq, Prod.mk.injEq] at h
    obtain ⟨_, rfl, rfl⟩ := h
    exact Opens.refl _
  | e :: rest, w, w1, rc, t, h => by
    simp only [waitDiscoveryEvents] at h
    split_ifs at h
    · obtain ⟨a, w2, t1, t2, h1, h2, rfl⟩ := Res.andThen_eq_ok h
      have h3 := waitDiscoveryEvents_opens rest w2 w1 rc t2 h2
      have h4 : Opens w w2 t1 := by
        cases e with
        | gap event =>
          have hpop : Opens w { w with host := { w.host with discovery := rest } } [] :=
            Opens.of_client _ rfl rfl
          simpa using hpop.trans (handleGapEvent_opens h1)
        | svc conn_handle status service =>
          simp only [dispatch, Except.ok.injEq, Prod.mk.injEq] at h1
          obtain ⟨_, rfl, rfl⟩ := h1
          exact Opens.of_client _ (serviceDiscoveredCB_client _ _ _ _).1
            (serviceDiscoveredCB_client _ _ _ _).2
      exact h4.trans h3
    · simp only [Except.ok.injEq, Prod.mk.injEq] at h
      obtain ⟨_, rfl, rfl⟩ := h
      exact Opens.refl _

theorem deliverGapEvents_opens :
    ∀ (evs : List ble_gap_event) (w w1 : World) (u : Unit) (t : List Call),
      deliverGapEvents evs w = Except.ok (u, w1, t) → Opens w w1 t
  | [], w, w1, u, t, h => by
    simp only [deliverGapEvents, Except.ok.injEq, Prod.mk.injEq] at h
    obtain ⟨_, rfl, rfl⟩ := h
    exact Opens.refl _
  | e :: rest, w, w1, u, t, h => by
    simp only [deliverGapEvents] at h
    obtain ⟨a, w2, t1, t2, h1, h2, rfl⟩ := Res.andThen_eq_ok h
    exact (handleGapEvent_opens h1).trans (deliverGapEvents_opens rest w2 w1 u t2 h2)

theorem retrieveCharacteristics_opens (key : String) (w w1 : World) (b : Bool)
    (t : List Call) (h : retrieveCharacteristics key w = Except.ok (b, w1, t)) :
    Opens w w1 t := by
  unfold retrieveCharacteristics at h
  cases hd : w.host.charDisc with
  | nil => simp [hd] at h
  | cons d ds =>
    simp only [hd] at h
    obtain ⟨t1, h1, rfl⟩ := Res.after_eq_ok h
    obtain ⟨a, w2, t2, t3, h2, h3, rfl⟩ := Res.andThen_eq_ok h1
    simp only [Except.ok.injEq, Prod.mk.injEq] at h3
    obtain ⟨_, rfl, rfl⟩ := h3
    have hpop : Opens w { w with host := { w.host with charDisc := ds } }
        [Call.retrieveCharacteristics key] := Opens.of_client _ rfl rfl
    have hstore : Opens w2
        { w2 with client :=
          { w2.client with
            m_servicesMap := storeCharacteristics key d.found w2.client.m_servicesMap } } [] :=
      Opens.of_client _ rfl rfl
    exact hpop.trans ((deliverGapEvents_opens _ _ _ _ _ h2).trans hstore)

theorem retrieveAllCharacteristics_opens :
    ∀ (keys : List String) (w w1 : World) (b : Bool) (t : List Call),
      retrieveAllCharacteristics keys w = Except.ok (b, w1, t) → Opens w w1 t
  | [], w, w1, b, t, h => by
    simp only [retrieveAllCharacteristics, Except.ok.injEq, Prod.mk.injEq] at h
    obtain ⟨_, rfl, rfl⟩ := h
    exact Opens.refl _
  | key :: rest, w, w1, b, t, h => by
    simp only [retrieveAllCharacteristics] at h
    split_ifs at h
    · simp only [Except.ok.injEq, Prod.mk.injEq] at h
      obtain ⟨_, rfl, rfl⟩ := h
      exact Opens.refl _
    · obtain ⟨ok, w2, t1, t2, h1, h2, rfl⟩ := Res.andThen_eq_ok h
      have h3 := retrieveCharacteristics_opens key w w2 ok t1 h1
      split_ifs at h2
      · simp only [Except.ok.injEq, Prod.mk.injEq] at h2
        obtain ⟨_, rfl, rfl⟩ := h2
        exact h3.trans (Opens.refl _)
      · exact h3.trans (retrieveAllCharacteristics_opens rest w2 w1 b t2 h2)

theorem retrieveServices_opens (w w1 : World) (b : Bool) (t : List Call)
    (h : retrieveServices w = Except.ok (b, w1, t)) : Opens w w1 t := by
  simp only [retrieveServices] at h
  split_ifs at h
  · simp only [Except.ok.injEq, Prod.mk.injEq] at h
    obtain ⟨_, rfl, rfl⟩ := h
    exact Opens.refl _
  · obtain ⟨hs, w2, t1, t2, h1, h2, rfl⟩ := Res.andThen_eq_ok h
    have h3 : Opens w w2 t1 := by
      simp only [discoverServices] at h1
      obtain ⟨t3, h4, rfl⟩ := Res.after_eq_ok h1
      split_ifs at h4
      · simp only [Except.ok.injEq, Prod.mk.injEq] at h4
        obtain ⟨_, rfl, rfl⟩ := h4
        exact Opens.of_client _ rfl rfl
      · obtain ⟨rc1, w3, t4, t5, h5, h6, rfl⟩ := Res.andThen_eq_ok h4
        simp only [Except.ok.injEq, Prod.mk.injEq] at h6
        obtain ⟨_, rfl, rfl⟩ := h6
        have harm : Opens w
            { w with client :=
              { w.client with
                m_semaphoreSearchCmplEvt := w.client.m_semaphoreSearchCmplEvt.take } }
            [Call.ble_gattc_disc_all_svcs w.client.m_conn_id] := Opens.of_client _ rfl rfl
        have hset : Opens w3
            { w3 with client := { w3.client with m_haveServices := decide (rc1 = 0) } } [] :=
          Opens.of_client _ rfl rfl
        exact harm.trans ((waitDiscoveryEvents_opens _ _ _ _ _ h5).trans hset)
    split_ifs at h2
    · exact h3.trans (retrieveAllCharacteristics_opens _ _ _ _ _ h2)
    · simp only [Except.ok.injEq, Prod.mk.injEq] at h2
      obtain ⟨_, rfl, rfl⟩ := h2
      exact h3.trans (Opens.refl _)

theorem disconnect_world (reason : Nat) (w : World) : (disconnect reason w).2.1 = w := by
  cases h : w.client.m_isConnected <;> simp [disconnect, h]

theorem connectDiscover_opens (w w1 : World) (b : Bool) (t : List Call)
    (h : connectDiscover w = Except.ok (b, w1, t)) : Opens w w1 t := by
  simp only [connectDiscover] at h
  split_ifs at h
  · obtain ⟨ok, w2, t1, t2, h1, h2, rfl⟩ := Res.andThen_eq_ok h
    have h3 := retrieveServices_opens _ _ _ _ h1
    split_ifs at h2
    · simp only [Except.ok.injEq, Prod.mk.injEq] at h2
      obtain ⟨_, rfl, rfl⟩ := h2
      refine h3.trans (Opens.of_client _ ?_ ?_) <;> rw [disconnect_world] <;> rfl
    · simp only [Except.ok.injEq, Prod.mk.injEq] at h2
      obtain ⟨_, rfl, rfl⟩ := h2
      exact h3.trans (Opens.refl _)
  · simp only [Except.ok.injEq, Prod.mk.injEq] at h
    obtain ⟨_, rfl, rfl⟩ := h
    exact Opens.refl _

theorem connect_opens (address : NimBLEAddress) (type : Nat) (refreshServices : Bool)
    (w w1 : World) (b : Bool) (t : List Call)
    (h : connect address type refreshServices w = Except.ok (b, w1, t)) : Opens w w1 t := by
  simp only [connect] at h
  split_ifs at h with hsync
  · simp only [Except.ok.injEq, Prod.mk.injEq] at h
    obtain ⟨_, rfl, rfl⟩ := h
    exact Opens.refl _
  · obtain ⟨rc, wA, tA, tB, hloop, hrest, rfl⟩ := Res.andThen_eq_ok h
    obtain ⟨n, rest, _, _, hwA, _⟩ := connectLoop_eq_ok _ _ _ _ _ _ _ hloop
    have harm : Opens w wA tA := by
      rw [hwA]
      refine Opens.of_client _ ?_ ?_ <;> cases refreshServices <;> rfl
    split_ifs at hrest with hrc
    · simp only [Except.ok.injEq, Prod.mk.injEq] at hrest
      obtain ⟨_, rfl, rfl⟩ := hrest
      exact harm.trans (Opens.of_client _ rfl rfl)
    · obtain ⟨rc1, wB, tC, tD, hwait, hdisc, rfl⟩ := Res.andThen_eq_ok hrest
      have hpend : Opens wA (connectPending wA) [] := Opens.of_client _ rfl rfl
      have hw := waitGapEvents_opens _ _ _ _ _ _ hwait
      have h2 : Opens wA wB tC := by simpa using hpend.trans hw
      split_ifs at hdisc
      · simp only [Except.ok.injEq, Prod.mk.injEq] at hdisc
        obtain ⟨_, rfl, rfl⟩ := hdisc
        exact harm.trans (h2.trans (Opens.refl _))
      · exact harm.trans (h2.trans (connectDiscover_opens _ _ _ _ hdisc))

theorem reachable_opens {w : World} {tr : List Call} (h : Reachable w tr) :
    NeverOpened w ∨ tr.any Call.isAddIgnored = true := by
  induction h with
  | init device host => exact Or.inl ⟨rfl, rfl⟩
  | connect address type refreshServices b _ hc ih =>
    rcases ih with ih | ih
    · rcases connect_opens _ _ _ _ _ _ _ hc ih with h | h
      · exact Or.inl h
      · right; simp [List.any_append, h]
    · right; simp [List.any_append, ih]
  | disconnect reason _ ih =>
    rcases ih with ih | ih
    · left
      rw [disconnect_world]
      exact ih
    · right; simp [List.any_append, ih]
  | gapEvent event rc _ he ih =>
    rcases ih with ih | ih
    · rcases handleGapEvent_opens he ih with h | h
      · exact Or.inl h
      · right; simp [List.any_append, h]
    · right; simp [List.any_append, ih]
  | svcEvent conn_handle status service _ ih =>
    rcases ih with ih | ih
    · left
      exact Opens.of_client [] (serviceDiscoveredCB_client _ _ _ _).1
        (serviceDiscoveredCB_client _ _ _ _).2 ih |>.resolve_right (by simp)
    · exact Or.inr ih
  | setClientCallbacks pClientCallbacks deleteCallbacks _ ih =>
    rcases ih with ih | ih
    · exact Or.inl ih
    · exact Or.inr ih
  | environment device host _ ih =>
    rcases ih with ih | ih
    · exact Or.inl ih
    · exact Or.inr ih

/-- C16, counterexample: a newly constructed client connects (the host stack opens the
connection with handle 1 and finds no service) and then receives the
disconnect event for its connection; in the state reached the connected flag
is false and `getConnId()` is 1, not the invalid sentinel. -/
theorem C16_counterexample_stale_handle :
    Reachable newWorldDisconnected
      (([] ++ [Call.ble_gap_connect 0xAABB 0, Call.addIgnored 0xAABB,
          Call.ble_gattc_disc_all_svcs 1]) ++ [Call.removeIgnored 0xAABB])
    ∧ newWorldDisconnected.client.isConnected = false
    ∧ newWorldDisconnected.client.getConnId = 1
    ∧ newWorldDisconnected.client.getConnId ≠ BLE_HS_CONN_HANDLE_NONE := by
  refine ⟨?_, rfl, rfl, by decide⟩
  have h0 : Reachable newWorld [] := Reachable.init {} plainHost
  have h1 : Reachable newWorldConnected
      ([] ++ [Call.ble_gap_connect 0xAABB 0, Call.addIgnored 0xAABB,
        Call.ble_gattc_disc_all_svcs 1]) :=
    Reachable.connect 0xAABB 0 false true h0 rfl
  exact Reachable.gapEvent (ble_gap_event.disconnect 19 1) 0 h1 rfl

/-- C16, amended: in every state reachable from a newly constructed client through
`connect`, `disconnect` and dispatched events in which the client has not yet
accepted a connect completion with status 0 (it has so far not marked a peer as
connected), `getConnId()` is the invalid sentinel and the connected flag is
false. -/
theorem C16_handle_before_first_connection (w : World) (tr : List Call)
    (hreach : Reachable w tr) (hnone : tr.any Call.isAddIgnored = false) :
    w.client.getConnId = BLE_HS_CONN_HANDLE_NONE ∧ w.client.isConnected = false := by
  rcases reachable_opens hreach with h | h
  · exact h
  · rw [hnone] at h
    exact absurd h (by simp)

/-- C16, witness: a newly constructed client whose first connect request the host stack
rejects still has the invalid sentinel as its handle. -/
theorem C16_handle_before_first_connection_witness :
    newRejectedAfter.client.getConnId = BLE_HS_CONN_HANDLE_NONE
    ∧ newRejectedAfter.client.isConnected = false :=
  C16_handle_before_first_connection newRejectedAfter ([] ++ [Call.ble_gap_connect 0x2222 0])
    (Reachable.connect 0x2222 0 false false
      (Reachable.init newRejected.device newRejected.host) rfl)
    rfl

/-! ## C17, C18: disconnect and connect-completion events -/

theorem disconnect_event_ignored (w : World) (reason : Int) (conn_handle : Nat)
    (h : w.client.m_isConnected = false ∨ w.client.m_conn_id ≠ conn_handle) :
    handleGapEvent (ble_gap_event.disconnect reason conn_handle) w = Except.ok (0, w, []) := by
  rcases h with h | h
  · simp [handleGapEvent, h]
  · cases hc : w.client.m_isConnected <;> simp [handleGapEvent, hc, h]

/-- C17: a disconnect event is ignored, with status 0, the world unchanged and no call,
when the client is not connected or the event's connection handle differs from
the client's; otherwise it gives the connection-open, the discovery and the
security gate the result 1, invokes `onDisconnect` once when a callback object is
registered and not at all otherwise, asks `NimBLEDevice` to remove the peer
address from the ignore list, and sets the connected flag and the
pending-connect flag to false, leaving every other field as it was. -/
theorem C17_disconnect_event (w : World) (reason : Int) (conn_handle : Nat) :
    ((w.client.m_isConnected = false ∨ w.client.m_conn_id ≠ conn_handle) →
      handleGapEvent (ble_gap_event.disconnect reason conn_handle) w = Except.ok (0, w, []))
    ∧ ((w.client.m_isConnected = true ∧ w.client.m_conn_id = conn_handle) →
      handleGapEvent (ble_gap_event.disconnect reason conn_handle) w
        = Except.ok (0,
            { w with client :=
              { w.client with
                m_semaphoreOpenEvt := { taken := false, value := 1 },
                m_semaphoreSearchCmplEvt := { taken := false, value := 1 },
                m_semeaphoreSecEvt := { taken := false, value := 1 },
                m_isConnected := false,
                m_waitingToConnect := false } },
            (if w.client.m_pClientCallbacks.isSome then [Call.onDisconnect] else [])
              ++ [Call.removeIgnored w.client.m_peerAddress])) := by
  refine ⟨?_, ?_⟩
  · exact disconnect_event_ignored w reason conn_handle
  · rintro ⟨hc, hh⟩
    cases hcb : w.client.m_pClientCallbacks <;>
      simp [handleGapEvent, hc, hh, hcb, Semaphore.giveValue]

/-- C17, witness: a disconnect event for another handle is ignored, and one for the
client's handle releases the gates of a connected client blocked in discovery. -/
theorem C17_disconnect_event_witness :
    handleGapEvent (ble_gap_event.disconnect 19 7) connectedDiscovering
      = Except.ok (0, connectedDiscovering, [])
    ∧ handleGapEvent (ble_gap_event.disconnect 19 1) connectedDiscovering
      = Except.ok (0,
          { connectedDiscovering with client :=
            { connectedDiscovering.client with
              m_semaphoreOpenEvt := { taken := false, value := 1 },
              m_semaphoreSearchCmplEvt := { taken := false, value := 1 },
              m_semeaphoreSecEvt := { taken := false, value := 1 },
              m_isConnected := false,
              m_waitingToConnect := false } },
          (if connectedDiscovering.client.m_pClientCallbacks.isSome then [Call.onDisconnect]
            else [])
            ++ [Call.removeIgnored connectedDiscovering.client.m_peerAddress]) :=
  ⟨(C17_disconnect_event connectedDiscovering 19 7).1 (Or.inr (by decide)),
    (C17_disconnect_event connectedDiscovering 19 1).2 ⟨rfl, rfl⟩⟩

/-- C18: a connect-completion event is ignored, with the world unchanged and no call, when
the pending-connect flag is not set; otherwise, for status 0 it records the
event's connection handle, sets the connected flag, clears the pending-connect
flag, invokes `onConnect` when a callback object is registered, asks
`NimBLEDevice` to add the peer address to the ignore list and resolves the
connection-open gate with 0; and for a non-zero status it clears the
pending-connect flag and resolves the connection-open gate with that status,
making no call and leaving the connected flag as it was, so that it remains
false. -/
theorem C18_connect_event (w : World) (status : Int) (conn_handle : Nat) :
    (w.client.m_waitingToConnect = false →
      handleGapEvent (ble_gap_event.connect status conn_handle) w = Except.ok (0, w, []))
    ∧ (w.client.m_waitingToConnect = true →
      handleGapEvent (ble_gap_event.connect 0 conn_handle) w
        = Except.ok (0,
            { w with client :=
              { w.client with
                m_conn_id := conn_handle,
                m_isConnected := true,
                m_waitingToConnect := false,
                m_semaphoreOpenEvt := { taken := false, value := 0 } } },
            (if w.client.m_pClientCallbacks.isSome then [Call.onConnect] else [])
              ++ [Call.addIgnored w.client.m_peerAddress]))
    ∧ (w.client.m_waitingToConnect = true → status ≠ 0 →
      handleGapEvent (ble_gap_event.connect status conn_handle) w
        = Except.ok (0,
            { w with client :=
              { w.client with
                m_waitingToConnect := false,
                m_semaphoreOpenEvt := { taken := false, value := status } } },
            [])
      ∧ (w.client.m_isConnected = false →
          (handleGapEvent (ble_gap_event.connect status conn_handle) w).toOption.map
            (fun r => r.2.1.client.m_isConnected) = some false)) := by
  refine ⟨?_, ?_, ?_⟩
  · intro h
    simp [handleGapEvent, h]
  · intro h
    cases hcb : w.client.m_pClientCallbacks <;>
      simp [handleGapEvent, h, hcb, Semaphore.giveValue]
  · intro h hs
    refine ⟨by simp [handleGapEvent, h, hs, Semaphore.giveValue], ?_⟩
    intro hc
    simp [handleGapEvent, h, hs, Except.toOption, hc]

/-- C18, witness: a completion with status 0 and handle 2 at a client blocked in its first
`connect`, a completion with status 13 at the same client, and a completion at
a client that is not waiting. -/
theorem C18_connect_event_witness :
    handleGapEvent (ble_gap_event.connect 0 2) firstConnectPending
      = Except.ok (0, firstConnectOpened, [Call.addIgnored 0xAABB])
    ∧ (handleGapEvent (ble_gap_event.connect 13 2) firstConnectPending).toOption.map
        (fun r => r.2.1.client.m_isConnected) = some false
    ∧ handleGapEvent (ble_gap_event.connect 0 2) connectedDiscovering
      = Except.ok (0, connectedDiscovering, []) :=
  ⟨(C18_connect_event firstConnectPending 0 2).2.1 rfl,
    ((C18_connect_event firstConnectPending 13 2).2.2 rfl (by decide)).2 rfl,
    (C18_connect_event connectedDiscovering 0 2).1 rfl⟩

/-! ## C19: events for another connection handle -/

/-- C19, counterexample: a client blocked in its first `connect` stores the invalid
sentinel as its handle; the connect completion with status 0 carries the handle
2, which differs from the client's, and is not ignored: it changes the handle
and the connected flag, resolves the connection-open gate and makes a call. -/
theorem C19_counterexample_connect_completion :
    (ble_gap_event.connect 0 2).conn_handle ≠ firstConnectPending.client.m_conn_id
    ∧ handleGapEvent (ble_gap_event.connect 0 2) firstConnectPending
      = Except.ok (0, firstConnectOpened, [Call.addIgnored 0xAABB])
    ∧ firstConnectOpened.client.m_conn_id ≠ firstConnectPending.client.m_conn_id
    ∧ firstConnectOpened.client.m_isConnected ≠ firstConnectPending.client.m_isConnected
    ∧ firstConnectOpened.client.m_semaphoreOpenEvt
      ≠ firstConnectPending.client.m_semaphoreOpenEvt := by
  refine ⟨by decide, rfl, by decide, by decide, by decide⟩

/-- C19, amended: every GAP event other than a connect completion, and every
service-discovery callback, whose connection handle differs from the client's
current connection handle is ignored: the handler returns 0, leaves the world
as it was and makes no call. -/
theorem C19_other_handle_ignored (w : World) (event : ble_gap_event)
    (conn_handle : Nat) (status : Int) (service : ble_gatt_svc) :
    (event.isConnect = false → event.conn_handle ≠ w.client.m_conn_id →
      handleGapEvent event w = Except.ok (0, w, []))
    ∧ (conn_handle ≠ w.client.m_conn_id →
      serviceDiscoveredCB conn_handle status service w.client = (0, w.client)) := by
  refine ⟨?_, ?_⟩
  · intro hk hh
    cases event with
    | connect st h => simp [ble_gap_event.isConnect] at hk
    | disconnect reason h =>
      have : w.client.m_conn_id ≠ h := fun e => hh e.symm
      exact (disconnect_event_ignored w reason h (Or.inr this))
    | notify_rx h a d i =>
      have : w.client.m_conn_id ≠ h := fun e => hh e.symm
      simp [handleGapEvent, this]
    | l2cap_update_req h => simp [handleGapEvent]
    | enc_change st h =>
      have : w.client.m_conn_id ≠ h := fun e => hh e.symm
      simp [handleGapEvent, this]
    | passkey_action h a n =>
      have : w.client.m_conn_id ≠ h := fun e => hh e.symm
      simp [handleGapEvent, this]
    | other h => simp [handleGapEvent]
  · intro hh
    have : w.client.m_conn_id ≠ conn_handle := fun e => hh e.symm
    simp [serviceDiscoveredCB, NimBLEClient.getConnId, this]

/-- C19, witness: a disconnect event and a found callback for the handle 7 at a client
connected with handle 1. -/
theorem C19_other_handle_ignored_witness :
    handleGapEvent (ble_gap_event.disconnect 19 7) connectedDiscovering
      = Except.ok (0, connectedDiscovering, [])
    ∧ serviceDiscoveredCB 7 0 svcGap connectedDiscovering.client
      = (0, connectedDiscovering.client) :=
  ⟨(C19_other_handle_ignored connectedDiscovering (ble_gap_event.disconnect 19 7) 7 0
      svcGap).1 rfl (by decide),
    (C19_other_handle_ignored connectedDiscovering (ble_gap_event.disconnect 19 7) 7 0
      svcGap).2 (by decide)⟩

/-! ## C20: delivery of notifications and indications -/

theorem notifyLoop_sound (attr_handle : Nat) (om_data : List Nat) (indication : Bool)
    (m : List (String × NimBLERemoteService)) :
    (notifyLoop attr_handle om_data indication m).length ≤ 1
    ∧ ∀ c ∈ notifyLoop attr_handle om_data indication m,
        ∃ sPair ∈ m, ∃ characteristic,
          attr_handle ≤ sPair.2.getEndHandle
          ∧ sPair.2.findByHandle attr_handle = some characteristic
          ∧ characteristic.m_notifyCallback = true
          ∧ c = Call.notifyCallback characteristic.handle om_data (!indication) := by
  induction m with
  | nil => simp [notifyLoop]
  | cons p m ih =>
    simp only [notifyLoop]
    split_ifs with h1
    · refine ⟨ih.1, fun c hc => ?_⟩
      obtain ⟨q, hq, rest⟩ := ih.2 c hc
      exact ⟨q, List.mem_cons_of_mem _ hq, rest⟩
    · cases hf : p.2.findByHandle attr_handle with
      | none =>
        simp only
        refine ⟨ih.1, fun c hc => ?_⟩
        obtain ⟨q, hq, rest⟩ := ih.2 c hc
        exact ⟨q, List.mem_cons_of_mem _ hq, rest⟩
      | some ch =>
        simp only
        split_ifs with hcb
        · refine ⟨by simp, fun c hc => ?_⟩
          simp only [List.mem_singleton] at hc
          exact ⟨p, List.mem_cons_self _ _, ch, Nat.le_of_not_lt h1, hf, hcb, hc⟩
        · simp

theorem notifyLoop_first (attr_handle : Nat) (om_data : List Nat) (indication : Bool)
    (sPair : String × NimBLERemoteService) (characteristic : NimBLERemoteCharacteristic)
    (post : List (String × NimBLERemoteService))
    (hend : attr_handle ≤ sPair.2.getEndHandle)
    (hfind : sPair.2.findByHandle attr_handle = some characteristic) :
    ∀ pre : List (String × NimBLERemoteService),
      (∀ q ∈ pre, q.2.getEndHandle < attr_handle ∨ q.2.findByHandle attr_handle = none) →
      notifyLoop attr_handle om_data indication (pre ++ sPair :: post)
        = if characteristic.m_notifyCallback then
            [Call.notifyCallback characteristic.handle om_data (!indication)]
          else []
  | [], _ => by
    simp [notifyLoop, Nat.not_lt.mpr hend, hfind]
  | q :: pre, hpre => by
    have ih := notifyLoop_first attr_handle om_data indication sPair characteristic post hend
      hfind pre (fun r hr => hpre r (List.mem_cons_of_mem _ hr))
    have hstep : notifyLoop attr_handle om_data indication (q :: (pre ++ sPair :: post))
        = notifyLoop attr_handle om_data indication (pre ++ sPair :: post) := by
      rcases hpre q (List.mem_cons_self _ _) with hq | hq
      · rw [notifyLoop, if_pos hq]
      · rw [notifyLoop, hq]
        split_ifs <;> rfl
    rw [List.cons_append, hstep, ih]

theorem findByHandle_scoped {c : NimBLEClient} (hscoped : RangeScoped c)
    {sPair : String × NimBLERemoteService} (hp : sPair ∈ c.m_servicesMap)
    {attr_handle : Nat} {characteristic : NimBLERemoteCharacteristic}
    (hf : sPair.2.findByHandle attr_handle = some characteristic) :
    characteristic.handle = attr_handle
    ∧ sPair.2.startHandle ≤ attr_handle ∧ attr_handle ≤ sPair.2.endHandle
    ∧ (attr_handle, characteristic) ∈ sPair.2.m_characteristicMapByHandle := by
  simp only [NimBLERemoteService.findByHandle, Option.map_eq_some'] at hf
  obtain ⟨e, he, rfl⟩ := hf
  have hmem := List.mem_of_find?_eq_some he
  have hk := List.find?_some he
  have h1 : e.1 = attr_handle := by simpa using hk
  obtain ⟨h2, h3, h4⟩ := hscoped sPair hp e hmem
  subst h1
  exact ⟨h2, h3, h4, hmem⟩

theorem findByHandle_none_scoped {c : NimBLEClient} (hscoped : RangeScoped c)
    {sPair : String × NimBLERemoteService} (hp : sPair ∈ c.m_servicesMap)
    {attr_handle : Nat}
    (hno : ∀ e ∈ sPair.2.m_characteristicMapByHandle, e.2.handle ≠ attr_handle) :
    sPair.2.findByHandle attr_handle = none := by
  cases hf : sPair.2.findByHandle attr_handle with
  | none => rfl
  | some ch =>
    obtain ⟨h1, _, _, hmem⟩ := findByHandle_scoped hscoped hp hf
    exact absurd h1 (hno _ hmem)

theorem rangeScoped_of_map {c c1 : NimBLEClient}
    (hmap : c1.m_servicesMap = c.m_servicesMap) (hscoped : RangeScoped c) : RangeScoped c1 := by
  intro sPair hp
  rw [hmap] at hp
  exact hscoped sPair hp

theorem rangeScoped_init : RangeScoped NimBLEClient.init := by
  intro sPair hp
  simp [NimBLEClient.init] at hp

theorem rangeScoped_clearServices (c : NimBLEClient) : RangeScoped c.clearServices := by
  intro sPair hp
  simp [NimBLEClient.clearServices] at hp

theorem mapInsert_mem {V : Type} (k : String) (v : V) (p : String × V) :
    ∀ m : List (String × V), p ∈ mapInsert k v m → p = (k, v) ∨ p ∈ m
  | [], h => by
    simp only [mapInsert, List.mem_singleton] at h
    exact Or.inl h
  | (k1, v1) :: m, h => by
    simp only [mapInsert] at h
    split_ifs at h
    · rcases List.mem_cons.mp h with h1 | h1
      · exact Or.inl h1
      · exact Or.inr h1
    · rcases List.mem_cons.mp h with h1 | h1
      · exact Or.inr (h1 ▸ List.mem_cons_self _ _)
      · rcases mapInsert_mem k v p m h1 with h2 | h2
        · exact Or.inl h2
        · exact Or.inr (List.mem_cons_of_mem _ h2)
    · exact Or.inr h

theorem serviceDiscoveredCB_rangeScoped (conn_handle : Nat) (status : Int)
    (service : ble_gatt_svc) (peer : NimBLEClient) (hscoped : RangeScoped peer) :
    RangeScoped (serviceDiscoveredCB conn_handle status service peer).2 := by
  simp only [serviceDiscoveredCB]
  split_ifs
  · exact hscoped
  · intro sPair hp e he
    rcases mapInsert_mem _ _ _ _ hp with h1 | h1
    · subst h1
      simp [NimBLERemoteService.ofSvc] at he
    · exact hscoped sPair h1 e he
  · exact rangeScoped_of_map rfl hscoped
  · exact rangeScoped_of_map rfl hscoped

theorem handleGapEvent_rangeScoped {event : ble_gap_event} {w w1 : World} {r : Int}
    {t : List Call} (h : handleGapEvent event w = Except.ok (r, w1, t))
    (hscoped : RangeScoped w.client) : RangeScoped w1.client :=
  rangeScoped_of_map (handleGapEvent_frame h).2.2.1 hscoped

theorem storeCharacteristics_rangeScoped (key : String)
    (found : List NimBLERemoteCharacteristic) (c : NimBLEClient) (hscoped : RangeScoped c)
    (hfound : ∀ sPair ∈ c.m_servicesMap, sPair.1 = key →
      ∀ characteristic ∈ found,
        sPair.2.startHandle ≤ characteristic.handle
        ∧ characteristic.handle ≤ sPair.2.endHandle) :
    RangeScoped { c with m_servicesMap := storeCharacteristics key found c.m_servicesMap } := by
  intro sPair hp e he
  simp only [storeCharacteristics, List.mem_map] at hp
  obtain ⟨p, hpm, rfl⟩ := hp
  by_cases hk : (p.1 == key) = true
  · rw [if_pos hk] at he ⊢
    simp only [List.mem_append, List.mem_map] at he
    rcases he with he | ⟨ch, hch, rfl⟩
    · exact hscoped p hpm e he
    · have hk1 : p.1 = key := by simpa using hk
      exact ⟨rfl, hfound p hpm hk1 ch hch⟩
  · rw [if_neg hk] at he ⊢
    exact hscoped p hpm e he

/-- C20: for a notification or indication event on the client's connection with attribute
handle h, at a client whose handle maps are range-scoped, the handler returns 0
and leaves the world as it was.  It invokes a notify callback at most once, and
only on a characteristic whose handle equals h, that a registered service holds
under h, whose start..end handle range covers h, and that has a callback
registered; the call carries the event's payload bytes and a flag that is true
exactly when the event is a notification rather than an indication.  When no
registered service holds a characteristic with handle h nothing is invoked.
When services are held, the first service in registry order that holds a
characteristic with handle h decides: its callback is invoked, once, when one is
registered, and nothing is invoked when none is.  When no services are held
nothing is invoked. -/
theorem C20_notify_dispatch (w : World) (attr_handle : Nat) (om_data : List Nat)
    (indication : Bool) (hscoped : RangeScoped w.client) :
    ∃ t,
      handleGapEvent
          (ble_gap_event.notify_rx w.client.m_conn_id attr_handle om_data indication) w
        = Except.ok (0, w, t)
      ∧ t.length ≤ 1
      ∧ (∀ c ∈ t,
          c = Call.notifyCallback attr_handle om_data (!indication)
          ∧ ∃ sPair ∈ w.client.m_servicesMap, ∃ characteristic,
              (attr_handle, characteristic) ∈ sPair.2.m_characteristicMapByHandle
              ∧ sPair.2.findByHandle attr_handle = some characteristic
              ∧ characteristic.handle = attr_handle
              ∧ sPair.2.startHandle ≤ attr_handle
              ∧ attr_handle ≤ sPair.2.endHandle
              ∧ characteristic.m_notifyCallback = true)
      ∧ ((∀ sPair ∈ w.client.m_servicesMap,
            ∀ e ∈ sPair.2.m_characteristicMapByHandle, e.2.handle ≠ attr_handle) → t = [])
      ∧ (w.client.m_haveServices = true →
          ∀ pre sPair post characteristic,
            w.client.m_servicesMap = pre ++ sPair :: post →
            (∀ q ∈ pre, ∀ e ∈ q.2.m_characteristicMapByHandle, e.2.handle ≠ attr_handle) →
            (attr_handle, characteristic) ∈ sPair.2.m_characteristicMapByHandle →
            sPair.2.findByHandle attr_handle = some characteristic →
            t = if characteristic.m_notifyCallback then
                  [Call.notifyCallback attr_handle om_data (!indication)]
                else [])
      ∧ (w.client.m_haveServices = false → t = []) := by
  have hsound := notifyLoop_sound attr_handle om_data indication w.client.m_servicesMap
  by_cases hhave : w.client.m_haveServices = true
  · refine ⟨notifyLoop attr_handle om_data indication w.client.m_servicesMap, ?_, hsound.1,
      ?_, ?_, ?_, fun h => absurd hhave (by simp [h])⟩
    · simp [handleGapEvent, hhave]
    · intro c hc
      obtain ⟨p, hp, ch, _, hf, hcb, rfl⟩ := hsound.2 c hc
      obtain ⟨h1, h2, h3, hmem⟩ := findByHandle_scoped hscoped hp hf
      exact ⟨by rw [h1], p, hp, ch, hmem, hf, h1, h2, h3, hcb⟩
    · intro hno
      rcases List.eq_nil_or_concat
          (notifyLoop attr_handle om_data indication w.client.m_servicesMap) with h | ⟨l, c, h⟩
      · exact h
      · obtain ⟨p, hp, ch, _, hf, _⟩ := hsound.2 c (by rw [h]; simp)
        rw [findByHandle_none_scoped hscoped hp (hno p hp)] at hf
        exact absurd hf (by simp)
    · intro _ pre sPair post characteristic hmap hpre _ hfind
      have hp : sPair ∈ w.client.m_servicesMap := by rw [hmap]; simp
      obtain ⟨h1, _, h3, _⟩ := findByHandle_scoped hscoped hp hfind
      have hfirst := notifyLoop_first attr_handle om_data indication sPair characteristic post
        h3 hfind pre (fun q hq => Or.inr (findByHandle_none_scoped hscoped
          (by rw [hmap]; exact List.mem_append_left _ hq) (hpre q hq)))
      rw [hmap, hfirst, h1]
  · have hfalse : w.client.m_haveServices = false := by simpa using hhave
    refine ⟨[], ?_, by simp, by simp, fun _ => rfl, fun h => absurd h hhave, fun _ => rfl⟩
    simp [handleGapEvent, hfalse]

/-- C20, witness: a notification and an indication for the handle 3 at a client that
holds the characteristic with handle 3 and a callback in a service with handles
1 to 5, a notification for the handle 4, which no service holds, and a
notification for the handle 3 at a client whose characteristic with handle 3
has no callback. -/
theorem C20_notify_dispatch_witness :
    handleGapEvent (ble_gap_event.notify_rx 1 3 [7, 8] false) notifying
      = Except.ok (0, notifying, [Call.notifyCallback 3 [7, 8] true])
    ∧ handleGapEvent (ble_gap_event.notify_rx 1 3 [7, 8] true) notifying
      = Except.ok (0, notifying, [Call.notifyCallback 3 [7, 8] false])
    ∧ handleGapEvent (ble_gap_event.notify_rx 1 4 [7, 8] false) notifying
      = Except.ok (0, notifying, [])
    ∧ handleGapEvent (ble_gap_event.notify_rx 1 3 [7, 8] false) heldNotConnected
      = Except.ok (0, heldNotConnected, [])
    ∧ RangeScoped notifying.client
    ∧ ∃ t,
      handleGapEvent
          (ble_gap_event.notify_rx notifying.client.m_conn_id 3 [7, 8] true) notifying
        = Except.ok (0, notifying, t)
      ∧ t.length ≤ 1
      ∧ (∀ c ∈ t,
          c = Call.notifyCallback 3 [7, 8] (!true)
          ∧ ∃ sPair ∈ notifying.client.m_servicesMap, ∃ characteristic,
              (3, characteristic) ∈ sPair.2.m_characteristicMapByHandle
              ∧ sPair.2.findByHandle 3 = some characteristic
              ∧ characteristic.handle = 3
              ∧ sPair.2.startHandle ≤ 3
              ∧ 3 ≤ sPair.2.endHandle
              ∧ characteristic.m_notifyCallback = true)
      ∧ ((∀ sPair ∈ notifying.client.m_servicesMap,
            ∀ e ∈ sPair.2.m_characteristicMapByHandle, e.2.handle ≠ 3) → t = [])
      ∧ (notifying.client.m_haveServices = true →
          ∀ pre sPair post characteristic,
            notifying.client.m_servicesMap = pre ++ sPair :: post →
            (∀ q ∈ pre, ∀ e ∈ q.2.m_characteristicMapByHandle, e.2.handle ≠ 3) →
            (3, characteristic) ∈ sPair.2.m_characteristicMapByHandle →
            sPair.2.findByHandle 3 = some characteristic →
            t = if characteristic.m_notifyCallback then
                  [Call.notifyCallback 3 [7, 8] (!true)]
                else [])
      ∧ (notifying.client.m_haveServices = false → t = []) :=
  ⟨rfl, rfl, rfl, rfl, by decide, C20_notify_dispatch notifying 3 [7, 8] true (by decide)⟩

/-! ## C21: encryption-change events -/

theorem enc_change_completes (w : World) (status : Int)
    (hfind : w.host.ble_gap_conn_find w.client.m_conn_id = 0)
    (hcb : w.device.m_securityCallbacks = false ∨ w.client.m_pClientCallbacks.isSome = true) :
    ∃ t,
      handleGapEvent (ble_gap_event.enc_change status w.client.m_conn_id) w
        = Except.ok (0,
            { w with client :=
              { w.client with m_semeaphoreSecEvt := { taken := false, value := status } } },
            t) := by
  cases hsec : w.device.m_securityCallbacks with
  | false => exact ⟨[], by simp [handleGapEvent, hsec, Semaphore.giveValue]⟩
  | true =>
    rcases hcb with h | h
    · rw [hsec] at h
      exact absurd h (by simp)
    · cases hc : w.client.m_pClientCallbacks with
      | none => simp [hc] at h
      | some cb =>
        exact ⟨[Call.ble_gap_conn_find w.client.m_conn_id, Call.onAuthenticationComplete],
          by simp [handleGapEvent, hsec, hfind, hc, Semaphore.giveValue]⟩

theorem enc_change_null_callback (w : World) (status : Int)
    (hfind : w.host.ble_gap_conn_find w.client.m_conn_id = 0)
    (hsec : w.device.m_securityCallbacks = true)
    (hcb : w.client.m_pClientCallbacks = none) :
    handleGapEvent (ble_gap_event.enc_change status w.client.m_conn_id) w
      = Except.error Stop.nullDeref := by
  simp [handleGapEvent, hsec, hfind, hcb]

/-- C21, the code at the failing input: an encryption-change event for the client's
connection, with the device-level security-callback interface present and no
callback object registered on the client, makes the handler call
`onAuthenticationComplete` through the null `m_pClientCallbacks`; the handler
does not complete and the security gate stays taken. -/
theorem C21_enc_change_null_callback :
    encNoClientCallbacks.device.m_securityCallbacks = true
    ∧ encNoClientCallbacks.client.m_pClientCallbacks.isNone = true
    ∧ encNoClientCallbacks.client.m_semeaphoreSecEvt.taken = true
    ∧ handleGapEvent (ble_gap_event.enc_change 0 encNoClientCallbacks.client.m_conn_id)
        encNoClientCallbacks = Except.error Stop.nullDeref :=
  ⟨rfl, rfl, rfl, rfl⟩

/-! ## C22: the terminal callback of a service discovery -/

/-- C22, counterexample: the service-discovery callback for the client's connection reports
the terminal error status 3; the callback returns 3 and the discovery gate is
resolved with 1, not with 3. -/
theorem C22_counterexample_error_code :
    (3 : Int) ≠ 0 ∧ (3 : Int) ≠ BLE_HS_EDONE
    ∧ (serviceDiscoveredCB connectedDiscovering.client.m_conn_id 3 svcNone
        connectedDiscovering.client).1 = 3
    ∧ (serviceDiscoveredCB connectedDiscovering.client.m_conn_id 3 svcNone
        connectedDiscovering.client).2.m_semaphoreSearchCmplEvt
      = { taken := false, value := 1 } := by
  decide

/-- C22, amended: when the service-discovery callback for the client's connection reports
the terminal status done, it returns 0 and the discovery gate is resolved with 0;
when it reports a terminal error status e, non-zero and not done, it returns e
and the discovery gate is resolved with the non-zero result 1; in both cases
nothing else of the client changes. -/
theorem C22_terminal_callback (peer : NimBLEClient) (service : ble_gatt_svc) (e : Int)
    (he0 : e ≠ 0) (hed : e ≠ BLE_HS_EDONE) :
    serviceDiscoveredCB peer.m_conn_id BLE_HS_EDONE service peer
      = (0, { peer with m_semaphoreSearchCmplEvt := { taken := false, value := 0 } })
    ∧ serviceDiscoveredCB peer.m_conn_id e service peer
      = (e, { peer with m_semaphoreSearchCmplEvt := { taken := false, value := 1 } }) := by
  refine ⟨?_, ?_⟩
  · simp [serviceDiscoveredCB, NimBLEClient.getConnId, BLE_HS_EDONE, Semaphore.giveValue]
  · simp [serviceDiscoveredCB, NimBLEClient.getConnId, he0, hed, Semaphore.giveValue]

/-- C22, witness: the amended statement at a client blocked in discovery and the error
status 3. -/
theorem C22_terminal_callback_witness :
    serviceDiscoveredCB connectedDiscovering.client.m_conn_id BLE_HS_EDONE svcNone
        connectedDiscovering.client
      = (0, { connectedDiscovering.client with
              m_semaphoreSearchCmplEvt := { taken := false, value := 0 } })
    ∧ serviceDiscoveredCB connectedDiscovering.client.m_conn_id 3 svcNone
        connectedDiscovering.client
      = (3, { connectedDiscovering.client with
              m_semaphoreSearchCmplEvt := { taken := false, value := 1 } }) :=
  C22_terminal_callback connectedDiscovering.client svcNone 3 (by decide) (by decide)
/-! ## C23: the characteristic phase of `retrieveServices` -/

theorem calledKeys_append (a b : List Call) :
    calledKeys (a ++ b) = calledKeys a ++ calledKeys b := by
  induction a with
  | nil => rfl
  | cons c a ih => cases c <;> simp [calledKeys, ih]

theorem notifyLoop_calledKeys (attr_handle : Nat) (om_data : List Nat) (indication : Bool)
    (m : List (String × NimBLERemoteService)) :
    calledKeys (notifyLoop attr_handle om_data indication m) = [] := by
  induction m with
  | nil => simp [notifyLoop, calledKeys]
  | cons p m ih =>
    simp only [notifyLoop]
    split_ifs with h1
    · exact ih
    · cases p.2.findByHandle attr_handle with
      | none => exact ih
      | some ch =>
        simp only
        split_ifs <;> simp [calledKeys]

theorem passkeyAction_calledKeys (client : NimBLEClient) (device : NimBLEDevice)
    (conn_handle : Nat) (action : ble_sm_ioact) (numcmp : Nat) :
    calledKeys (passkeyAction client device conn_handle action numcmp) = [] := by
  cases action <;> cases hcb : client.m_pClientCallbacks <;>
    simp [passkeyAction, hcb, calledKeys]

theorem handleGapEvent_calledKeys {event : ble_gap_event} {w w1 : World} {r : Int}
    {t : List Call} (h : handleGapEvent event w = Except.ok (r, w1, t)) :
    calledKeys t = [] := by
  cases event with
  | connect status conn_handle =>
    simp only [handleGapEvent] at h
    split_ifs at h <;> simp only [Except.ok.injEq, Prod.mk.injEq] at h <;>
      obtain ⟨rfl, rfl, rfl⟩ := h <;>
      cases w.client.m_pClientCallbacks <;> simp [calledKeys]
  | disconnect reason conn_handle =>
    simp only [handleGapEvent] at h
    split_ifs at h <;> simp only [Except.ok.injEq, Prod.mk.injEq] at h <;>
      obtain ⟨rfl, rfl, rfl⟩ := h <;>
      cases w.client.m_pClientCallbacks <;> simp [calledKeys]
  | notify_rx conn_handle attr_handle om_data indication =>
    simp only [handleGapEvent] at h
    split_ifs at h <;> simp only [Except.ok.injEq, Prod.mk.injEq] at h <;>
      obtain ⟨rfl, rfl, rfl⟩ := h
    · rfl
    · rfl
    · exact notifyLoop_calledKeys _ _ _ _
  | l2cap_update_req conn_handle =>
    simp only [handleGapEvent, Except.ok.injEq, Prod.mk.injEq] at h
    obtain ⟨rfl, rfl, rfl⟩ := h
    rfl
  | enc_change status conn_handle =>
    simp only [handleGapEvent] at h
    split_ifs at h
    · simp only [Except.ok.injEq, Prod.mk.injEq] at h
      obtain ⟨rfl, rfl, rfl⟩ := h
      rfl
    · cases hcb : w.client.m_pClientCallbacks with
      | none => simp [hcb] at h
      | some cb =>
        simp only [hcb, Except.ok.injEq, Prod.mk.injEq] at h
        obtain ⟨rfl, rfl, rfl⟩ := h
        simp [calledKeys]
    · simp only [Except.ok.injEq, Prod.mk.injEq] at h
      obtain ⟨rfl, rfl, rfl⟩ := h
      rfl
  | passkey_action conn_handle action numcmp =>
    simp only [handleGapEvent] at h
    split_ifs at h <;> simp only [Except.ok.injEq, Prod.mk.injEq] at h <;>
      obtain ⟨rfl, rfl, rfl⟩ := h
    · rfl
    · exact passkeyAction_calledKeys _ _ _ _ _
  | other conn_handle =>
    simp only [handleGapEvent, Except.ok.injEq, Prod.mk.injEq] at h
    obtain ⟨rfl, rfl, rfl⟩ := h
    rfl

theorem deliverGapEvents_registry :
    ∀ (evs : List ble_gap_event) (w w1 : World) (u : Unit) (t : List Call),
      deliverGapEvents evs w = Except.ok (u, w1, t) →
      calledKeys t = [] ∧ w1.client.m_servicesMap = w.client.m_servicesMap
  | [], w, w1, u, t, h => by
    simp only [deliverGapEvents, Except.ok.injEq, Prod.mk.injEq] at h
    obtain ⟨_, rfl, rfl⟩ := h
    exact ⟨rfl, rfl⟩
  | e :: rest, w, w1, u, t, h => by
    simp only [deliverGapEvents] at h
    obtain ⟨a, w2, t1, t2, h1, h2, rfl⟩ := Res.andThen_eq_ok h
    obtain ⟨hk, hm⟩ := deliverGapEvents_registry rest w2 w1 u t2 h2
    refine ⟨?_, hm.trans (handleGapEvent_frame h1).2.2.1⟩
    rw [calledKeys_append, handleGapEvent_calledKeys h1, hk]
    rfl

theorem waitDiscoveryEvents_resolved :
    ∀ (evs : List HostEvent) (w w1 : World) (rc : Int) (t : List Call),
      waitDiscoveryEvents evs w = Except.ok (rc, w1, t) →
      calledKeys t = [] ∧ w1.client.m_semaphoreSearchCmplEvt = { taken := false, value := rc }
  | [], w, w1, rc, t, h => by
    simp only [waitDiscoveryEvents] at h
    split_ifs at h with ht
    simp only [Except.ok.injEq, Prod.mk.injEq] at h
    obtain ⟨rfl, rfl, rfl⟩ := h
    refine ⟨rfl, ?_⟩
    have hf : w.client.m_semaphoreSearchCmplEvt.taken = false := by simpa using ht
    cases hs : w.client.m_semaphoreSearchCmplEvt with
    | mk tk v =>
      rw [hs] at hf
      simp only at hf
      subst hf
      rfl
  | e :: rest, w, w1, rc, t, h => by
    simp only [waitDiscoveryEvents] at h
    split_ifs at h with ht
    · obtain ⟨a, w2, t1, t2, h1, h2, rfl⟩ := Res.andThen_eq_ok h
      obtain ⟨hk, hg⟩ := waitDiscoveryEvents_resolved rest w2 w1 rc t2 h2
      refine ⟨?_, hg⟩
      have h4 : calledKeys t1 = [] := by
        cases e with
        | gap event => exact handleGapEvent_calledKeys h1
        | svc conn_handle status service =>
          simp only [dispatch, Except.ok.injEq, Prod.mk.injEq] at h1
          obtain ⟨_, _, rfl⟩ := h1
          rfl
      rw [calledKeys_append, h4, hk]
      rfl
    · simp only [Except.ok.injEq, Prod.mk.injEq] at h
      obtain ⟨rfl, rfl, rfl⟩ := h
      refine ⟨rfl, ?_⟩
      have hf : w.client.m_semaphoreSearchCmplEvt.taken = false := by simpa using ht
      cases hs : w.client.m_semaphoreSearchCmplEvt with
      | mk tk v =>
        rw [hs] at hf
        simp only at hf
        subst hf
        rfl

theorem storeCharacteristics_registered (key : String)
    (found : List NimBLERemoteCharacteristic) (m : List (String × NimBLERemoteService)) :
    (storeCharacteristics key found m).map
        (fun myPair => (myPair.1, myPair.2.uuid, myPair.2.startHandle, myPair.2.endHandle))
      = m.map
        (fun myPair => (myPair.1, myPair.2.uuid, myPair.2.startHandle, myPair.2.endHandle)) := by
  unfold storeCharacteristics
  rw [List.map_map]
  apply List.map_congr_left
  intro p _
  simp only [Function.comp]
  split_ifs <;> rfl

theorem retrieveCharacteristics_registry (key : String) (w w1 : World) (b : Bool)
    (t : List Call) (h : retrieveCharacteristics key w = Except.ok (b, w1, t)) :
    calledKeys t = [key] ∧ registered w1 = registered w := by
  unfold retrieveCharacteristics at h
  cases hd : w.host.charDisc with
  | nil => simp [hd] at h
  | cons d ds =>
    simp only [hd] at h
    obtain ⟨t1, h1, rfl⟩ := Res.after_eq_ok h
    obtain ⟨a, w2, t2, t3, h2, h3, rfl⟩ := Res.andThen_eq_ok h1
    simp only [Except.ok.injEq, Prod.mk.injEq] at h3
    obtain ⟨_, rfl, rfl⟩ := h3
    obtain ⟨hk, hm⟩ := deliverGapEvents_registry _ _ _ _ _ h2
    refine ⟨?_, ?_⟩
    · rw [calledKeys_append, calledKeys_append, hk]
      rfl
    · simp only [registered]
      rw [storeCharacteristics_registered, hm]

theorem retrieveAllCharacteristics_prefix :
    ∀ (keys : List String) (w w1 : World) (b : Bool) (t : List Call),
      retrieveAllCharacteristics keys w = Except.ok (b, w1, t) →
      ∃ k, k ≤ keys.length ∧ calledKeys t = keys.take k ∧ (b = true → k = keys.length)
        ∧ registered w1 = registered w
  | [], w, w1, b, t, h => by
    simp only [retrieveAllCharacteristics, Except.ok.injEq, Prod.mk.injEq] at h
    obtain ⟨_, rfl, rfl⟩ := h
    exact ⟨0, le_refl _, rfl, fun _ => rfl, rfl⟩
  | key :: rest, w, w1, b, t, h => by
    simp only [retrieveAllCharacteristics] at h
    split_ifs at h
    · simp only [Except.ok.injEq, Prod.mk.injEq] at h
      obtain ⟨rfl, rfl, rfl⟩ := h
      exact ⟨0, Nat.zero_le _, rfl, fun hb => absurd hb (by simp), rfl⟩
    · obtain ⟨ok, w2, t1, t2, h1, h2, rfl⟩ := Res.andThen_eq_ok h
      obtain ⟨hk1, hr1⟩ := retrieveCharacteristics_registry key w w2 ok t1 h1
      split_ifs at h2
      · simp only [Except.ok.injEq, Prod.mk.injEq] at h2
        obtain ⟨rfl, rfl, rfl⟩ := h2
        refine ⟨1, by simp, ?_, fun hb => absurd hb (by simp), hr1⟩
        rw [calledKeys_append, hk1]
        rfl
      · obtain ⟨k, hk, hkeys, hall, hreg⟩ :=
          retrieveAllCharacteristics_prefix rest w2 w1 b t2 h2
        refine ⟨k + 1, by simpa using hk, ?_, fun hb => by simp [hall hb], hreg.trans hr1⟩
        rw [calledKeys_append, hk1, hkeys]
        rfl

/-- C23: `retrieveServices` on a client that is not connected returns false at once.  On a
connected client it runs the service phase; it calls `retrieveCharacteristics`
only when the service phase returned success, the discovery gate being then
resolved with 0, and returns false without such a call otherwise.  In the
characteristic phase the services on which `retrieveCharacteristics` is called
are an initial run of the registered services in registry order, all of them
when the result is true, and the registered services are afterwards those of
after the service phase.  The loop returns false without a call on this or a
later service when the client is not connected, returns false after a call that
fails, without a call on a later service, goes on with the next service after a
call that succeeds, and returns true when no service is left. -/
theorem C23_characteristic_phase (w : World) :
    (w.client.m_isConnected = false → retrieveServices w = Except.ok (false, w, []))
    ∧ (w.client.m_isConnected = true →
        ∀ b w2 t, retrieveServices w = Except.ok (b, w2, t) →
          ∃ hs w1 t1 t2,
            discoverServices w = Except.ok (hs, w1, t1) ∧ calledKeys t1 = [] ∧ t = t1 ++ t2
            ∧ ((hs = false ∧ b = false ∧ w2 = w1 ∧ t2 = [])
              ∨ (hs = true
                ∧ w1.client.m_semaphoreSearchCmplEvt = { taken := false, value := 0 }
                ∧ retrieveAllCharacteristics (registryKeys w1) w1 = Except.ok (b, w2, t2)
                ∧ ∃ k, k ≤ (registryKeys w1).length
                    ∧ calledKeys t2 = (registryKeys w1).take k
                    ∧ (b = true → k = (registryKeys w1).length)
                    ∧ registered w2 = registered w1)))
    ∧ (∀ key rest,
        (w.client.m_isConnected = false →
          retrieveAllCharacteristics (key :: rest) w = Except.ok (false, w, []))
        ∧ (w.client.m_isConnected = true →
            ∀ w1 t, retrieveCharacteristics key w = Except.ok (false, w1, t) →
              retrieveAllCharacteristics (key :: rest) w = Except.ok (false, w1, t)
              ∧ calledKeys t = [key])
        ∧ (w.client.m_isConnected = true →
            ∀ w1 t, retrieveCharacteristics key w = Except.ok (true, w1, t) →
              retrieveAllCharacteristics (key :: rest) w
                = Res.after t (retrieveAllCharacteristics rest w1)))
    ∧ retrieveAllCharacteristics [] w = Except.ok (true, w, []) := by
  refine ⟨?_, ?_, ?_, rfl⟩
  · intro hc
    simp [retrieveServices, hc]
  · intro hc b w2 t h
    simp only [retrieveServices, hc, Bool.true_eq_false, if_false] at h
    obtain ⟨hs, w1, t1, t2, h1, h2, rfl⟩ := Res.andThen_eq_ok h
    have hd : calledKeys t1 = []
        ∧ (hs = true → w1.client.m_semaphoreSearchCmplEvt = { taken := false, value := 0 }) := by
      have h1c := h1
      simp only [discoverServices] at h1c
      obtain ⟨t3, h4, rfl⟩ := Res.after_eq_ok h1c
      split_ifs at h4
      · simp only [Except.ok.injEq, Prod.mk.injEq] at h4
        obtain ⟨rfl, rfl, rfl⟩ := h4
        exact ⟨rfl, fun hb => absurd hb (by simp)⟩
      · obtain ⟨rc1, w3, t4, t5, h5, h6, rfl⟩ := Res.andThen_eq_ok h4
        simp only [Except.ok.injEq, Prod.mk.injEq] at h6
        obtain ⟨rfl, rfl, rfl⟩ := h6
        obtain ⟨hk, hg⟩ := waitDiscoveryEvents_resolved _ _ _ _ _ h5
        refine ⟨?_, ?_⟩
        · rw [calledKeys_append, calledKeys_append, hk]
          rfl
        · intro hb
          have hrc : rc1 = 0 := by simpa using hb
          simp only [hg, hrc]
    refine ⟨hs, w1, t1, t2, h1, hd.1, rfl, ?_⟩
    cases hs with
    | false =>
      left
      simp only [Bool.false_eq_true, if_false, Except.ok.injEq, Prod.mk.injEq] at h2
      obtain ⟨rfl, rfl, rfl⟩ := h2
      exact ⟨rfl, rfl, rfl, rfl⟩
    | true =>
      right
      simp only [if_true] at h2
      exact ⟨rfl, hd.2 rfl, h2, retrieveAllCharacteristics_prefix _ _ _ _ _ h2⟩
  · intro key rest
    refine ⟨?_, ?_, ?_⟩
    · intro hc
      simp [retrieveAllCharacteristics, hc]
    · intro hc w1 t h
      refine ⟨?_, (retrieveCharacteristics_registry key w w1 false t h).1⟩
      simp [retrieveAllCharacteristics, hc, h, Res.andThen_ok]
    · intro hc w1 t h
      simp [retrieveAllCharacteristics, hc, h, Res.andThen_ok]

/-- C23, witness: two services are found; the characteristic discovery of the first, in
registry order the one with UUID 0x1800, succeeds and that of the second fails:
`retrieveServices` returns false after one call on each, and both services are
still registered. -/
theorem C23_characteristic_phase_witness :
    (retrieveServices secondFails).toOption.map
        (fun r => (r.1, calledKeys r.2.2, registered r.2.1))
      = some (false, ["0x1800", "0x180a"],
          [("0x1800", "0x1800", 1, 5), ("0x180a", "0x180a", 6, 9)])
    ∧ ∀ b w2 t, retrieveServices secondFails = Except.ok (b, w2, t) →
        ∃ hs w1 t1 t2,
          discoverServices secondFails = Except.ok (hs, w1, t1) ∧ calledKeys t1 = []
          ∧ t = t1 ++ t2
          ∧ ((hs = false ∧ b = false ∧ w2 = w1 ∧ t2 = [])
            ∨ (hs = true
              ∧ w1.client.m_semaphoreSearchCmplEvt = { taken := false, value := 0 }
              ∧ retrieveAllCharacteristics (registryKeys w1) w1 = Except.ok (b, w2, t2)
              ∧ ∃ k, k ≤ (registryKeys w1).length
                  ∧ calledKeys t2 = (registryKeys w1).take k
                  ∧ (b = true → k = (registryKeys w1).length)
                  ∧ registered w2 = registered w1)) :=
  ⟨rfl, (C23_characteristic_phase secondFails).2.1 rfl⟩

/-! ## The handle maps that discovery builds -/

theorem deliverGapEvents_rangeScoped {evs : List ble_gap_event} {w w1 : World} {u : Unit}
    {t : List Call} (h : deliverGapEvents evs w = Except.ok (u, w1, t))
    (hscoped : RangeScoped w.client) : RangeScoped w1.client :=
  rangeScoped_of_map (deliverGapEvents_registry evs w w1 u t h).2 hscoped

theorem dispatch_rangeScoped {e : HostEvent} {w w1 : World} {r : Int} {t : List Call}
    (h : dispatch e w = Except.ok (r, w1, t)) (hscoped : RangeScoped w.client) :
    RangeScoped w1.client := by
  cases e with
  | gap event => exact handleGapEvent_rangeScoped h hscoped
  | svc conn_handle status service =>
    simp only [dispatch, Except.ok.injEq, Prod.mk.injEq] at h
    obtain ⟨_, rfl, _⟩ := h
    exact serviceDiscoveredCB_rangeScoped conn_handle status service w.client hscoped

theorem retrieveCharacteristics_rangeScoped (key : String) (w w1 : World) (b : Bool)
    (t : List Call) (h : retrieveCharacteristics key w = Except.ok (b, w1, t))
    (hscoped : RangeScoped w.client)
    (hfound : ∀ d ∈ w.host.charDisc.head?, ∀ sPair ∈ w.client.m_servicesMap, sPair.1 = key →
      ∀ characteristic ∈ d.found,
        sPair.2.startHandle ≤ characteristic.handle
        ∧ characteristic.handle ≤ sPair.2.endHandle) :
    RangeScoped w1.client := by
  unfold retrieveCharacteristics at h
  cases hd : w.host.charDisc with
  | nil => simp [hd] at h
  | cons d ds =>
    simp only [hd] at h
    obtain ⟨t1, h1, rfl⟩ := Res.after_eq_ok h
    obtain ⟨a, w2, t2, t3, h2, h3, rfl⟩ := Res.andThen_eq_ok h1
    simp only [Except.ok.injEq, Prod.mk.injEq] at h3
    obtain ⟨_, rfl, rfl⟩ := h3
    have hm := (deliverGapEvents_registry _ _ _ _ _ h2).2
    have hs2 : RangeScoped w2.client := rangeScoped_of_map hm hscoped
    refine storeCharacteristics_rangeScoped key d.found w2.client hs2 ?_
    intro sPair hp hk
    rw [hm] at hp
    exact hfound d (by simp [hd]) sPair hp hk

/-- The discovery of the scenario `secondFails` leaves range-scoped handle maps: the
characteristic with handle 3 that the first characteristic discovery found is
held by the service with handles 1 to 5. -/
theorem retrieveServices_rangeScoped_example :
    ∃ b w1 t,
      retrieveServices secondFails = Except.ok (b, w1, t)
      ∧ RangeScoped w1.client
      ∧ w1.client.m_servicesMap.map
          (fun p => (p.2.startHandle, p.2.endHandle, p.2.m_characteristicMapByHandle))
        = [(1, 5, [(3, charName)]), (6, 9, [])] :=
  ⟨_, _, _, rfl, by decide, rfl⟩

end NimBLE
